import Mathlib

/-!
# The topup-game backend: model hooks, voucher ledger, CSRF tokens and services

A shallow embedding of the ORM hooks of `internal/models/transaction.go` and
`internal/models/voucher.go`, of the CSRF middleware of
`internal/middleware/csrf.go`, of the role check and the rate limiter of
`internal/middleware/auth.go`, of the phone, slug and pagination helpers of
`internal/utils/helpers.go`, and of `Register`, `Login`, `CreateProduct` and
`UpdateProduct` of `internal/services`, with the voucher operations that the
source only declares modelled from the specification.

* A hook receives a pointer to its receiver and a database handle.  Here the
  receiver and the store are passed in and handed back, together with the
  returned `error` (`none` stands for `nil`).
* `time.Time` is an instant counted in nanoseconds from the zero time, and
  every `time.Now()` read of a hook is an argument of the embedded hook.
* `uint` identifiers are natural numbers and `int` counters are integers; the
  hooks only compare them.  Where the source subtracts two `int64` values the
  result is wrapped to 64 bits.
* `float64` amounts are rational numbers.
* A Go string of the CSRF code, a phone or a password is a list of bytes;
  HMAC-SHA256, the password hash, the token generation and the Unicode
  lower-case mapping are arguments.
* The map of the rate limiter is passed in and handed back, and the requests
  are handled one after the other.
-/

namespace TopupGame

/-! ## Time -/

/-- An instant, in nanoseconds since the zero time. -/
abbrev Time := Int

/-- A duration in nanoseconds (`time.Duration`). -/
abbrev Duration := Int

/-- The constant `time.Hour`. -/
def Hour : Duration := 3600 * 1000000000

/-- The method `Time.Add`. -/
def Time.Add (t : Time) (d : Duration) : Time := t + d

/-- The method `Time.After`. -/
def Time.After (t u : Time) : Bool := decide (u < t)

/-- The method `Time.Before`. -/
def Time.Before (t u : Time) : Bool := decide (t < u)

/-- The method `Time.Truncate`: round down to a multiple of `d` since the zero
time; a duration `d <= 0` gives the instant back. -/
def Time.Truncate (t : Time) (d : Duration) : Time :=
  if d ≤ 0 then t else t - t % d

/-! ## Errors -/

/-- The errors a hook can return: the two ORM sentinels the models meet, and
any other failure reported by the store. -/
inductive Error where
  | ErrRecordNotFound
  | ErrInvalidData
  | store (msg : String)
  deriving DecidableEq, Repr

/-! ## Transactions -/

/-- The fields of `Transaction` that the hooks read or write, with the keys
that identify the row, the pricing fields and the two row timestamps the ORM
maintains.  The `float64` amounts are held as the rational numbers they
denote; no hook computes with them. -/
structure Transaction where
  ID : Nat
  TransactionCode : String
  UserID : Nat
  ProductID : Nat
  ProductPrice : Rat
  PaymentFee : Rat
  VoucherDiscount : Rat
  TotalAmount : Rat
  PaymentStatus : String
  Status : String
  ProcessedAt : Option Time
  CompletedAt : Option Time
  ExpiredAt : Option Time
  CreatedAt : Time
  UpdatedAt : Time
  deriving DecidableEq, Repr

/-- A row of `TransactionLog`. -/
structure TransactionLog where
  ID : Nat
  TransactionID : Nat
  StatusFrom : Option String
  StatusTo : String
  Message : Option String
  CreatedByAdmin : Option Nat
  CreatedAt : Time
  deriving DecidableEq, Repr

/-- The helper `stringPtr`. -/
def stringPtr (s : String) : Option String := some s

/-- The helper `generateTransactionCode`, given the string form of the fresh
UUID: the prefix `TXN` and the first eight characters. -/
def generateTransactionCode (uuid : String) : String :=
  "TXN" ++ uuid.take 8

/-! ## The store -/

/-- The part of the database the transaction hooks talk to: the stored
transactions, the log table with its next primary key, and the failure (if
any) with which the store answers a query or an insert. -/
structure DB where
  transactions : List Transaction
  logs : List TransactionLog
  nextLogID : Nat
  readFault : Option Error
  writeFault : Option Error
  deriving DecidableEq, Repr

/-- The query `tx.First(&original, id)`: the stored row with that primary
key, `ErrRecordNotFound` when there is none, or the store's own failure. -/
def DB.First (db : DB) (id : Nat) : Except Error Transaction :=
  match db.readFault with
  | some e => .error e
  | none =>
    match db.transactions.find? (fun r => r.ID == id) with
    | some r => .ok r
    | none => .error Error.ErrRecordNotFound

/-- The insert `tx.Create(&log)`: the row is appended under the next primary
key, unless the store fails, in which case nothing is written. -/
def DB.Create (db : DB) (log : TransactionLog) : Except Error DB :=
  match db.writeFault with
  | some e => .error e
  | none =>
    .ok { db with
      logs := db.logs ++ [{ log with ID := db.nextLogID }]
      nextLogID := db.nextLogID + 1 }

/-- What a transaction hook leaves behind: the returned error, the receiver
and the store. -/
structure HookResult where
  err : Option Error
  t : Transaction
  db : DB
  deriving DecidableEq, Repr

/-! ## Transaction hooks -/

/-- The hook `Transaction.BeforeCreate`; `uuid` is the fresh UUID and `now`
the clock reading. -/
def Transaction.BeforeCreate (t : Transaction) (db : DB) (uuid : String) (now : Time) :
    HookResult :=
  let t1 :=
    if t.TransactionCode = "" then
      { t with TransactionCode := generateTransactionCode uuid }
    else t
  let t2 :=
    if t1.ExpiredAt = none then
      { t1 with ExpiredAt := some (Time.Add now (24 * Hour)) }
    else t1
  { err := none, t := t2, db := db }

/-- The hook `Transaction.AfterCreate`; `now` is the clock reading. -/
def Transaction.AfterCreate (t : Transaction) (db : DB) (now : Time) : HookResult :=
  let log : TransactionLog :=
    { ID := 0
      TransactionID := t.ID
      StatusFrom := none
      StatusTo := t.Status
      Message := stringPtr "Transaction created"
      CreatedByAdmin := none
      CreatedAt := now }
  match db.Create log with
  | .error e => { err := some e, t := t, db := db }
  | .ok db1 => { err := none, t := t, db := db1 }

/-- The hook `Transaction.BeforeUpdate`; `nowLog` and `now` are its two clock
readings, in the order they are taken. -/
def Transaction.BeforeUpdate (t : Transaction) (db : DB) (nowLog now : Time) : HookResult :=
  match db.First t.ID with
  | .error e => { err := some e, t := t, db := db }
  | .ok original =>
    if original.Status ≠ t.Status then
      let log : TransactionLog :=
        { ID := 0
          TransactionID := t.ID
          StatusFrom := some original.Status
          StatusTo := t.Status
          Message := stringPtr "Status updated"
          CreatedByAdmin := none
          CreatedAt := nowLog }
      match db.Create log with
      | .error e => { err := some e, t := t, db := db }
      | .ok db1 =>
        if t.Status = "processing" then
          if t.ProcessedAt = none then
            { err := none, t := { t with ProcessedAt := some now }, db := db1 }
          else { err := none, t := t, db := db1 }
        else if t.Status = "completed" then
          if t.CompletedAt = none then
            { err := none, t := { t with CompletedAt := some now }, db := db1 }
          else { err := none, t := t, db := db1 }
        else { err := none, t := t, db := db1 }
    else { err := none, t := t, db := db }

/-! ## Vouchers -/

/-- The fields of `Voucher` (the field `Type` is `VoucherType` here).  The
`float64` amounts are held as the rational numbers they denote; no hook
computes with them. -/
structure Voucher where
  ID : Nat
  Code : String
  VoucherType : String
  Value : Rat
  ApplicationType : String
  MinTransactionAmount : Rat
  MaxDiscountAmount : Option Rat
  Quota : Int
  UsedCount : Int
  MaxUsesPerUser : Int
  StartDate : Time
  EndDate : Time
  Status : String
  deriving DecidableEq, Repr

/-- What a voucher hook leaves behind: the returned error and the receiver. -/
structure VoucherResult where
  err : Option Error
  v : Voucher
  deriving DecidableEq, Repr

/-- The hook `Voucher.BeforeCreate`; `now` is the clock reading. -/
def Voucher.BeforeCreate (v : Voucher) (now : Time) : VoucherResult :=
  if Time.After v.StartDate v.EndDate then
    { err := some Error.ErrInvalidData, v := v }
  else
    let v1 :=
      if Time.Before v.EndDate (Time.Truncate now (24 * Hour)) then
        { v with Status := "expired" }
      else v
    { err := none, v := v1 }

/-- The hook `Voucher.BeforeUpdate`; `now` is the clock reading. -/
def Voucher.BeforeUpdate (v : Voucher) (now : Time) : VoucherResult :=
  if Time.After v.StartDate v.EndDate then
    { err := some Error.ErrInvalidData, v := v }
  else
    let v1 :=
      if Time.Before v.EndDate (Time.Truncate now (24 * Hour)) then
        { v with Status := "expired" }
      else v
    let v2 :=
      if v1.UsedCount ≥ v1.Quota then
        { v1 with Status := "inactive" }
      else v1
    { err := none, v := v2 }

/-! ## Specification devices -/

/-- The legal transition graph as the specification words it: pending to
processing, processing to completed, pending or processing to cancelled,
pending or processing to failed. -/
def specLegalEdge (s s1 : String) : Bool :=
  (s == "pending" && s1 == "processing") ||
  (s == "processing" && s1 == "completed") ||
  ((s == "pending" || s == "processing") && s1 == "cancelled") ||
  ((s == "pending" || s == "processing") && s1 == "failed")

/-- One status update as the hook sees it: the requested status, the store it
runs against and its two clock readings. -/
structure UpdateStep where
  status : String
  db : DB
  nowLog : Time
  now : Time
  deriving DecidableEq, Repr

/-- A sequence of status updates of one in-memory transaction: each step
writes the requested status into the receiver and runs
`Transaction.BeforeUpdate` on it; the receiver the hook leaves behind goes
into the next step, whether or not the hook returned an error. -/
def runUpdates (t : Transaction) : List UpdateStep → Transaction
  | [] => t
  | s :: rest =>
    runUpdates (Transaction.BeforeUpdate { t with Status := s.status } s.db s.nowLog s.now).t rest

/-! ## Sample data -/

/-- A stored transaction that is completed. -/
def sampleCompleted : Transaction :=
  { ID := 1, TransactionCode := "TXN0a1b2c3d", UserID := 7, ProductID := 3,
    ProductPrice := 50000, PaymentFee := 1500, VoucherDiscount := 0, TotalAmount := 51500,
    PaymentStatus := "paid", Status := "completed",
    ProcessedAt := some 1000, CompletedAt := some 2000, ExpiredAt := some 90000,
    CreatedAt := 500, UpdatedAt := 2000 }

/-- A stored transaction that is pending. -/
def samplePending : Transaction :=
  { ID := 2, TransactionCode := "TXN11223344", UserID := 7, ProductID := 3,
    ProductPrice := 20000, PaymentFee := 0, VoucherDiscount := 2000, TotalAmount := 18000,
    PaymentStatus := "pending", Status := "pending",
    ProcessedAt := none, CompletedAt := none, ExpiredAt := some 90000,
    CreatedAt := 600, UpdatedAt := 600 }

/-- A healthy store holding the two sample transactions and no log row. -/
def sampleDB : DB :=
  { transactions := [sampleCompleted, samplePending], logs := [], nextLogID := 1,
    readFault := none, writeFault := none }

/-- The sample store when inserts fail. -/
def sampleDBFailing : DB :=
  { sampleDB with writeFault := some (Error.store "insert failed") }

/-- A voucher with valid dates that was redeemed more often than its quota. -/
def sampleOverused : Voucher :=
  { ID := 1, Code := "PROMO10", VoucherType := "percentage", Value := 10,
    ApplicationType := "all", MinTransactionAmount := 0, MaxDiscountAmount := none,
    Quota := 1, UsedCount := 5, MaxUsesPerUser := 1,
    StartDate := 0, EndDate := 1000 * Hour, Status := "active" }

/-- A voucher with valid dates whose quota is exactly used up. -/
def sampleUsedUp : Voucher :=
  { sampleOverused with UsedCount := 1 }

/-- The log row `Transaction.BeforeUpdate` builds on a status change, before
the store gives it its primary key. -/
def updateLog (t original : Transaction) (nowLog : Time) : TransactionLog :=
  { ID := 0
    TransactionID := t.ID
    StatusFrom := some original.Status
    StatusTo := t.Status
    Message := stringPtr "Status updated"
    CreatedByAdmin := none
    CreatedAt := nowLog }

/-- A new transaction whose supplied total is not the price plus the fee less
the discount, and is negative. -/
def sampleMispriced : Transaction :=
  { samplePending with TotalAmount := -18000 }

/-! ## Quota ledger and voucher evaluator

`VoucherService` is declared in `internal/services/placeholder_services.go`
without methods; its operations are modelled from sections 4.1 and 4.2 of the
specification, over the tables of `internal/models/voucher.go`. -/

/-- A row of `VoucherApplication`. -/
structure VoucherApplication where
  ID : Nat
  VoucherID : Nat
  ApplicableID : Nat
  ApplicableType : String
  deriving DecidableEq, Repr

/-- A row of `VoucherUsage`. -/
structure VoucherUsage where
  ID : Nat
  VoucherID : Nat
  UserID : Nat
  TransactionID : Nat
  DiscountAmount : Rat
  UsedAt : Time
  deriving DecidableEq, Repr

/-- The voucher tables, with the next primary key of the usage table. -/
structure VoucherStore where
  vouchers : List Voucher
  applications : List VoucherApplication
  usages : List VoucherUsage
  nextUsageID : Nat
  deriving DecidableEq, Repr

/-- The failures `ReserveUsage` signals. -/
inductive ReserveError where
  | NotFound
  | VoucherNotActive
  | VoucherExpired
  | QuotaExceeded
  | UserLimitExceeded
  deriving DecidableEq, Repr

/-- The voucher row with the given primary key. -/
def VoucherStore.findVoucher (st : VoucherStore) (voucherID : Nat) : Option Voucher :=
  st.vouchers.find? (fun v => v.ID == voucherID)

/-- The number of usage rows of a voucher for a user. -/
def VoucherStore.userUsageCount (st : VoucherStore) (voucherID userID : Nat) : Nat :=
  (st.usages.filter (fun u => u.VoucherID == voucherID && u.UserID == userID)).length

/-- Write a voucher row back under its primary key. -/
def replaceVoucher (v1 : Voucher) : List Voucher → List Voucher
  | [] => []
  | w :: ws => if w.ID == v1.ID then v1 :: ws else w :: replaceVoucher v1 ws

/-- Modelled from the spec: steps (5) and (6) of `ReserveUsage`: `used_count`
grows by one, and the status becomes `inactive` when it has reached `quota`. -/
def Voucher.consumeOne (v : Voucher) : Voucher :=
  { v with
    UsedCount := v.UsedCount + 1
    Status := if v.UsedCount + 1 = v.Quota then "inactive" else v.Status }

/-- Modelled from the spec: the operation `ReserveUsage` of the Quota Ledger
(section 4.1), absent from the source.  One call is one atomic unit of work:
the voucher must exist, be `active` and have the current time within
`[start_date, end_date]`; then (2) `used_count < quota`, (3) the user has
fewer than `max_uses_per_user` usage rows, (4) the usage row is inserted,
(5) `used_count` grows by one and (6) the status becomes `inactive` when
`used_count` has reached `quota`.  A failure leaves the store as it was. -/
def ReserveUsage (st : VoucherStore) (voucherID userID transactionID : Nat)
    (discountAmount : Rat) (now : Time) : Except ReserveError VoucherStore :=
  match st.findVoucher voucherID with
  | none => .error ReserveError.NotFound
  | some v =>
    if v.Status ≠ "active" then .error ReserveError.VoucherNotActive
    else if now < v.StartDate then .error ReserveError.VoucherNotActive
    else if v.EndDate < now then .error ReserveError.VoucherExpired
    else if ¬ v.UsedCount < v.Quota then .error ReserveError.QuotaExceeded
    else if ¬ (st.userUsageCount voucherID userID : Int) < v.MaxUsesPerUser then
      .error ReserveError.UserLimitExceeded
    else
      let row : VoucherUsage :=
        { ID := st.nextUsageID
          VoucherID := voucherID
          UserID := userID
          TransactionID := transactionID
          DiscountAmount := discountAmount
          UsedAt := now }
      .ok { st with
        vouchers := replaceVoucher v.consumeOne st.vouchers
        usages := st.usages ++ [row]
        nextUsageID := st.nextUsageID + 1 }

/-- One `ReserveUsage` request against a voucher. -/
structure ReserveCall where
  userID : Nat
  transactionID : Nat
  discountAmount : Rat
  now : Time
  deriving DecidableEq, Repr

/-- Modelled from the spec: concurrent `ReserveUsage` calls against one
voucher (sections 4.1 and 5).  Each call is an atomic unit of work holding
the lock of the voucher row, so the calls take effect one after the other in
some order; the list is that order.  The result is the number of calls that
succeeded and the store they leave. -/
def runReservations (voucherID : Nat) : VoucherStore → List ReserveCall → Nat × VoucherStore
  | st, [] => (0, st)
  | st, c :: rest =>
    match ReserveUsage st voucherID c.userID c.transactionID c.discountAmount c.now with
    | .error _ => runReservations voucherID st rest
    | .ok st1 => ((runReservations voucherID st1 rest).1 + 1, (runReservations voucherID st1 rest).2)

/-- Modelled from the spec: rounding to the minor unit of the currency, two
decimal places (section 4.2); a tie goes up. -/
def roundMinorUnit (x : Rat) : Rat :=
  ((Int.floor (x * 100 + 1 / 2) : Int) : Rat) / 100

/-- Modelled from the spec: the discount computation of the Voucher
Evaluator (section 4.2), absent from the source: for the kind `percentage`,
`amount * value / 100` clamped to `max_discount_amount` if set; for the kind
`fixed`, `min(value, amount)`; the result rounded to the minor unit.  A kind
the specification does not name gives no discount. -/
def computeDiscount (v : Voucher) (amount : Rat) : Rat :=
  if v.VoucherType = "percentage" then
    match v.MaxDiscountAmount with
    | some cap => roundMinorUnit (min (amount * v.Value / 100) cap)
    | none => roundMinorUnit (amount * v.Value / 100)
  else if v.VoucherType = "fixed" then
    roundMinorUnit (min v.Value amount)
  else 0

/-- The answer of `Evaluate`. -/
structure EvalResult where
  valid : Bool
  discountAmount : Rat
  reason : String
  deriving DecidableEq, Repr

/-- Modelled from the spec: the code normalisation of the Voucher Evaluator,
upper case. -/
def normalizeCode (code : String) : String :=
  String.mk (code.data.map Char.toUpper)

/-- Modelled from the spec: the scope check of the Voucher Evaluator: scope
`all` always matches, scope `category` (`product`) needs an application row
linking the voucher to the category (product). -/
def scopeMatches (st : VoucherStore) (v : Voucher) (productID categoryID : Nat) : Bool :=
  if v.ApplicationType = "all" then true
  else if v.ApplicationType = "category" then
    st.applications.any (fun a =>
      a.VoucherID == v.ID && a.ApplicableType == "category" && a.ApplicableID == categoryID)
  else if v.ApplicationType = "product" then
    st.applications.any (fun a =>
      a.VoucherID == v.ID && a.ApplicableType == "product" && a.ApplicableID == productID)
  else false

/-- Modelled from the spec: the operation `Evaluate` of the Voucher Evaluator
(section 4.2), absent from the source.  The checks run in the order of the
specification and the first failure gives the reason; the store is not
changed. -/
def Evaluate (st : VoucherStore) (code : String) (userID productID categoryID : Nat)
    (amount : Rat) (now : Time) : EvalResult :=
  match st.vouchers.find? (fun v => v.Code == normalizeCode code) with
  | none => { valid := false, discountAmount := 0, reason := "voucher not found" }
  | some v =>
    if v.Status ≠ "active" then
      { valid := false, discountAmount := 0, reason := "voucher not active" }
    else if ¬ (v.StartDate ≤ Time.Truncate now (24 * Hour) ∧
        Time.Truncate now (24 * Hour) ≤ v.EndDate) then
      { valid := false, discountAmount := 0, reason := "outside validity window" }
    else if ¬ amount ≥ v.MinTransactionAmount then
      { valid := false, discountAmount := 0, reason := "below minimum transaction amount" }
    else if scopeMatches st v productID categoryID = false then
      { valid := false, discountAmount := 0, reason := "scope mismatch" }
    else if ¬ v.UsedCount < v.Quota then
      { valid := false, discountAmount := 0, reason := "quota exceeded" }
    else if ¬ (st.userUsageCount v.ID userID : Int) < v.MaxUsesPerUser then
      { valid := false, discountAmount := 0, reason := "user limit exceeded" }
    else
      { valid := true, discountAmount := computeDiscount v amount, reason := "" }

/-- A voucher of kind `percentage`, 10 percent, quota 1, not yet used. -/
def samplePercent : Voucher :=
  { ID := 1, Code := "PROMO10", VoucherType := "percentage", Value := 10,
    ApplicationType := "all", MinTransactionAmount := 0, MaxDiscountAmount := none,
    Quota := 1, UsedCount := 0, MaxUsesPerUser := 1,
    StartDate := 0, EndDate := 1000 * Hour, Status := "active" }

/-- A voucher of kind `fixed`, worth 20000. -/
def sampleFixed : Voucher :=
  { samplePercent with ID := 2, Code := "FLAT20K", VoucherType := "fixed", Value := 20000 }

/-- A store with the two sample vouchers and no usage. -/
def sampleVoucherStore : VoucherStore :=
  { vouchers := [samplePercent, sampleFixed], applications := [], usages := [],
    nextUsageID := 1 }

/-- Three requests of three users for the same voucher. -/
def sampleCalls : List ReserveCall :=
  [{ userID := 7, transactionID := 31, discountAmount := 2000, now := 10 * Hour },
   { userID := 8, transactionID := 32, discountAmount := 2000, now := 10 * Hour },
   { userID := 9, transactionID := 33, discountAmount := 2000, now := 10 * Hour }]

/-- The sample store with the percentage voucher capped at 5000. -/
def sampleVoucherStoreCapped : VoucherStore :=
  { sampleVoucherStore with
    vouchers := [{ samplePercent with MaxDiscountAmount := some 5000 }, sampleFixed] }

/-! ## CSRF tokens

The embedding of `internal/middleware/csrf.go`.  A Go string is a sequence of
bytes.  The library function HMAC-SHA256 is an argument `hmacSHA256 key
message` of the functions that sign; `encoding/base64`, `encoding/hex`,
`strings.Split`, `strconv.ParseInt` and the `%d` verb are embedded as far as
the file uses them.  The clock readings and the environment variable
`CSRF_SECRET` are arguments. -/

/-- One byte. -/
abbrev Byte := Fin 256

/-- A Go string or byte slice. -/
abbrev Bytes := List Byte

/-- The byte with the given value, as the conversion `byte(n)` truncates. -/
def byteOf (n : Nat) : Byte := Fin.ofNat n

/-- The bytes of a string literal of the source; the literals are ASCII. -/
def ascii (s : String) : Bytes := s.data.map (fun c => byteOf c.toNat)

/-- The function `strings.Split` for a separator of one byte, as the source
calls it: the pieces between the separators, a single piece when there is
none. -/
def Split (sep : Byte) : Bytes → List Bytes
  | [] => [[]]
  | c :: rest =>
    if c = sep then [] :: Split sep rest
    else
      match Split sep rest with
      | [] => [[c]]
      | p :: ps => (c :: p) :: ps

/-- The function `strings.HasPrefix`. -/
def HasPrefix (s pre : Bytes) : Bool := pre.isPrefixOf s

/-- A lower-case hexadecimal digit. -/
def hexDigit (n : Nat) : Byte :=
  if n < 10 then byteOf (48 + n) else byteOf (87 + n)

/-- The function `hex.EncodeToString`. -/
def hexEncodeToString : Bytes → Bytes
  | [] => []
  | b :: rest => hexDigit (b.val / 16) :: hexDigit (b.val % 16) :: hexEncodeToString rest

/-- The decimal digits of a natural number, most significant first; `fuel`
bounds the number of digits. -/
def decimalDigits : Nat → Nat → Bytes
  | 0, _ => []
  | fuel + 1, n =>
    if n < 10 then [byteOf (48 + n)]
    else decimalDigits fuel (n / 10) ++ [byteOf (48 + n % 10)]

/-- The verb `%d` of `fmt.Sprintf` on an integer. -/
def formatInt (i : Int) : Bytes :=
  if i < 0 then byteOf 45 :: decimalDigits (i.natAbs + 1) i.natAbs
  else decimalDigits (i.natAbs + 1) i.natAbs

/-- The digit loop of `strconv.ParseUint` in base 10: the value of a string of
decimal digits, continuing from the value `acc` of the digits read so far;
`none` for any other byte. -/
def parseDigitsFrom : Bytes → Nat → Option Nat
  | [], acc => some acc
  | c :: rest, acc =>
    if 48 ≤ c.val ∧ c.val ≤ 57 then parseDigitsFrom rest (acc * 10 + (c.val - 48)) else none

/-- The value of a non-empty string of decimal digits, `none` otherwise. -/
def parseDigits (s : Bytes) : Option Nat :=
  if s = [] then none else parseDigitsFrom s 0

/-- The call `strconv.ParseInt(s, 10, 64)`: an optional sign, then decimal
digits, the value within the range of `int64`; `none` stands for an error. -/
def ParseInt (s : Bytes) : Option Int :=
  match s with
  | [] => none
  | c :: rest =>
    if c = byteOf 43 then
      match parseDigits rest with
      | some n => if n < 2 ^ 63 then some (n : Int) else none
      | none => none
    else if c = byteOf 45 then
      match parseDigits rest with
      | some n => if n ≤ 2 ^ 63 then some (-(n : Int)) else none
      | none => none
    else
      match parseDigits s with
      | some n => if n < 2 ^ 63 then some (n : Int) else none
      | none => none

/-- The value an `int64` holds after an arithmetic result `x`: two's
complement wrap-around. -/
def wrapInt64 (x : Int) : Int := (x + 2 ^ 63) % 2 ^ 64 - 2 ^ 63

/-- The alphabet of `base64.URLEncoding`: the character of a 6-bit value. -/
def urlEncodeChar (n : Nat) : Byte :=
  if n < 26 then byteOf (65 + n)
  else if n < 52 then byteOf (97 + (n - 26))
  else if n < 62 then byteOf (48 + (n - 52))
  else if n = 62 then byteOf 45
  else byteOf 95

/-- The decode map of `base64.URLEncoding`: the 6-bit value of a character of
the alphabet, `none` for any other byte. -/
def urlDecodeMap (c : Byte) : Option Nat :=
  if 65 ≤ c.val ∧ c.val ≤ 90 then some (c.val - 65)
  else if 97 ≤ c.val ∧ c.val ≤ 122 then some (c.val - 97 + 26)
  else if 48 ≤ c.val ∧ c.val ≤ 57 then some (c.val - 48 + 52)
  else if c.val = 45 then some 62
  else if c.val = 95 then some 63
  else none

/-- The method `base64.URLEncoding.EncodeToString`: three bytes give four
characters; a rest of two bytes gives three characters and one `=`, a rest of
one byte two characters and two `=`. -/
def EncodeToString : Bytes → Bytes
  | [] => []
  | [a] =>
    [urlEncodeChar (a.val * 65536 / 262144 % 64), urlEncodeChar (a.val * 65536 / 4096 % 64),
      byteOf 61, byteOf 61]
  | [a, b] =>
    [urlEncodeChar ((a.val * 65536 + b.val * 256) / 262144 % 64),
      urlEncodeChar ((a.val * 65536 + b.val * 256) / 4096 % 64),
      urlEncodeChar ((a.val * 65536 + b.val * 256) / 64 % 64), byteOf 61]
  | a :: b :: c :: rest =>
    urlEncodeChar ((a.val * 65536 + b.val * 256 + c.val) / 262144 % 64) ::
    urlEncodeChar ((a.val * 65536 + b.val * 256 + c.val) / 4096 % 64) ::
    urlEncodeChar ((a.val * 65536 + b.val * 256 + c.val) / 64 % 64) ::
    urlEncodeChar ((a.val * 65536 + b.val * 256 + c.val) % 64) :: EncodeToString rest

/-- Drop leading line feeds and carriage returns, which the decoder ignores. -/
def skipNewlines : Bytes → Bytes
  | [] => []
  | c :: rest => if c = byteOf 10 ∨ c = byteOf 13 then skipNewlines rest else c :: rest

/-- The 24-bit value of a quantum of four 6-bit values. -/
def quantumValue (w x y z : Nat) : Nat := w * 262144 + x * 4096 + y * 64 + z

/-- The decoding loop of `base64.URLEncoding.DecodeString` (padded, not
strict): `dbuf` holds the 6-bit values read in the current quantum and `dst`
the bytes decoded so far.  Line feeds and carriage returns are skipped; the
input must end on a full or a padded quantum and nothing but line breaks may
follow the padding; `none` stands for an error. -/
def decodeQuanta : Bytes → List Nat → Bytes → Option Bytes
  | [], dbuf, dst => if dbuf = [] then some dst else none
  | c :: rest, dbuf, dst =>
    match urlDecodeMap c with
    | some v =>
      match dbuf with
      | [w, x, y] =>
        decodeQuanta rest []
          (dst ++ [byteOf (quantumValue w x y v / 65536), byteOf (quantumValue w x y v / 256),
            byteOf (quantumValue w x y v)])
      | _ => decodeQuanta rest (dbuf ++ [v]) dst
    | none =>
      if c = byteOf 10 ∨ c = byteOf 13 then decodeQuanta rest dbuf dst
      else if c ≠ byteOf 61 then none
      else
        match dbuf with
        | [w, x] =>
          match skipNewlines rest with
          | [] => none
          | d :: rest1 =>
            if d ≠ byteOf 61 then none
            else if skipNewlines rest1 = [] then
              some (dst ++ [byteOf (quantumValue w x 0 0 / 65536)])
            else none
        | [w, x, y] =>
          if skipNewlines rest = [] then
            some (dst ++ [byteOf (quantumValue w x y 0 / 65536),
              byteOf (quantumValue w x y 0 / 256)])
          else none
        | _ => none

/-- The method `base64.URLEncoding.DecodeString`. -/
def DecodeString (s : Bytes) : Option Bytes := decodeQuanta s [] []

/-- The function `getCSRFSecret`; `envSecret` is the value of the environment
variable `CSRF_SECRET`, empty when it is not set. -/
def getCSRFSecret (envSecret : Bytes) : Bytes :=
  if envSecret = [] then ascii "default-csrf-secret-change-in-production" else envSecret

/-- The function `generateCSRFToken`.  `random` is what `rand.Read` delivers,
`none` when it fails; `nowUnixNano` and `nowUnix` are the clock readings of
the two paths. -/
def generateCSRFToken (hmacSHA256 : Bytes → Bytes → Bytes) (envSecret : Bytes)
    (random : Option Bytes) (nowUnixNano nowUnix : Int) : Bytes :=
  match random with
  | none => formatInt nowUnixNano
  | some randomBytes =>
    let tokenData := hexEncodeToString randomBytes ++ ascii ":" ++ formatInt nowUnix
    let secret := getCSRFSecret envSecret
    let signature := hmacSHA256 secret tokenData
    EncodeToString tokenData ++ ascii "." ++ EncodeToString signature

/-- The function `validateCSRFToken`; `nowUnix` is the clock reading. -/
def validateCSRFToken (hmacSHA256 : Bytes → Bytes → Bytes) (envSecret : Bytes)
    (nowUnix : Int) (token : Bytes) : Bool :=
  if token = [] then false
  else
    match Split (byteOf 46) token with
    | [part0, part1] =>
      match DecodeString part0 with
      | none => false
      | some tokenData =>
        match DecodeString part1 with
        | none => false
        | some expectedSignature =>
          if expectedSignature ≠ hmacSHA256 (getCSRFSecret envSecret) tokenData then false
          else
            match Split (byteOf 58) tokenData with
            | [_, ts] =>
              match ParseInt ts with
              | none => false
              | some timestamp => decide (wrapInt64 (nowUnix - timestamp) ≤ 24 * 60 * 60)
            | _ => false
    | _ => false

/-- What `CSRFCheck` reads of a request: method, path, and the three places a
token can come from, each empty when absent (`c.GetHeader("X-CSRF-Token")`,
`c.PostForm("csrf_token")`, `c.Query("csrf_token")`). -/
structure Request where
  Method : Bytes
  Path : Bytes
  HeaderToken : Bytes
  FormToken : Bytes
  QueryToken : Bytes
  deriving DecidableEq, Repr

/-- What a middleware does with a request: hand it on (`c.Next()`), or answer
it with a status and an error code and stop (`c.JSON` and `c.Abort()`). -/
inductive Outcome where
  | next
  | abort (status : Nat) (error : String) (message : String)
  deriving DecidableEq, Repr

/-- The paths `CSRFCheck` skips. -/
def skipPaths : List Bytes :=
  [ascii "/health", ascii "/api/v1/auth/login", ascii "/api/v1/auth/register",
   ascii "/api/v1/csrf", ascii "/docs", ascii "/swagger"]

/-- The function `GetCSRFToken`: header, else form field, else query
parameter. -/
def GetCSRFToken (c : Request) : Bytes :=
  if c.HeaderToken ≠ [] then c.HeaderToken
  else if c.FormToken ≠ [] then c.FormToken
  else if c.QueryToken ≠ [] then c.QueryToken
  else []

/-- The token `CSRFCheck` picks: the header, replaced by the form field when
empty, replaced by the query parameter when still empty. -/
def pickToken (c : Request) : Bytes :=
  let token := c.HeaderToken
  let token := if token = [] then c.FormToken else token
  if token = [] then c.QueryToken else token

/-- The middleware `CSRFCheck`. -/
def CSRFCheck (hmacSHA256 : Bytes → Bytes → Bytes) (envSecret : Bytes) (nowUnix : Int)
    (c : Request) : Outcome :=
  if c.Method = ascii "GET" ∨ c.Method = ascii "HEAD" ∨ c.Method = ascii "OPTIONS" then
    Outcome.next
  else if skipPaths.any (fun skipPath => HasPrefix c.Path skipPath) then
    Outcome.next
  else if pickToken c = [] then
    Outcome.abort 403 "csrf_token_missing" "CSRF token is required for this operation"
  else if ¬ validateCSRFToken hmacSHA256 envSecret nowUnix (pickToken c) = true then
    Outcome.abort 403 "csrf_token_invalid" "CSRF token is invalid or expired"
  else Outcome.next

/-- A stand-in for HMAC-SHA256 in the examples: the key followed by the
message. -/
def sampleMac (key message : Bytes) : Bytes := key ++ message

/-- A POST to the login route without any token. -/
def sampleLoginRequest : Request :=
  { Method := ascii "POST", Path := ascii "/api/auth/login",
    HeaderToken := [], FormToken := [], QueryToken := [] }

/-- A POST to the registration route without any token. -/
def sampleRegisterRequest : Request :=
  { sampleLoginRequest with Path := ascii "/api/auth/register" }

/-- A POST to a protected route without any token. -/
def sampleProtectedRequest : Request :=
  { sampleLoginRequest with Path := ascii "/api/protected" }

/-- A token signed by the stand-in for HMAC-SHA256 at the time 1700000000. -/
def sampleToken : Bytes :=
  generateCSRFToken sampleMac [] (some [byteOf 1, byteOf 255, byteOf 16]) 0 1700000000

/-! ## Phone numbers

The embedding of `IsValidPhone` and `NormalizePhone` of
`internal/utils/helpers.go`, on the bytes of the string. -/

/-- The call `strings.ReplaceAll(s, old, "")` for an `old` of one byte, as the
phone functions use it: every occurrence of the byte is dropped. -/
def removeByte (old : Byte) (s : Bytes) : Bytes := s.filter (fun c => decide (c ≠ old))

/-- The five `strings.ReplaceAll` calls that open `IsValidPhone` and
`NormalizePhone`: blanks, hyphens, parentheses and plus signs are dropped. -/
def cleanPhone (phone : Bytes) : Bytes :=
  removeByte (byteOf 43) (removeByte (byteOf 41) (removeByte (byteOf 40)
    (removeByte (byteOf 45) (removeByte (byteOf 32) phone))))

/-- A decimal digit.  The loop of `IsValidPhone` ranges over runes; a rune is
within `'0'..'9'` exactly when it is one byte within `'0'..'9'`, every other
byte starting or continuing a rune above `'9'`. -/
def isDigitByte (c : Byte) : Bool := decide (48 ≤ c.val ∧ c.val ≤ 57)

/-- The function `IsValidPhone`. -/
def IsValidPhone (phone : Bytes) : Bool :=
  if (cleanPhone phone).length < 10 ∨ (cleanPhone phone).length > 15 then false
  else if ¬ (cleanPhone phone).all isDigitByte = true then false
  else
    HasPrefix (cleanPhone phone) (ascii "08") || HasPrefix (cleanPhone phone) (ascii "62") ||
      HasPrefix (cleanPhone phone) (ascii "8")

/-- The function `NormalizePhone`. -/
def NormalizePhone (phone : Bytes) : Bytes :=
  if HasPrefix (cleanPhone phone) (ascii "08") = true then
    ascii "62" ++ (cleanPhone phone).drop 1
  else if HasPrefix (cleanPhone phone) (ascii "8") = true then
    ascii "62" ++ cleanPhone phone
  else cleanPhone phone

/-! ## User service

The embedding of `Register` and `Login` of
`internal/services/user_service.go`.  The user table is passed in and handed
back; bcrypt and the JWT library are reached through `utils.HashPassword`,
`utils.CheckPassword` and `utils.GenerateJWT`, whose outcomes are arguments. -/

/-- The text of an error (`Error()`). -/
def Error.message : Error → String
  | Error.ErrRecordNotFound => "record not found"
  | Error.ErrInvalidData => "unsupported data"
  | Error.store msg => msg

/-- The fields of `User` the user service reads or writes. -/
structure User where
  ID : Nat
  Name : Bytes
  Phone : Bytes
  PasswordHash : Bytes
  Email : Option Bytes
  Status : String
  deriving DecidableEq, Repr

/-- The request of `Register`. -/
structure RegisterRequest where
  Name : Bytes
  Phone : Bytes
  Password : Bytes
  Email : Bytes
  deriving DecidableEq, Repr

/-- The request of `Login`. -/
structure LoginRequest where
  Phone : Bytes
  Password : Bytes
  deriving DecidableEq, Repr

/-- The response of `Register` and `Login`. -/
structure LoginResponse where
  User : User
  AccessToken : Bytes
  RefreshToken : Bytes
  deriving DecidableEq, Repr

/-- The user table with its next primary key, and the failure (if any) with
which the store answers a query or an insert. -/
structure UserDB where
  users : List User
  nextUserID : Nat
  readFault : Option Error
  writeFault : Option Error
  deriving DecidableEq, Repr

/-- The query `db.Where("phone = ?", phone).First(&user)`. -/
def UserDB.FirstByPhone (db : UserDB) (phone : Bytes) : Except Error User :=
  match db.readFault with
  | some e => .error e
  | none =>
    match db.users.find? (fun u => u.Phone == phone) with
    | some u => .ok u
    | none => .error Error.ErrRecordNotFound

/-- The insert `db.Create(&user)`: the row is appended under the next primary
key and handed back with it, unless the store fails or the unique index on
`phone` is violated, in which case nothing is written. -/
def UserDB.Create (db : UserDB) (user : User) : Except Error (UserDB × User) :=
  match db.writeFault with
  | some e => .error e
  | none =>
    if db.users.any (fun u => u.Phone == user.Phone) then
      .error (Error.store "duplicate key value violates unique constraint")
    else
      .ok ({ db with
              users := db.users ++ [{ user with ID := db.nextUserID }]
              nextUserID := db.nextUserID + 1 },
           { user with ID := db.nextUserID })

/-- The helpers of `internal/utils/helpers.go` that call bcrypt and the JWT
library: `HashPassword`, `CheckPassword` (password, then hash) and
`GenerateJWT` (user ID, user type, role; the access and the refresh token). -/
structure AuthHelpers where
  HashPassword : Bytes → Except Error Bytes
  CheckPassword : Bytes → Bytes → Bool
  GenerateJWT : Nat → String → String → Except Error (Bytes × Bytes)

/-- What a call of the user service leaves behind: the response (`none` for
`nil`), the text of the error (`none` for `nil`) and the user table. -/
structure ServiceResult where
  resp : Option LoginResponse
  err : Option String
  db : UserDB
  deriving DecidableEq, Repr

/-- The user `Register` builds before the insert: name and normalised phone,
the password hash, the status `active`, and the e-mail address when the
request has one. -/
def newUser (req : RegisterRequest) (normalizedPhone hashedPassword : Bytes) : User :=
  { ID := 0
    Name := req.Name
    Phone := normalizedPhone
    PasswordHash := hashedPassword
    Email := if req.Email ≠ [] then some req.Email else none
    Status := "active" }

/-- The method `UserService.Register`. -/
def Register (h : AuthHelpers) (db : UserDB) (req : RegisterRequest) : ServiceResult :=
  if ¬ IsValidPhone req.Phone = true then
    { resp := none, err := some "invalid phone number format", db := db }
  else
    match db.FirstByPhone (NormalizePhone req.Phone) with
    | .ok _ =>
      { resp := none, err := some "user with this phone number already exists", db := db }
    | .error _ =>
      match h.HashPassword req.Password with
      | .error e =>
        { resp := none, err := some ("failed to hash password: " ++ e.message), db := db }
      | .ok hashedPassword =>
        match db.Create (newUser req (NormalizePhone req.Phone) hashedPassword) with
        | .error e =>
          { resp := none, err := some ("failed to create user: " ++ e.message), db := db }
        | .ok (db1, user) =>
          match h.GenerateJWT user.ID "user" "customer" with
          | .error e =>
            { resp := none, err := some ("failed to generate tokens: " ++ e.message), db := db1 }
          | .ok (accessToken, refreshToken) =>
            { resp := some
                { User := user, AccessToken := accessToken, RefreshToken := refreshToken }
              err := none
              db := db1 }

/-- The method `UserService.Login`. -/
def Login (h : AuthHelpers) (db : UserDB) (req : LoginRequest) : ServiceResult :=
  if ¬ IsValidPhone req.Phone = true then
    { resp := none, err := some "invalid phone number format", db := db }
  else
    match db.FirstByPhone (NormalizePhone req.Phone) with
    | .error e =>
      if e = Error.ErrRecordNotFound then
        { resp := none, err := some "invalid phone number or password", db := db }
      else
        { resp := none, err := some ("failed to find user: " ++ e.message), db := db }
    | .ok user =>
      if user.Status ≠ "active" then
        { resp := none, err := some "user account is not active", db := db }
      else if ¬ h.CheckPassword req.Password user.PasswordHash = true then
        { resp := none, err := some "invalid phone number or password", db := db }
      else
        match h.GenerateJWT user.ID "user" "customer" with
        | .error e =>
          { resp := none, err := some ("failed to generate tokens: " ++ e.message), db := db }
        | .ok (accessToken, refreshToken) =>
          { resp := some
              { User := user, AccessToken := accessToken, RefreshToken := refreshToken }
            err := none
            db := db }

/-- Stand-ins for bcrypt and the JWT library in the examples: the hash is the
password behind a marker, the tokens are fixed. -/
def sampleHelpers : AuthHelpers :=
  { HashPassword := fun password => .ok (ascii "$2a$" ++ password)
    CheckPassword := fun password hash => hash == ascii "$2a$" ++ password
    GenerateJWT := fun _ _ _ => .ok (ascii "access", ascii "refresh") }

/-- An empty, healthy user table. -/
def sampleUserDB : UserDB :=
  { users := [], nextUserID := 1, readFault := none, writeFault := none }

/-- The registration of the test `TestUserRegistration`. -/
def sampleRegistration : RegisterRequest :=
  { Name := ascii "John Doe", Phone := ascii "081234567890",
    Password := ascii "password123", Email := ascii "john@example.com" }

/-- A second registration with the phone of the first. -/
def sampleRegistrationAgain : RegisterRequest :=
  { Name := ascii "John Smith", Phone := ascii "081234567890",
    Password := ascii "password456", Email := [] }

/-- A login with the phone of the first registration and another password. -/
def sampleWrongLogin : LoginRequest :=
  { Phone := ascii "081234567890", Password := ascii "wrongpassword" }

/-! ## Role check and pagination -/

/-- What a middleware of `internal/middleware/auth.go` does with a request:
hand it on (`c.Next()`), or answer it through `utils.ErrorResponse` with a
status and a message and stop (`c.Abort()`). -/
inductive Answer where
  | next
  | abort (status : Nat) (message : String)
  deriving DecidableEq, Repr

/-- The middleware `RoleMiddleware(requiredRoles...)`; `userRole` is what
`c.Get("user_role")` finds, `none` when the key is absent. -/
def RoleMiddleware (requiredRoles : List String) (userRole : Option String) : Answer :=
  match userRole with
  | none => Answer.abort 403 "User role not found"
  | some role =>
    if role = "super_admin" then Answer.next
    else if requiredRoles.any (fun requiredRole => role == requiredRole) then Answer.next
    else Answer.abort 403 "Insufficient permissions"

/-- The struct `Pagination`. -/
structure Pagination where
  Page : Int
  Limit : Int
  Total : Int
  TotalPages : Int
  deriving DecidableEq, Repr

/-- The function `CalculatePagination` on 64-bit `int`s: the sum and the
difference wrap, the division truncates toward zero, and a division by zero
panics (`none`). -/
def CalculatePagination (page limit total : Int) : Option Pagination :=
  if limit = 0 then none
  else
    some
      { Page := page
        Limit := limit
        Total := total
        TotalPages := wrapInt64 (Int.tdiv (wrapInt64 (wrapInt64 (total + limit) - 1)) limit) }

/-- The function `GetPaginationParams`; `pageQuery` and `limitQuery` are the
query parameters `page` and `limit`, `none` when absent (`c.DefaultQuery`
then gives `1` and `10`).  `strconv.Atoi` is `ParseInt` in base 10. -/
def GetPaginationParams (pageQuery limitQuery : Option Bytes) : Int × Int :=
  let page :=
    match ParseInt (pageQuery.getD (ascii "1")) with
    | none => 1
    | some p => if p < 1 then 1 else p
  let limit :=
    match ParseInt (limitQuery.getD (ascii "10")) with
    | none => 10
    | some l => if l < 1 then 10 else l
  (page, if limit > 100 then 100 else limit)

/-! ## Slugs

The embedding of `GenerateSlug` of `internal/utils/helpers.go` on the runes of
the title (a byte that is no valid UTF-8 reads as the rune U+FFFD).  The case
table of the library for runes above ASCII is an argument `table`. -/

/-- The function `unicode.ToLower`: the ASCII rule, and the case table above
ASCII. -/
def runeToLower (table : Char → Char) (r : Char) : Char :=
  if r.toNat ≤ 127 then
    if 65 ≤ r.toNat ∧ r.toNat ≤ 90 then Char.ofNat (r.toNat + 32) else r
  else table r

/-- The runes `GenerateSlug` keeps: `a`-`z`, `0`-`9` and the hyphen. -/
def isSlugRune (r : Char) : Bool :=
  decide ((97 ≤ r.toNat ∧ r.toNat ≤ 122) ∨ (48 ≤ r.toNat ∧ r.toNat ≤ 57) ∨ r = '-')

/-- The call `strings.Contains(slug, "--")`. -/
def containsDoubleHyphen : List Char → Bool
  | a :: b :: rest => (a == '-' && b == '-') || containsDoubleHyphen (b :: rest)
  | _ => false

/-- The call `strings.ReplaceAll(slug, "--", "-")`: from the left, every pair
of hyphens becomes one hyphen, the pairs not overlapping. -/
def replaceDoubleHyphen : List Char → List Char
  | a :: b :: rest =>
    if a = '-' ∧ b = '-' then '-' :: replaceDoubleHyphen rest
    else a :: replaceDoubleHyphen (b :: rest)
  | l => l

/-- The loop `for strings.Contains(slug, "--")` of `GenerateSlug`, which
replaces as long as a pair of hyphens is left; `fuel` bounds the number of
rounds. -/
def collapseHyphens : Nat → List Char → List Char
  | 0, slug => slug
  | fuel + 1, slug =>
    if containsDoubleHyphen slug = true then collapseHyphens fuel (replaceDoubleHyphen slug)
    else slug

/-- The call `strings.Trim(slug, "-")`. -/
def trimHyphens (slug : List Char) : List Char :=
  (slug.dropWhile (fun r => r == '-')).rdropWhile (fun r => r == '-')

/-- The function `GenerateSlug` on runes: lower case, blanks to hyphens, the
other runes dropped, runs of hyphens collapsed (one round of the loop
shortens the slug, so its length is fuel enough), hyphens trimmed. -/
def GenerateSlugRunes (table : Char → Char) (title : List Char) : List Char :=
  trimHyphens
    (collapseHyphens
      (((title.map (runeToLower table)).map (fun r => if r = ' ' then '-' else r)).filter
        isSlugRune).length
      (((title.map (runeToLower table)).map (fun r => if r = ' ' then '-' else r)).filter
        isSlugRune))

/-- The function `GenerateSlug`. -/
def GenerateSlug (table : Char → Char) (title : String) : String :=
  String.mk (GenerateSlugRunes table title.data)

/-! ## Product form configuration

The embedding of `validateFormConfig`, `CreateProduct` and `UpdateProduct` of
`internal/services/product_service.go`.  The category and product tables are
passed in and handed back; the cache is a counter of the clearing calls. -/

/-- The struct `FormField` (the field `Type` is `FieldType` here). -/
structure FormField where
  Field : String
  Label : String
  FieldType : String
  Required : Bool
  Placeholder : String
  Options : List String
  deriving DecidableEq, Repr

/-- The loop of `validateFormConfig`; `seen` holds the keys of the map
`requiredFields`.  The result is the error of the first field that fails, or
the keys seen. -/
def validateFields : List FormField → List String → Except String (List String)
  | [], seen => .ok seen
  | field :: rest, seen =>
    if field.Field = "" ∨ field.Label = "" ∨ field.FieldType = "" then
      .error "field, label, and type are required for all form fields"
    else if field.Field ∈ seen then
      .error ("duplicate field: " ++ field.Field)
    else if ¬ (field.FieldType = "text" ∨ field.FieldType = "select" ∨
        field.FieldType = "number") then
      .error ("invalid field type: " ++ field.FieldType)
    else if field.FieldType = "select" ∧ field.Options.length = 0 then
      .error ("options are required for select field: " ++ field.Field)
    else validateFields rest (field.Field :: seen)

/-- The method `ProductService.validateFormConfig`; `none` stands for `nil`. -/
def validateFormConfig (formConfig : List FormField) : Option String :=
  if formConfig.length = 0 then some "form config cannot be empty"
  else
    match validateFields formConfig [] with
    | .error e => some e
    | .ok seen =>
      if ¬ "gameAccount" ∈ seen then some "gameAccount field is required in form config"
      else none

/-- The fields of `Product`. -/
structure Product where
  ID : Nat
  CategoryID : Nat
  Name : String
  Slug : String
  Description : Option String
  Price : Rat
  OriginalPrice : Option Rat
  DiscountPercentage : Int
  ImageURL : Option String
  FormConfig : List FormField
  Status : String
  DisplayOrder : Int
  deriving DecidableEq, Repr

/-- The request of `CreateProduct`. -/
structure CreateProductRequest where
  CategoryID : Nat
  Name : String
  Description : String
  Price : Rat
  OriginalPrice : Option Rat
  DiscountPercentage : Int
  FormConfig : List FormField
  DisplayOrder : Int
  deriving DecidableEq, Repr

/-- The request of `UpdateProduct`. -/
structure UpdateProductRequest where
  CategoryID : Nat
  Name : String
  Description : String
  Price : Rat
  OriginalPrice : Option Rat
  DiscountPercentage : Int
  FormConfig : List FormField
  Status : String
  DisplayOrder : Int
  deriving DecidableEq, Repr

/-- The catalogue tables: the primary keys of the categories, the products
with their next primary key, the failure (if any) with which the store
answers a query or a write, and the number of times the product cache was
cleared. -/
structure ProductDB where
  categories : List Nat
  products : List Product
  nextProductID : Nat
  readFault : Option Error
  writeFault : Option Error
  cacheClears : Nat
  deriving DecidableEq, Repr

/-- The query `db.First(&category, id)`. -/
def ProductDB.FirstCategory (db : ProductDB) (id : Nat) : Except Error Nat :=
  match db.readFault with
  | some e => .error e
  | none => if id ∈ db.categories then .ok id else .error Error.ErrRecordNotFound

/-- The query `db.First(&product, id)`, also with the category preloaded. -/
def ProductDB.FirstProduct (db : ProductDB) (id : Nat) : Except Error Product :=
  match db.readFault with
  | some e => .error e
  | none =>
    match db.products.find? (fun p => p.ID == id) with
    | some p => .ok p
    | none => .error Error.ErrRecordNotFound

/-- The query `db.Where("slug = ?", slug).First(&product)`, and with
`exceptID` the query `db.Where("slug = ? AND id != ?", slug, id)`. -/
def ProductDB.FirstBySlug (db : ProductDB) (slug : String) (exceptID : Option Nat) :
    Except Error Product :=
  match db.readFault with
  | some e => .error e
  | none =>
    match db.products.find? (fun p => p.Slug == slug && some p.ID != exceptID) with
    | some p => .ok p
    | none => .error Error.ErrRecordNotFound

/-- The insert `db.Create(&product)`: the row is appended under the next
primary key and handed back with it, unless the store fails or the unique
index on `slug` is violated. -/
def ProductDB.Create (db : ProductDB) (product : Product) : Except Error (ProductDB × Product) :=
  match db.writeFault with
  | some e => .error e
  | none =>
    if db.products.any (fun p => p.Slug == product.Slug) then
      .error (Error.store "duplicate key value violates unique constraint")
    else
      .ok ({ db with
              products := db.products ++ [{ product with ID := db.nextProductID }]
              nextProductID := db.nextProductID + 1 },
           { product with ID := db.nextProductID })

/-- The write `db.Save(&product)` of a product read from the table: the row
with its primary key is replaced, unless the store fails or the unique index
on `slug` is violated. -/
def ProductDB.Save (db : ProductDB) (product : Product) : Except Error ProductDB :=
  match db.writeFault with
  | some e => .error e
  | none =>
    if db.products.any (fun p => p.Slug == product.Slug && p.ID != product.ID) then
      .error (Error.store "duplicate key value violates unique constraint")
    else
      .ok { db with
        products := db.products.map (fun p => if p.ID = product.ID then product else p) }

/-- The method `clearProductCache`. -/
def ProductDB.clearProductCache (db : ProductDB) : ProductDB :=
  { db with cacheClears := db.cacheClears + 2 }

/-- What a call of the product service leaves behind: the product (`none`
for `nil`), the text of the error (`none` for `nil`) and the tables. -/
structure ProductResult where
  product : Option Product
  err : Option String
  db : ProductDB
  deriving DecidableEq, Repr

/-- The method `ProductService.CreateProduct`. -/
def CreateProduct (table : Char → Char) (db : ProductDB) (req : CreateProductRequest) :
    ProductResult :=
  match db.FirstCategory req.CategoryID with
  | .error e =>
    if e = Error.ErrRecordNotFound then
      { product := none, err := some "category not found", db := db }
    else
      { product := none, err := some ("failed to verify category: " ++ e.message), db := db }
  | .ok _ =>
    match db.FirstBySlug (GenerateSlug table req.Name) none with
    | .ok _ =>
      { product := none, err := some "product with similar name already exists", db := db }
    | .error _ =>
      match validateFormConfig req.FormConfig with
      | some e => { product := none, err := some ("invalid form config: " ++ e), db := db }
      | none =>
        match db.Create
          { ID := 0
            CategoryID := req.CategoryID
            Name := req.Name
            Slug := GenerateSlug table req.Name
            Description := if req.Description ≠ "" then some req.Description else none
            Price := req.Price
            OriginalPrice := req.OriginalPrice
            DiscountPercentage := req.DiscountPercentage
            ImageURL := none
            FormConfig := req.FormConfig
            Status := "active"
            DisplayOrder := req.DisplayOrder } with
        | .error e =>
          { product := none, err := some ("failed to create product: " ++ e.message), db := db }
        | .ok (db1, product) =>
          match db1.FirstProduct product.ID with
          | .error e =>
            { product := none
              err := some ("failed to load product with category: " ++ e.message)
              db := db1 }
          | .ok loaded =>
            { product := some loaded, err := none, db := db1.clearProductCache }

/-- The method `ProductService.UpdateProduct`. -/
def UpdateProduct (table : Char → Char) (db : ProductDB) (productID : Nat)
    (req : UpdateProductRequest) : ProductResult :=
  match db.FirstProduct productID with
  | .error e =>
    if e = Error.ErrRecordNotFound then
      { product := none, err := some "product not found", db := db }
    else
      { product := none, err := some ("failed to find product: " ++ e.message), db := db }
  | .ok product =>
    match db.FirstCategory req.CategoryID with
    | .error e =>
      if e = Error.ErrRecordNotFound then
        { product := none, err := some "category not found", db := db }
      else
        { product := none, err := some ("failed to verify category: " ++ e.message), db := db }
    | .ok _ =>
      if product.Name ≠ req.Name ∧
          (db.FirstBySlug (GenerateSlug table req.Name) (some productID)).toBool = true then
        { product := none, err := some "product with similar name already exists", db := db }
      else
        match validateFormConfig req.FormConfig with
        | some e => { product := none, err := some ("invalid form config: " ++ e), db := db }
        | none =>
          match db.Save
            { product with
              Slug := if product.Name ≠ req.Name then GenerateSlug table req.Name
                else product.Slug
              CategoryID := req.CategoryID
              Name := req.Name
              Price := req.Price
              OriginalPrice := req.OriginalPrice
              DiscountPercentage := req.DiscountPercentage
              FormConfig := req.FormConfig
              Status := req.Status
              DisplayOrder := req.DisplayOrder
              Description := if req.Description ≠ "" then some req.Description else none } with
          | .error e =>
            { product := none, err := some ("failed to update product: " ++ e.message), db := db }
          | .ok db1 =>
            match db1.FirstProduct product.ID with
            | .error e =>
              { product := none
                err := some ("failed to load product with category: " ++ e.message)
                db := db1 }
            | .ok loaded =>
              { product := some loaded, err := none, db := db1.clearProductCache }

/-- The form field every product needs. -/
def sampleGameAccountField : FormField :=
  { Field := "gameAccount", Label := "Game ID", FieldType := "text", Required := true,
    Placeholder := "", Options := [] }

/-- A select field with two options. -/
def sampleServerField : FormField :=
  { Field := "server", Label := "Server", FieldType := "select", Required := true,
    Placeholder := "", Options := ["Asia", "Europe"] }

/-- A catalogue with one category and no product. -/
def sampleProductDB : ProductDB :=
  { categories := [1], products := [], nextProductID := 1, readFault := none,
    writeFault := none, cacheClears := 0 }

/-- A request for a product whose form has no `gameAccount` field. -/
def sampleBadProduct : CreateProductRequest :=
  { CategoryID := 1, Name := "Mobile Legends 86 Diamonds", Description := "", Price := 20000,
    OriginalPrice := none, DiscountPercentage := 0, FormConfig := [sampleServerField],
    DisplayOrder := 1 }

/-! ## Rate limit

The embedding of `RateLimitMiddleware` of `internal/middleware/auth.go`.  The
map `requests` of the closure is passed in and handed back, the reading of
`time.Now()` is an argument, and the requests are handled one after the
other. -/

/-- The constant `time.Minute`. -/
def Minute : Duration := 60 * 1000000000

/-- The method `Time.Sub`: the difference, or the largest (smallest) duration
when the difference is above (below) what an `int64` holds. -/
def Time.Sub (t u : Time) : Duration :=
  if t - u > 2 ^ 63 - 1 then 2 ^ 63 - 1
  else if t - u < -(2 ^ 63) then -(2 ^ 63)
  else t - u

/-- The map `requests` of the limiter, from a client IP to the instants
stored for it; `none` for a key the map does not hold. -/
abbrev Limiter := String → Option (List Time)

/-- The freshly made map. -/
def Limiter.empty : Limiter := fun _ => none

/-- The read `requests[clientIP]`: the empty slice for an absent key. -/
def Limiter.lookup (requests : Limiter) (clientIP : String) : List Time :=
  (requests clientIP).getD []

/-- The write `requests[clientIP] = times`. -/
def Limiter.set (requests : Limiter) (clientIP : String) (times : List Time) : Limiter :=
  fun key => if key = clientIP then some times else requests key

/-- The block "clean old requests": where the key exists, the instants less
than a minute before `now` are kept. -/
def cleanOld (requests : Limiter) (clientIP : String) (now : Time) : Limiter :=
  match requests clientIP with
  | some times =>
    requests.set clientIP (times.filter (fun t => decide (Time.Sub now t < Minute)))
  | none => requests

/-- The handler that `RateLimitMiddleware(cfg)` returns, with
`enabled = cfg.RateLimit.Enabled` and
`requestsPerMinute = cfg.RateLimit.RequestsPerMinute`: the answer and the map
afterwards. -/
def RateLimitMiddleware (enabled : Bool) (requestsPerMinute : Int) (requests : Limiter)
    (clientIP : String) (now : Time) : Answer × Limiter :=
  if enabled = false then (Answer.next, requests)
  else if ((cleanOld requests clientIP now).lookup clientIP).length ≥ requestsPerMinute then
    (Answer.abort 429 "Rate limit exceeded", cleanOld requests clientIP now)
  else
    (Answer.next,
      (cleanOld requests clientIP now).set clientIP
        ((cleanOld requests clientIP now).lookup clientIP ++ [now]))

/-- One request `(clientIP, now)` through the handler: the map afterwards,
and the requests handed on so far. -/
def handleRequest (enabled : Bool) (requestsPerMinute : Int)
    (s : Limiter × List (String × Time)) (r : String × Time) :
    Limiter × List (String × Time) :=
  ((RateLimitMiddleware enabled requestsPerMinute s.1 r.1 r.2).2,
    if (RateLimitMiddleware enabled requestsPerMinute s.1 r.1 r.2).1 = Answer.next then
      s.2 ++ [r]
    else s.2)

/-- The requests `reqs` through one handler, in their order, from the freshly
made map: the map at the end and the requests handed on. -/
def handleAll (enabled : Bool) (requestsPerMinute : Int) (reqs : List (String × Time)) :
    Limiter × List (String × Time) :=
  reqs.foldl (handleRequest enabled requestsPerMinute) (Limiter.empty, [])

/-- Four requests of one client within a second, and one of another client. -/
def sampleBurst : List (String × Time) :=
  [("10.0.0.1", 0), ("10.0.0.1", 250000000), ("10.0.0.2", 300000000),
   ("10.0.0.1", 500000000), ("10.0.0.1", 750000000)]

/-! ## Store lemmas -/

theorem DB.Create_ok_of_healthy (db : DB) (log : TransactionLog) (h : db.writeFault = none) :
    db.Create log = .ok { db with
      logs := db.logs ++ [{ log with ID := db.nextLogID }]
      nextLogID := db.nextLogID + 1 } := by
  simp [DB.Create, h]

theorem DB.Create_error_of_fault (db : DB) (log : TransactionLog) (e : Error)
    (h : db.writeFault = some e) : db.Create log = .error e := by
  simp [DB.Create, h]

theorem DB.Create_cases (db : DB) (log : TransactionLog) :
    (db.writeFault = none ∧ db.Create log = .ok { db with
      logs := db.logs ++ [{ log with ID := db.nextLogID }]
      nextLogID := db.nextLogID + 1 }) ∨
    (∃ e, db.writeFault = some e ∧ db.Create log = .error e) := by
  have hc : db.writeFault = none ∨ ∃ e, db.writeFault = some e := by
    cases db.writeFault <;> simp
  rcases hc with h | ⟨e, h⟩
  · exact Or.inl ⟨h, DB.Create_ok_of_healthy db log h⟩
  · exact Or.inr ⟨e, h, DB.Create_error_of_fault db log e h⟩

/-! ## Hook lemmas -/

theorem BeforeUpdate_same_status (t original : Transaction) (db : DB) (nowLog now : Time)
    (hfind : db.First t.ID = .ok original) (heq : original.Status = t.Status) :
    t.BeforeUpdate db nowLog now = { err := none, t := t, db := db } := by
  simp [Transaction.BeforeUpdate, hfind, heq]

theorem BeforeUpdate_read_error (t : Transaction) (db : DB) (nowLog now : Time) (e : Error)
    (hfind : db.First t.ID = .error e) :
    t.BeforeUpdate db nowLog now = { err := some e, t := t, db := db } := by
  simp [Transaction.BeforeUpdate, hfind]

theorem BeforeUpdate_write_error (t original : Transaction) (db : DB) (nowLog now : Time)
    (e : Error) (hfind : db.First t.ID = .ok original) (hne : original.Status ≠ t.Status)
    (hw : db.writeFault = some e) :
    t.BeforeUpdate db nowLog now = { err := some e, t := t, db := db } := by
  have hc := DB.Create_error_of_fault db (updateLog t original nowLog) e hw
  simp only [updateLog] at hc
  simp [Transaction.BeforeUpdate, hfind, hne, hc]

theorem BeforeUpdate_changed (t original : Transaction) (db : DB) (nowLog now : Time)
    (hfind : db.First t.ID = .ok original) (hne : original.Status ≠ t.Status)
    (hw : db.writeFault = none) :
    t.BeforeUpdate db nowLog now =
      { err := none
        t :=
          if t.Status = "processing" then
            if t.ProcessedAt = none then { t with ProcessedAt := some now } else t
          else if t.Status = "completed" then
            if t.CompletedAt = none then { t with CompletedAt := some now } else t
          else t
        db := { db with
          logs := db.logs ++ [{ updateLog t original nowLog with ID := db.nextLogID }]
          nextLogID := db.nextLogID + 1 } } := by
  have hc := DB.Create_ok_of_healthy db (updateLog t original nowLog) hw
  simp only [updateLog] at hc
  simp only [Transaction.BeforeUpdate, hfind, hc, updateLog]
  split_ifs <;> simp_all

/-! ## Transaction log -/

/-- C1: for a stored transaction with status `s` and an update to a different
status, `Transaction.BeforeUpdate` appends exactly one log row, carrying the
transaction's ID, `StatusFrom = s` and `StatusTo` the new status: it does so
whenever the store takes the insert, and whenever the hook returns no error
that row is there and the requested status is untouched. -/
theorem BeforeUpdate_logs_status_change (t original : Transaction) (db : DB)
    (nowLog now : Time) (hfind : db.First t.ID = .ok original)
    (hne : original.Status ≠ t.Status) :
    (db.writeFault = none → (t.BeforeUpdate db nowLog now).err = none) ∧
    ((t.BeforeUpdate db nowLog now).err = none →
      (t.BeforeUpdate db nowLog now).t.Status = t.Status ∧
      (t.BeforeUpdate db nowLog now).db.transactions = db.transactions ∧
      ∃ row, (t.BeforeUpdate db nowLog now).db.logs = db.logs ++ [row] ∧
        row.TransactionID = t.ID ∧ row.StatusFrom = some original.Status ∧
        row.StatusTo = t.Status) := by
  rcases DB.Create_cases db (updateLog t original nowLog) with ⟨hw, -⟩ | ⟨e, hw, -⟩
  · rw [BeforeUpdate_changed t original db nowLog now hfind hne hw]
    refine ⟨fun _ => rfl, fun _ => ⟨?_, rfl, _, rfl, rfl, rfl, rfl⟩⟩
    dsimp only
    split_ifs <;> rfl
  · rw [BeforeUpdate_write_error t original db nowLog now e hfind hne hw]
    exact ⟨fun h => by simp [hw] at h, fun h => by simp at h⟩

theorem BeforeUpdate_logs_status_change_witness :
    sampleDB.First ({ samplePending with Status := "processing" } : Transaction).ID =
      .ok samplePending ∧
    samplePending.Status ≠ ({ samplePending with Status := "processing" } : Transaction).Status ∧
    ((sampleDB.writeFault = none →
      (({ samplePending with Status := "processing" } : Transaction).BeforeUpdate
        sampleDB 10 20).err = none) ∧
    ((({ samplePending with Status := "processing" } : Transaction).BeforeUpdate
        sampleDB 10 20).err = none →
      (({ samplePending with Status := "processing" } : Transaction).BeforeUpdate
        sampleDB 10 20).t.Status = "processing" ∧
      (({ samplePending with Status := "processing" } : Transaction).BeforeUpdate
        sampleDB 10 20).db.transactions = sampleDB.transactions ∧
      ∃ row, (({ samplePending with Status := "processing" } : Transaction).BeforeUpdate
          sampleDB 10 20).db.logs = sampleDB.logs ++ [row] ∧
        row.TransactionID = 2 ∧ row.StatusFrom = some "pending" ∧
        row.StatusTo = "processing")) :=
  ⟨rfl, by decide,
    BeforeUpdate_logs_status_change
      ({ samplePending with Status := "processing" } : Transaction) samplePending sampleDB 10 20
      rfl (by decide)⟩

/-- C2: for a stored transaction, `Transaction.BeforeUpdate` called with the
stored status succeeds, appends no log row and leaves `ProcessedAt` and
`CompletedAt` (indeed the whole receiver and the whole store) unchanged. -/
theorem BeforeUpdate_same_status_noop (t original : Transaction) (db : DB)
    (nowLog now : Time) (hfind : db.First t.ID = .ok original)
    (heq : original.Status = t.Status) :
    (t.BeforeUpdate db nowLog now).err = none ∧
    (t.BeforeUpdate db nowLog now).db.logs = db.logs ∧
    (t.BeforeUpdate db nowLog now).t.ProcessedAt = t.ProcessedAt ∧
    (t.BeforeUpdate db nowLog now).t.CompletedAt = t.CompletedAt ∧
    (t.BeforeUpdate db nowLog now).t = t ∧
    (t.BeforeUpdate db nowLog now).db = db := by
  rw [BeforeUpdate_same_status t original db nowLog now hfind heq]
  exact ⟨rfl, rfl, rfl, rfl, rfl, rfl⟩

theorem BeforeUpdate_same_status_noop_witness :
    sampleDB.First sampleCompleted.ID = .ok sampleCompleted ∧
    (sampleCompleted.BeforeUpdate sampleDB 10 20).err = none ∧
    (sampleCompleted.BeforeUpdate sampleDB 10 20).db.logs = [] ∧
    (sampleCompleted.BeforeUpdate sampleDB 10 20).t.CompletedAt = some 2000 :=
  have h := BeforeUpdate_same_status_noop sampleCompleted sampleCompleted sampleDB 10 20 rfl rfl
  ⟨rfl, h.1, h.2.1, h.2.2.2.1⟩

/-- C3: `Transaction.AfterCreate` appends exactly one log row, with the new
transaction's ID, a null `StatusFrom` and `StatusTo` equal to the
transaction's status: it does so whenever the store takes the insert, and it
returns no error only with that row written; when the insert fails the hook
returns the store's error and writes nothing. -/
theorem AfterCreate_logs_creation (t : Transaction) (db : DB) (now : Time) :
    (db.writeFault = none → (t.AfterCreate db now).err = none) ∧
    ((t.AfterCreate db now).err = none →
      ∃ row, (t.AfterCreate db now).db.logs = db.logs ++ [row] ∧
        row.TransactionID = t.ID ∧ row.StatusFrom = none ∧ row.StatusTo = t.Status) ∧
    (∀ e, db.writeFault = some e →
      (t.AfterCreate db now).err = some e ∧ (t.AfterCreate db now).db = db) ∧
    (t.AfterCreate db now).t = t := by
  cases hw : db.writeFault with
  | none =>
    simp [Transaction.AfterCreate, DB.Create, hw]
  | some e =>
    simp [Transaction.AfterCreate, DB.Create, hw]

theorem AfterCreate_logs_creation_witness :
    (samplePending.AfterCreate sampleDB 5).err = none ∧
    ∃ row, (samplePending.AfterCreate sampleDB 5).db.logs = sampleDB.logs ++ [row] ∧
      row.TransactionID = samplePending.ID ∧ row.StatusFrom = none ∧
      row.StatusTo = samplePending.Status :=
  ⟨(AfterCreate_logs_creation samplePending sampleDB 5).1 rfl,
   (AfterCreate_logs_creation samplePending sampleDB 5).2.1
     ((AfterCreate_logs_creation samplePending sampleDB 5).1 rfl)⟩

/-! ## Transition graph -/

/-- C4, counterexample: `completed` to `pending` is no edge of the legal
graph, yet `Transaction.BeforeUpdate` accepts the update of the stored,
completed transaction 1 to `pending` and logs it. -/
theorem BeforeUpdate_accepts_completed_to_pending :
    specLegalEdge "completed" "pending" = false ∧
    sampleDB.First 1 = .ok sampleCompleted ∧
    sampleCompleted.Status = "completed" ∧
    (({ sampleCompleted with Status := "pending" } : Transaction).BeforeUpdate
      sampleDB 10 20).err = none ∧
    (({ sampleCompleted with Status := "pending" } : Transaction).BeforeUpdate
      sampleDB 10 20).db.logs =
      [{ ID := 1, TransactionID := 1, StatusFrom := some "completed", StatusTo := "pending",
         Message := some "Status updated", CreatedByAdmin := none, CreatedAt := 10 }] := by
  refine ⟨by decide, rfl, rfl, ?_, ?_⟩ <;> decide

/-- C4, amended: `Transaction.BeforeUpdate` makes no check of the transition
graph.  It returns an error exactly when the stored row cannot be read, or
when the requested status differs from the stored one and the log insert
fails; whether the step is an edge of the legal graph plays no part. -/
theorem BeforeUpdate_error_iff (t : Transaction) (db : DB) (nowLog now : Time) :
    (t.BeforeUpdate db nowLog now).err ≠ none ↔
      ((∃ e, db.First t.ID = .error e) ∨
       (∃ original, db.First t.ID = .ok original ∧ original.Status ≠ t.Status ∧
          db.writeFault ≠ none)) := by
  cases hfind : db.First t.ID with
  | error e =>
    rw [BeforeUpdate_read_error t db nowLog now e hfind]
    simp
  | ok original =>
    by_cases hne : original.Status = t.Status
    · rw [BeforeUpdate_same_status t original db nowLog now hfind hne]
      simp [hne]
    · rcases DB.Create_cases db (updateLog t original nowLog) with ⟨hw, -⟩ | ⟨e, hw, -⟩
      · rw [BeforeUpdate_changed t original db nowLog now hfind hne hw]
        simp [hw]
      · rw [BeforeUpdate_write_error t original db nowLog now e hfind hne hw]
        simp [hw, hne]

/-! ## Timestamps -/

theorem BeforeUpdate_keeps_ProcessedAt (t : Transaction) (db : DB) (nowLog now : Time)
    (h : t.ProcessedAt ≠ none) :
    (t.BeforeUpdate db nowLog now).t.ProcessedAt = t.ProcessedAt := by
  cases hfind : db.First t.ID with
  | error e => rw [BeforeUpdate_read_error t db nowLog now e hfind]
  | ok original =>
    by_cases hne : original.Status = t.Status
    · rw [BeforeUpdate_same_status t original db nowLog now hfind hne]
    · rcases DB.Create_cases db (updateLog t original nowLog) with ⟨hw, -⟩ | ⟨e, hw, -⟩
      · rw [BeforeUpdate_changed t original db nowLog now hfind hne hw]
        dsimp only
        split_ifs <;> rfl
      · rw [BeforeUpdate_write_error t original db nowLog now e hfind hne hw]

theorem BeforeUpdate_keeps_CompletedAt (t : Transaction) (db : DB) (nowLog now : Time)
    (h : t.CompletedAt ≠ none) :
    (t.BeforeUpdate db nowLog now).t.CompletedAt = t.CompletedAt := by
  cases hfind : db.First t.ID with
  | error e => rw [BeforeUpdate_read_error t db nowLog now e hfind]
  | ok original =>
    by_cases hne : original.Status = t.Status
    · rw [BeforeUpdate_same_status t original db nowLog now hfind hne]
    · rcases DB.Create_cases db (updateLog t original nowLog) with ⟨hw, -⟩ | ⟨e, hw, -⟩
      · rw [BeforeUpdate_changed t original db nowLog now hfind hne hw]
        dsimp only
        split_ifs <;> rfl
      · rw [BeforeUpdate_write_error t original db nowLog now e hfind hne hw]

theorem runUpdates_keeps_ProcessedAt (steps : List UpdateStep) (t : Transaction)
    (h : t.ProcessedAt ≠ none) : (runUpdates t steps).ProcessedAt = t.ProcessedAt := by
  induction steps generalizing t with
  | nil => rfl
  | cons s rest ih =>
    have h1 : ({ t with Status := s.status } : Transaction).ProcessedAt ≠ none := h
    have hk := BeforeUpdate_keeps_ProcessedAt { t with Status := s.status } s.db s.nowLog s.now h1
    simp only [runUpdates]
    rw [ih _ (by rw [hk]; exact h1), hk]

theorem runUpdates_keeps_CompletedAt (steps : List UpdateStep) (t : Transaction)
    (h : t.CompletedAt ≠ none) : (runUpdates t steps).CompletedAt = t.CompletedAt := by
  induction steps generalizing t with
  | nil => rfl
  | cons s rest ih =>
    have h1 : ({ t with Status := s.status } : Transaction).CompletedAt ≠ none := h
    have hk := BeforeUpdate_keeps_CompletedAt { t with Status := s.status } s.db s.nowLog s.now h1
    simp only [runUpdates]
    rw [ih _ (by rw [hk]; exact h1), hk]

/-- C5: a `ProcessedAt` (respectively `CompletedAt`) that is already set is
not changed by any call of `Transaction.BeforeUpdate`, whatever the store,
the stored status and the new status; and it is not changed by any sequence
of status updates run through the hook, so each timestamp is set at most
once. -/
theorem BeforeUpdate_timestamps_set_once (t : Transaction) :
    (t.ProcessedAt ≠ none →
      (∀ db nowLog now, (t.BeforeUpdate db nowLog now).t.ProcessedAt = t.ProcessedAt) ∧
      (∀ steps, (runUpdates t steps).ProcessedAt = t.ProcessedAt)) ∧
    (t.CompletedAt ≠ none →
      (∀ db nowLog now, (t.BeforeUpdate db nowLog now).t.CompletedAt = t.CompletedAt) ∧
      (∀ steps, (runUpdates t steps).CompletedAt = t.CompletedAt)) :=
  ⟨fun h => ⟨fun db nowLog now => BeforeUpdate_keeps_ProcessedAt t db nowLog now h,
      fun steps => runUpdates_keeps_ProcessedAt steps t h⟩,
   fun h => ⟨fun db nowLog now => BeforeUpdate_keeps_CompletedAt t db nowLog now h,
      fun steps => runUpdates_keeps_CompletedAt steps t h⟩⟩

theorem BeforeUpdate_timestamps_set_once_witness :
    sampleCompleted.ProcessedAt ≠ none ∧ sampleCompleted.CompletedAt ≠ none ∧
    (runUpdates sampleCompleted
      [{ status := "processing", db := sampleDB, nowLog := 10, now := 20 },
       { status := "completed", db := sampleDB, nowLog := 30, now := 40 }]).ProcessedAt =
      some 1000 ∧
    (runUpdates sampleCompleted
      [{ status := "processing", db := sampleDB, nowLog := 10, now := 20 },
       { status := "completed", db := sampleDB, nowLog := 30, now := 40 }]).CompletedAt =
      some 2000 :=
  ⟨by decide, by decide,
    ((BeforeUpdate_timestamps_set_once sampleCompleted).1 (by decide)).2 _,
    ((BeforeUpdate_timestamps_set_once sampleCompleted).2 (by decide)).2 _⟩

/-- C6: when the status of a stored transaction changes and the store takes
the log insert, `Transaction.BeforeUpdate` succeeds and: a change to
`processing` with `ProcessedAt` unset sets `ProcessedAt` to the current time
and leaves `CompletedAt` as it is; a change to `completed` with `CompletedAt`
unset sets `CompletedAt` to the current time and leaves `ProcessedAt` as it
is; a change to any other status leaves both as they are. -/
theorem BeforeUpdate_sets_timestamps (t original : Transaction) (db : DB)
    (nowLog now : Time) (hfind : db.First t.ID = .ok original)
    (hne : original.Status ≠ t.Status) (hw : db.writeFault = none) :
    (t.BeforeUpdate db nowLog now).err = none ∧
    (t.Status = "processing" → t.ProcessedAt = none →
      (t.BeforeUpdate db nowLog now).t.ProcessedAt = some now ∧
      (t.BeforeUpdate db nowLog now).t.CompletedAt = t.CompletedAt) ∧
    (t.Status = "completed" → t.CompletedAt = none →
      (t.BeforeUpdate db nowLog now).t.CompletedAt = some now ∧
      (t.BeforeUpdate db nowLog now).t.ProcessedAt = t.ProcessedAt) ∧
    (t.Status ≠ "processing" → t.Status ≠ "completed" →
      (t.BeforeUpdate db nowLog now).t.ProcessedAt = t.ProcessedAt ∧
      (t.BeforeUpdate db nowLog now).t.CompletedAt = t.CompletedAt) := by
  rw [BeforeUpdate_changed t original db nowLog now hfind hne hw]
  refine ⟨rfl, ?_, ?_, ?_⟩
  · intro hs hp
    simp [hs, hp]
  · intro hs hc
    simp [hs, hc]
  · intro h1 h2
    simp [h1, h2]

theorem BeforeUpdate_sets_timestamps_witness :
    sampleDB.First ({ samplePending with Status := "processing" } : Transaction).ID =
      .ok samplePending ∧
    samplePending.Status ≠ ({ samplePending with Status := "processing" } : Transaction).Status ∧
    sampleDB.writeFault = none ∧
    (({ samplePending with Status := "processing" } : Transaction).BeforeUpdate
      sampleDB 10 20).t.ProcessedAt = some 20 ∧
    (({ samplePending with Status := "processing" } : Transaction).BeforeUpdate
      sampleDB 10 20).t.CompletedAt = none :=
  ⟨rfl, by decide, rfl,
    (BeforeUpdate_sets_timestamps ({ samplePending with Status := "processing" } : Transaction)
      samplePending sampleDB 10 20 rfl (by decide) rfl).2.1 rfl rfl⟩

/-- C7: if the insert of the log row fails during a status change,
`Transaction.BeforeUpdate` returns that error and has modified neither
`ProcessedAt` nor `CompletedAt`, nor anything else of the receiver or the
store; no log row is written. -/
theorem BeforeUpdate_insert_failure (t original : Transaction) (db : DB)
    (nowLog now : Time) (e : Error) (hfind : db.First t.ID = .ok original)
    (hne : original.Status ≠ t.Status)
    (hfail : db.Create (updateLog t original nowLog) = .error e) :
    (t.BeforeUpdate db nowLog now).err = some e ∧
    (t.BeforeUpdate db nowLog now).t.ProcessedAt = t.ProcessedAt ∧
    (t.BeforeUpdate db nowLog now).t.CompletedAt = t.CompletedAt ∧
    (t.BeforeUpdate db nowLog now).t = t ∧
    (t.BeforeUpdate db nowLog now).db = db := by
  rcases DB.Create_cases db (updateLog t original nowLog) with ⟨-, hc⟩ | ⟨e1, hw, hc⟩
  · rw [hc] at hfail
    cases hfail
  · rw [hc] at hfail
    cases hfail
    rw [BeforeUpdate_write_error t original db nowLog now e hfind hne hw]
    exact ⟨rfl, rfl, rfl, rfl, rfl⟩

theorem BeforeUpdate_insert_failure_witness :
    sampleDBFailing.First ({ samplePending with Status := "processing" } : Transaction).ID =
      .ok samplePending ∧
    samplePending.Status ≠ ({ samplePending with Status := "processing" } : Transaction).Status ∧
    sampleDBFailing.Create
      (updateLog ({ samplePending with Status := "processing" } : Transaction)
        samplePending 10) = .error (Error.store "insert failed") ∧
    (({ samplePending with Status := "processing" } : Transaction).BeforeUpdate
      sampleDBFailing 10 20).err = some (Error.store "insert failed") ∧
    (({ samplePending with Status := "processing" } : Transaction).BeforeUpdate
      sampleDBFailing 10 20).t.ProcessedAt = none :=
  have h := BeforeUpdate_insert_failure
    ({ samplePending with Status := "processing" } : Transaction) samplePending
    sampleDBFailing 10 20 (Error.store "insert failed") rfl (by decide) rfl
  ⟨rfl, by decide, rfl, h.1, h.2.1⟩

/-! ## Expiry of a new transaction -/

/-- C8: `Transaction.BeforeCreate` never fails; when `ExpiredAt` is unset it
sets it to the clock reading of the creation plus exactly 24 hours
(86400000000000 ns), and it leaves a supplied `ExpiredAt` as it is.  The
store is not touched. -/
theorem BeforeCreate_sets_expiry (t : Transaction) (db : DB) (uuid : String) (now : Time) :
    (t.BeforeCreate db uuid now).err = none ∧
    (t.ExpiredAt = none →
      (t.BeforeCreate db uuid now).t.ExpiredAt = some (now + 86400000000000)) ∧
    (∀ e, t.ExpiredAt = some e → (t.BeforeCreate db uuid now).t.ExpiredAt = some e) ∧
    (t.BeforeCreate db uuid now).db = db := by
  refine ⟨rfl, ?_, ?_, rfl⟩
  · intro h
    simp only [Transaction.BeforeCreate, Time.Add, Hour]
    split_ifs <;> simp_all
  · intro e h
    simp only [Transaction.BeforeCreate]
    split_ifs <;> simp_all

theorem BeforeCreate_sets_expiry_witness :
    (samplePending.BeforeCreate sampleDB "0a1b2c3d-0000-4000-8000-000000000000" 7).t.ExpiredAt =
      some 90000 ∧
    (({ samplePending with ExpiredAt := none } : Transaction).BeforeCreate sampleDB
      "0a1b2c3d-0000-4000-8000-000000000000" 7).t.ExpiredAt = some (7 + 86400000000000) :=
  ⟨(BeforeCreate_sets_expiry samplePending sampleDB _ 7).2.2.1 90000 rfl,
   (BeforeCreate_sets_expiry ({ samplePending with ExpiredAt := none } : Transaction)
      sampleDB _ 7).2.1 rfl⟩

/-! ## Voucher quota -/

theorem Time.After_eq_false_of_le (t u : Time) (h : t ≤ u) : Time.After t u = false := by
  simp [Time.After, h]

/-- C9, counterexample: the voucher with `used_count = 5` and `quota = 1` and
valid dates is accepted by `Voucher.BeforeCreate` and by
`Voucher.BeforeUpdate`, and leaves both with `used_count` above `quota`. -/
theorem Voucher_hooks_accept_overused :
    (sampleOverused.BeforeCreate (10 * Hour)).err = none ∧
    (sampleOverused.BeforeUpdate (10 * Hour)).err = none ∧
    ¬ ((sampleOverused.BeforeCreate (10 * Hour)).v.UsedCount ≤
        (sampleOverused.BeforeCreate (10 * Hour)).v.Quota) ∧
    ¬ ((sampleOverused.BeforeUpdate (10 * Hour)).v.UsedCount ≤
        (sampleOverused.BeforeUpdate (10 * Hour)).v.Quota) := by
  decide

/-- C9, amended: the voucher hooks do not reject a voucher for its
`used_count`.  Whether `Voucher.BeforeCreate` or `Voucher.BeforeUpdate`
returns an error does not depend on `used_count` or `quota`, and both leave
the two counters as they are; a voucher that `Voucher.BeforeUpdate` accepts
either has `used_count < quota` or leaves the hook with status `inactive`. -/
theorem Voucher_hooks_usage (v : Voucher) (now : Time) :
    (∀ u q : Int,
      (Voucher.BeforeCreate { v with UsedCount := u, Quota := q } now).err =
        (v.BeforeCreate now).err ∧
      (Voucher.BeforeUpdate { v with UsedCount := u, Quota := q } now).err =
        (v.BeforeUpdate now).err) ∧
    (v.BeforeCreate now).v.UsedCount = v.UsedCount ∧
    (v.BeforeCreate now).v.Quota = v.Quota ∧
    (v.BeforeUpdate now).v.UsedCount = v.UsedCount ∧
    (v.BeforeUpdate now).v.Quota = v.Quota ∧
    ((v.BeforeUpdate now).err = none →
      (v.BeforeUpdate now).v.UsedCount < (v.BeforeUpdate now).v.Quota ∨
      (v.BeforeUpdate now).v.Status = "inactive") := by
  refine ⟨fun u q => ⟨?_, ?_⟩, ?_, ?_, ?_, ?_, ?_⟩
  · simp only [Voucher.BeforeCreate]
    split_ifs <;> rfl
  · simp only [Voucher.BeforeUpdate]
    split_ifs <;> rfl
  · simp only [Voucher.BeforeCreate]
    split_ifs <;> rfl
  · simp only [Voucher.BeforeCreate]
    split_ifs <;> rfl
  · simp only [Voucher.BeforeUpdate]
    split_ifs <;> rfl
  · simp only [Voucher.BeforeUpdate]
    split_ifs <;> rfl
  · simp only [Voucher.BeforeUpdate]
    split_ifs <;> simp_all

theorem Voucher_hooks_usage_witness :
    (sampleOverused.BeforeUpdate (10 * Hour)).err = none ∧
    ((sampleOverused.BeforeUpdate (10 * Hour)).v.UsedCount <
        (sampleOverused.BeforeUpdate (10 * Hour)).v.Quota ∨
      (sampleOverused.BeforeUpdate (10 * Hour)).v.Status = "inactive") :=
  ⟨by decide, (Voucher_hooks_usage sampleOverused (10 * Hour)).2.2.2.2.2 (by decide)⟩

/-- C10: for a voucher whose `used_count` equals its `quota` and whose dates
are valid (`start_date <= end_date`), `Voucher.BeforeUpdate` succeeds and
leaves the voucher with status `inactive`, whatever the clock reads. -/
theorem BeforeUpdate_used_up_inactive (v : Voucher) (now : Time)
    (hq : v.UsedCount = v.Quota) (hd : v.StartDate ≤ v.EndDate) :
    (v.BeforeUpdate now).err = none ∧ (v.BeforeUpdate now).v.Status = "inactive" := by
  have ha := Time.After_eq_false_of_le v.StartDate v.EndDate hd
  simp only [Voucher.BeforeUpdate, ha]
  split_ifs <;> simp_all

theorem BeforeUpdate_used_up_inactive_witness :
    sampleUsedUp.UsedCount = sampleUsedUp.Quota ∧ sampleUsedUp.StartDate ≤ sampleUsedUp.EndDate ∧
    (sampleUsedUp.BeforeUpdate (10 * Hour)).err = none ∧
    (sampleUsedUp.BeforeUpdate (10 * Hour)).v.Status = "inactive" :=
  ⟨by decide, by decide,
    BeforeUpdate_used_up_inactive sampleUsedUp (10 * Hour) (by decide) (by decide)⟩

/-! ## Voucher dates -/

theorem Time.After_eq_true_of_lt (t u : Time) (h : u < t) : Time.After t u = true := by
  simp [Time.After, h]

/-- C11, counterexample: the sample voucher with valid dates, an end date
before the current day and `used_count = 5`, `quota = 1` is accepted by
`Voucher.BeforeUpdate` and leaves it with status `inactive`, not `expired`. -/
theorem BeforeUpdate_past_end_date_inactive :
    sampleOverused.StartDate ≤ sampleOverused.EndDate ∧
    sampleOverused.EndDate < Time.Truncate (2000 * Hour) (24 * Hour) ∧
    (sampleOverused.BeforeUpdate (2000 * Hour)).err = none ∧
    (sampleOverused.BeforeUpdate (2000 * Hour)).v.Status = "inactive" ∧
    (sampleOverused.BeforeUpdate (2000 * Hour)).v.Status ≠ "expired" := by
  decide

/-- C11, amended: for a voucher with valid dates whose end date lies before
the current day, `Voucher.BeforeCreate` succeeds and leaves the status
`expired`, whatever the status and the counters were; `Voucher.BeforeUpdate`
succeeds and leaves the status `expired` when `used_count < quota`, and
`inactive` when `used_count >= quota`. -/
theorem Voucher_hooks_past_end_date (v : Voucher) (now : Time)
    (hd : v.StartDate ≤ v.EndDate) (hp : v.EndDate < Time.Truncate now (24 * Hour)) :
    (v.BeforeCreate now).err = none ∧
    (v.BeforeCreate now).v.Status = "expired" ∧
    (v.BeforeUpdate now).err = none ∧
    (v.UsedCount < v.Quota → (v.BeforeUpdate now).v.Status = "expired") ∧
    (v.Quota ≤ v.UsedCount → (v.BeforeUpdate now).v.Status = "inactive") := by
  have ha := Time.After_eq_false_of_le v.StartDate v.EndDate hd
  have hb : Time.Before v.EndDate (Time.Truncate now (24 * Hour)) = true := by
    simp [Time.Before, hp]
  refine ⟨?_, ?_, ?_, ?_, ?_⟩
  · simp [Voucher.BeforeCreate, ha]
  · simp [Voucher.BeforeCreate, ha, hb]
  · simp [Voucher.BeforeUpdate, ha]
  · intro hlt
    have hge : ¬ v.UsedCount ≥ v.Quota := not_le.mpr hlt
    simp [Voucher.BeforeUpdate, ha, hb, hge]
  · intro hle
    have hge : v.UsedCount ≥ v.Quota := hle
    simp [Voucher.BeforeUpdate, ha, hb, hge]

theorem Voucher_hooks_past_end_date_witness :
    sampleOverused.StartDate ≤ sampleOverused.EndDate ∧
    sampleOverused.EndDate < Time.Truncate (2000 * Hour) (24 * Hour) ∧
    (sampleOverused.BeforeCreate (2000 * Hour)).err = none ∧
    (sampleOverused.BeforeCreate (2000 * Hour)).v.Status = "expired" ∧
    (sampleOverused.BeforeUpdate (2000 * Hour)).err = none ∧
    (sampleOverused.UsedCount < sampleOverused.Quota →
      (sampleOverused.BeforeUpdate (2000 * Hour)).v.Status = "expired") ∧
    (sampleOverused.Quota ≤ sampleOverused.UsedCount →
      (sampleOverused.BeforeUpdate (2000 * Hour)).v.Status = "inactive") :=
  ⟨by decide, by decide,
    Voucher_hooks_past_end_date sampleOverused (2000 * Hour) (by decide) (by decide)⟩

/-- C12: `Voucher.BeforeCreate` and `Voucher.BeforeUpdate` return an error if
and only if `start_date` is after `end_date`, the error is `ErrInvalidData`,
and on it the voucher (its status included) is left as it was; every voucher
they accept satisfies `start_date <= end_date`. -/
theorem Voucher_hooks_error_iff (v : Voucher) (now : Time) :
    ((v.BeforeCreate now).err ≠ none ↔ v.EndDate < v.StartDate) ∧
    ((v.BeforeUpdate now).err ≠ none ↔ v.EndDate < v.StartDate) ∧
    ((v.BeforeCreate now).err ≠ none →
      (v.BeforeCreate now).err = some Error.ErrInvalidData ∧
      (v.BeforeCreate now).v.Status = v.Status ∧ (v.BeforeCreate now).v = v) ∧
    ((v.BeforeUpdate now).err ≠ none →
      (v.BeforeUpdate now).err = some Error.ErrInvalidData ∧
      (v.BeforeUpdate now).v.Status = v.Status ∧ (v.BeforeUpdate now).v = v) ∧
    ((v.BeforeCreate now).err = none →
      (v.BeforeCreate now).v.StartDate ≤ (v.BeforeCreate now).v.EndDate) ∧
    ((v.BeforeUpdate now).err = none →
      (v.BeforeUpdate now).v.StartDate ≤ (v.BeforeUpdate now).v.EndDate) := by
  by_cases h : v.EndDate < v.StartDate
  · have ha := Time.After_eq_true_of_lt v.StartDate v.EndDate h
    simp [Voucher.BeforeCreate, Voucher.BeforeUpdate, ha, h]
  · have hle : v.StartDate ≤ v.EndDate := not_lt.mp h
    have ha := Time.After_eq_false_of_le v.StartDate v.EndDate hle
    simp only [Voucher.BeforeCreate, Voucher.BeforeUpdate, ha]
    refine ⟨?_, ?_, ?_, ?_, ?_, ?_⟩
    · simp [h]
    · simp [h]
    · simp
    · simp
    · intro _
      split_ifs <;> exact hle
    · intro _
      split_ifs <;> exact hle

theorem Voucher_hooks_error_iff_witness :
    (({ sampleOverused with StartDate := 2000 * Hour } : Voucher).BeforeCreate
      (10 * Hour)).err = some Error.ErrInvalidData ∧
    (({ sampleOverused with StartDate := 2000 * Hour } : Voucher).BeforeUpdate
      (10 * Hour)).v.Status = "active" ∧
    (sampleOverused.BeforeUpdate (10 * Hour)).v.StartDate ≤
      (sampleOverused.BeforeUpdate (10 * Hour)).v.EndDate :=
  ⟨((Voucher_hooks_error_iff ({ sampleOverused with StartDate := 2000 * Hour } : Voucher)
      (10 * Hour)).2.2.1 (by decide)).1,
   ((Voucher_hooks_error_iff ({ sampleOverused with StartDate := 2000 * Hour } : Voucher)
      (10 * Hour)).2.2.2.1 (by decide)).2.1,
   (Voucher_hooks_error_iff sampleOverused (10 * Hour)).2.2.2.2.2 (by decide)⟩

/-! ## Pricing fields -/

/-- C13, counterexample: the transaction with product price 20000, fee 0,
discount 2000 and a supplied total of -18000 passes
`Transaction.BeforeCreate`, and leaves it with a total that is neither the
price plus the fee less the discount nor non-negative. -/
theorem BeforeCreate_accepts_mispriced :
    (sampleMispriced.BeforeCreate sampleDB "0a1b2c3d-0000-4000-8000-000000000000" 7).err = none ∧
    (sampleMispriced.BeforeCreate sampleDB
      "0a1b2c3d-0000-4000-8000-000000000000" 7).t.ProductPrice = 20000 ∧
    (sampleMispriced.BeforeCreate sampleDB
      "0a1b2c3d-0000-4000-8000-000000000000" 7).t.PaymentFee = 0 ∧
    (sampleMispriced.BeforeCreate sampleDB
      "0a1b2c3d-0000-4000-8000-000000000000" 7).t.VoucherDiscount = 2000 ∧
    (sampleMispriced.BeforeCreate sampleDB
      "0a1b2c3d-0000-4000-8000-000000000000" 7).t.TotalAmount = -18000 ∧
    (sampleMispriced.BeforeCreate sampleDB
      "0a1b2c3d-0000-4000-8000-000000000000" 7).t.TotalAmount ≠
      (sampleMispriced.BeforeCreate sampleDB
        "0a1b2c3d-0000-4000-8000-000000000000" 7).t.ProductPrice +
      (sampleMispriced.BeforeCreate sampleDB
        "0a1b2c3d-0000-4000-8000-000000000000" 7).t.PaymentFee -
      (sampleMispriced.BeforeCreate sampleDB
        "0a1b2c3d-0000-4000-8000-000000000000" 7).t.VoucherDiscount ∧
    ¬ (0 ≤ (sampleMispriced.BeforeCreate sampleDB
      "0a1b2c3d-0000-4000-8000-000000000000" 7).t.TotalAmount) := by
  have h : (sampleMispriced.BeforeCreate sampleDB
      "0a1b2c3d-0000-4000-8000-000000000000" 7).t = sampleMispriced := by
    simp [Transaction.BeforeCreate, sampleMispriced, samplePending]
  rw [h]
  refine ⟨rfl, rfl, rfl, rfl, rfl, ?_, ?_⟩ <;>
    norm_num [sampleMispriced, samplePending]

/-- C13, amended: `Transaction.BeforeCreate` neither computes nor checks the
amounts.  It returns no error for every transaction and leaves
`product_price`, `payment_fee`, `voucher_discount` and `total_amount` as they
were supplied; so the transaction it passes satisfies
`total_amount = product_price + payment_fee - voucher_discount` and
`total_amount >= 0` exactly when the supplied one does. -/
theorem BeforeCreate_keeps_amounts (t : Transaction) (db : DB) (uuid : String) (now : Time) :
    (t.BeforeCreate db uuid now).err = none ∧
    (t.BeforeCreate db uuid now).t.ProductPrice = t.ProductPrice ∧
    (t.BeforeCreate db uuid now).t.PaymentFee = t.PaymentFee ∧
    (t.BeforeCreate db uuid now).t.VoucherDiscount = t.VoucherDiscount ∧
    (t.BeforeCreate db uuid now).t.TotalAmount = t.TotalAmount ∧
    ((t.BeforeCreate db uuid now).t.TotalAmount =
        (t.BeforeCreate db uuid now).t.ProductPrice +
        (t.BeforeCreate db uuid now).t.PaymentFee -
        (t.BeforeCreate db uuid now).t.VoucherDiscount ↔
      t.TotalAmount = t.ProductPrice + t.PaymentFee - t.VoucherDiscount) ∧
    (0 ≤ (t.BeforeCreate db uuid now).t.TotalAmount ↔ 0 ≤ t.TotalAmount) := by
  have h1 : (t.BeforeCreate db uuid now).t.ProductPrice = t.ProductPrice := by
    simp only [Transaction.BeforeCreate]
    split_ifs <;> rfl
  have h2 : (t.BeforeCreate db uuid now).t.PaymentFee = t.PaymentFee := by
    simp only [Transaction.BeforeCreate]
    split_ifs <;> rfl
  have h3 : (t.BeforeCreate db uuid now).t.VoucherDiscount = t.VoucherDiscount := by
    simp only [Transaction.BeforeCreate]
    split_ifs <;> rfl
  have h4 : (t.BeforeCreate db uuid now).t.TotalAmount = t.TotalAmount := by
    simp only [Transaction.BeforeCreate]
    split_ifs <;> rfl
  exact ⟨rfl, h1, h2, h3, h4, by rw [h1, h2, h3, h4], by rw [h4]⟩

theorem BeforeCreate_keeps_amounts_witness :
    (samplePending.BeforeCreate sampleDB "0a1b2c3d-0000-4000-8000-000000000000" 7).t.TotalAmount =
      samplePending.TotalAmount ∧
    samplePending.TotalAmount = 18000 ∧
    samplePending.ProductPrice + samplePending.PaymentFee - samplePending.VoucherDiscount =
      18000 :=
  ⟨(BeforeCreate_keeps_amounts samplePending sampleDB _ 7).2.2.2.2.1, rfl,
   by norm_num [samplePending]⟩

/-! ## Quota ledger -/

theorem find?_replaceVoucher (v1 : Voucher) (l : List Voucher) (v : Voucher)
    (h : l.find? (fun w => w.ID == v1.ID) = some v) :
    (replaceVoucher v1 l).find? (fun w => w.ID == v1.ID) = some v1 := by
  induction l with
  | nil => simp at h
  | cons w ws ih =>
    by_cases hw : w.ID = v1.ID
    · simp [replaceVoucher, hw]
    · have hb : (w.ID == v1.ID) = false := by simpa using hw
      rw [List.find?_cons, hb] at h
      have hr : replaceVoucher v1 (w :: ws) = w :: replaceVoucher v1 ws := by
        simp [replaceVoucher, hb]
      rw [hr, List.find?_cons, hb]
      exact ih h

theorem findVoucher_ID (st : VoucherStore) (voucherID : Nat) (v : Voucher)
    (h : st.findVoucher voucherID = some v) : v.ID = voucherID := by
  have := List.find?_some h
  simpa using this

/-- A successful `ReserveUsage` found the voucher below its quota and leaves
it with the same quota and one more use. -/
theorem ReserveUsage_ok (st st1 : VoucherStore) (voucherID userID transactionID : Nat)
    (discountAmount : Rat) (now : Time)
    (h : ReserveUsage st voucherID userID transactionID discountAmount now = .ok st1) :
    ∃ v v1, st.findVoucher voucherID = some v ∧ st1.findVoucher voucherID = some v1 ∧
      v.UsedCount < v.Quota ∧ v1.Quota = v.Quota ∧ v1.UsedCount = v.UsedCount + 1 := by
  unfold ReserveUsage at h
  cases hf : st.findVoucher voucherID with
  | none => simp [hf] at h
  | some v =>
    have hid := findVoucher_ID st voucherID v hf
    simp only [hf] at h
    split_ifs at h with h1 h2 h3 h4 h5
    have hst := Except.ok.inj h
    refine ⟨v, v.consumeOne, rfl, ?_, h4, rfl, rfl⟩
    rw [← hst]
    simp only [VoucherStore.findVoucher]
    have hf1 : st.vouchers.find? (fun w => w.ID == voucherID) = some v := hf
    rw [← hid] at hf1 ⊢
    exact find?_replaceVoucher v.consumeOne st.vouchers v hf1

/-- The ledger invariant along a run: the quota stays, `used_count` grows by
the number of successes, and it stays within the quota once a call
succeeded. -/
theorem runReservations_spec (voucherID : Nat) (calls : List ReserveCall) :
    ∀ (st : VoucherStore) (v : Voucher), st.findVoucher voucherID = some v →
      ∃ v1, (runReservations voucherID st calls).2.findVoucher voucherID = some v1 ∧
        v1.Quota = v.Quota ∧
        v1.UsedCount = v.UsedCount + ((runReservations voucherID st calls).1 : Int) ∧
        ((runReservations voucherID st calls).1 = 0 ∨ v1.UsedCount ≤ v.Quota) := by
  induction calls with
  | nil =>
    intro st v hf
    exact ⟨v, hf, rfl, by simp [runReservations], Or.inl rfl⟩
  | cons c rest ih =>
    intro st v hf
    cases hr : ReserveUsage st voucherID c.userID c.transactionID c.discountAmount c.now with
    | error e =>
      simp only [runReservations, hr]
      exact ih st v hf
    | ok st1 =>
      obtain ⟨w, w1, hw, hw1, hlt, hq, hu⟩ :=
        ReserveUsage_ok st st1 voucherID c.userID c.transactionID c.discountAmount c.now hr
      rw [hf] at hw
      cases hw
      obtain ⟨v2, h2, hq2, hu2, hor⟩ := ih st1 w1 hw1
      simp only [runReservations, hr]
      refine ⟨v2, h2, by rw [hq2, hq], ?_, Or.inr ?_⟩
      · rw [hu2, hu]
        push_cast
        ring
      · rcases hor with h0 | hle
        · rw [hu2, hu, h0]
          simp only [Nat.cast_zero, add_zero]
          omega
        · rw [← hq]
          exact hle

/-- With one use left, the run has exactly one success as soon as one of the
calls would succeed against the initial store. -/
theorem runReservations_last_use (voucherID : Nat) (calls : List ReserveCall) :
    ∀ (st : VoucherStore) (v : Voucher), st.findVoucher voucherID = some v →
      v.Quota = v.UsedCount + 1 →
      (∃ c ∈ calls, ∃ st1,
        ReserveUsage st voucherID c.userID c.transactionID c.discountAmount c.now = .ok st1) →
      (runReservations voucherID st calls).1 = 1 := by
  induction calls with
  | nil =>
    intro st v _ _ hex
    obtain ⟨c, hc, -⟩ := hex
    simp at hc
  | cons c rest ih =>
    intro st v hf hq hex
    cases hr : ReserveUsage st voucherID c.userID c.transactionID c.discountAmount c.now with
    | error e =>
      simp only [runReservations, hr]
      apply ih st v hf hq
      obtain ⟨d, hd, st1, hst1⟩ := hex
      rcases List.mem_cons.mp hd with rfl | hd
      · rw [hr] at hst1
        cases hst1
      · exact ⟨d, hd, st1, hst1⟩
    | ok st1 =>
      obtain ⟨w, w1, hw, hw1, hlt, hq1, hu1⟩ :=
        ReserveUsage_ok st st1 voucherID c.userID c.transactionID c.discountAmount c.now hr
      rw [hf] at hw
      cases hw
      obtain ⟨v2, -, -, hu2, hor⟩ := runReservations_spec voucherID rest st1 w1 hw1
      simp only [runReservations, hr]
      rcases hor with h0 | hle
      · rw [h0]
      · rw [hu2, hu1, hq1] at hle
        omega

/-- C14: against the ledger modelled from the specification, for a voucher
with quota `q` whose `used_count` lies between 0 and `q`, and any number of
concurrent `ReserveUsage` calls against it (atomic units of work, taking
effect in some order): at most `q` calls succeed, the voucher is left with the
same quota and `used_count <= quota`, and with quota 1 and no use yet exactly
one call succeeds as soon as one of the calls is admissible at the start. -/
theorem ReserveUsage_within_quota (voucherID : Nat) (st : VoucherStore) (v : Voucher)
    (calls : List ReserveCall) (hfind : st.findVoucher voucherID = some v)
    (hused : 0 ≤ v.UsedCount) (hle : v.UsedCount ≤ v.Quota) :
    ((runReservations voucherID st calls).1 : Int) ≤ v.Quota ∧
    (∃ v1, (runReservations voucherID st calls).2.findVoucher voucherID = some v1 ∧
      v1.Quota = v.Quota ∧ v1.UsedCount ≤ v1.Quota) ∧
    (v.Quota = 1 → v.UsedCount = 0 →
      (∃ c ∈ calls, ∃ st1,
        ReserveUsage st voucherID c.userID c.transactionID c.discountAmount c.now = .ok st1) →
      (runReservations voucherID st calls).1 = 1) := by
  obtain ⟨v1, h1, hq, hu, hor⟩ := runReservations_spec voucherID calls st v hfind
  refine ⟨?_, ⟨v1, h1, hq, ?_⟩, ?_⟩
  · rcases hor with h0 | h
    · rw [h0]
      simp only [Nat.cast_zero]
      omega
    · omega
  · rcases hor with h0 | h
    · rw [h0] at hu
      simp only [Nat.cast_zero, add_zero] at hu
      omega
    · omega
  · intro hq1 hu0 hex
    exact runReservations_last_use voucherID calls st v hfind (by omega) hex

theorem ReserveUsage_within_quota_witness :
    sampleVoucherStore.findVoucher 1 = some samplePercent ∧
    0 ≤ samplePercent.UsedCount ∧ samplePercent.UsedCount ≤ samplePercent.Quota ∧
    (runReservations 1 sampleVoucherStore sampleCalls).1 = 1 :=
  ⟨rfl, by decide, by decide,
    (ReserveUsage_within_quota 1 sampleVoucherStore samplePercent sampleCalls rfl
      (by decide) (by decide)).2.2 rfl rfl
      ⟨{ userID := 7, transactionID := 31, discountAmount := 2000, now := 10 * Hour },
        by decide, _, rfl⟩⟩

/-! ## Voucher evaluator -/

theorem roundMinorUnit_of_minor_units (n : Int) :
    roundMinorUnit ((n : Rat) / 100) = (n : Rat) / 100 := by
  have h : Int.floor ((n : Rat) / 100 * 100 + 1 / 2) = n := by
    rw [Int.floor_eq_iff]
    constructor
    · have : (n : Rat) / 100 * 100 = n := by ring
      rw [this]
      linarith
    · have : (n : Rat) / 100 * 100 = n := by ring
      rw [this]
      linarith
  simp only [roundMinorUnit, h]

theorem roundMinorUnit_eq_self (x : Rat) (n : Int) (h : x = (n : Rat) / 100) :
    roundMinorUnit x = x := by
  rw [h]
  exact roundMinorUnit_of_minor_units n

theorem roundMinorUnit_mono (x y : Rat) (h : x ≤ y) : roundMinorUnit x ≤ roundMinorUnit y := by
  have hf : Int.floor (x * 100 + 1 / 2) ≤ Int.floor (y * 100 + 1 / 2) :=
    Int.floor_mono (by linarith)
  have hc : ((Int.floor (x * 100 + 1 / 2) : Int) : Rat) ≤ (Int.floor (y * 100 + 1 / 2) : Int) :=
    by exact_mod_cast hf
  simp only [roundMinorUnit]
  exact div_le_div_of_nonneg_right hc (by norm_num)

/-- When `Evaluate` answers valid, the discount is the computed one of the
voucher the code names. -/
theorem Evaluate_valid_discount (st : VoucherStore) (code : String)
    (userID productID categoryID : Nat) (amount : Rat) (now : Time) (v : Voucher)
    (hfind : st.vouchers.find? (fun w => w.Code == normalizeCode code) = some v)
    (hvalid : (Evaluate st code userID productID categoryID amount now).valid = true) :
    (Evaluate st code userID productID categoryID amount now).discountAmount =
      computeDiscount v amount := by
  simp only [Evaluate, hfind] at hvalid ⊢
  split_ifs at hvalid ⊢
  rfl

/-- C15: against the evaluator modelled from the specification, a valid
evaluation computes the discount, rounded to the minor unit, as
`amount * value / 100` clamped to `max_discount_amount` when set for a
`percentage` voucher, and as `min(value, amount)` for a `fixed` voucher; the
rounding changes no amount that is a whole number of minor units, and for a
`fixed` voucher the discount never exceeds such an amount. -/
theorem Evaluate_discount (st : VoucherStore) (code : String)
    (userID productID categoryID : Nat) (amount : Rat) (now : Time) (v : Voucher)
    (hfind : st.vouchers.find? (fun w => w.Code == normalizeCode code) = some v)
    (hvalid : (Evaluate st code userID productID categoryID amount now).valid = true) :
    (v.VoucherType = "percentage" → v.MaxDiscountAmount = none →
      (Evaluate st code userID productID categoryID amount now).discountAmount =
        roundMinorUnit (amount * v.Value / 100)) ∧
    (v.VoucherType = "percentage" → ∀ cap, v.MaxDiscountAmount = some cap →
      (Evaluate st code userID productID categoryID amount now).discountAmount =
        roundMinorUnit (min (amount * v.Value / 100) cap)) ∧
    (v.VoucherType = "fixed" →
      (Evaluate st code userID productID categoryID amount now).discountAmount =
        roundMinorUnit (min v.Value amount)) ∧
    (∀ n : Int, roundMinorUnit ((n : Rat) / 100) = (n : Rat) / 100) ∧
    (v.VoucherType = "fixed" → ∀ n : Int, amount = (n : Rat) / 100 →
      (Evaluate st code userID productID categoryID amount now).discountAmount ≤ amount) := by
  rw [Evaluate_valid_discount st code userID productID categoryID amount now v hfind hvalid]
  have hpf : ("fixed" : String) ≠ "percentage" := by decide
  refine ⟨?_, ?_, ?_, roundMinorUnit_of_minor_units, ?_⟩
  · intro hk hc
    simp [computeDiscount, hk, hc]
  · intro hk cap hc
    simp [computeDiscount, hk, hc]
  · intro hk
    simp [computeDiscount, hk, hpf]
  · intro hk n hn
    have hd : computeDiscount v amount = roundMinorUnit (min v.Value amount) := by
      simp [computeDiscount, hk, hpf]
    rw [hd]
    calc roundMinorUnit (min v.Value amount)
        ≤ roundMinorUnit amount := roundMinorUnit_mono _ _ (min_le_right _ _)
      _ = amount := by rw [hn]; exact roundMinorUnit_of_minor_units n

theorem Evaluate_discount_witness :
    (Evaluate sampleVoucherStore "promo10" 7 3 1 100000 (10 * Hour)).discountAmount = 10000 ∧
    (Evaluate sampleVoucherStoreCapped "promo10" 7 3 1 100000 (10 * Hour)).discountAmount =
      5000 ∧
    (Evaluate sampleVoucherStore "flat20k" 7 3 1 15000 (10 * Hour)).discountAmount = 15000 ∧
    (Evaluate sampleVoucherStore "flat20k" 7 3 1 15000 (10 * Hour)).discountAmount ≤ 15000 :=
  ⟨(((Evaluate_discount sampleVoucherStore "promo10" 7 3 1 100000 (10 * Hour) samplePercent
      rfl (by decide)).1 rfl rfl).trans
      (roundMinorUnit_eq_self _ 1000000 (by norm_num [samplePercent]))).trans
      (by norm_num [samplePercent]),
   (((Evaluate_discount sampleVoucherStoreCapped "promo10" 7 3 1 100000 (10 * Hour)
      { samplePercent with MaxDiscountAmount := some 5000 }
      rfl (by decide)).2.1 rfl 5000 rfl).trans
      (roundMinorUnit_eq_self _ 500000 (by norm_num [samplePercent, min_def]))).trans
      (by norm_num [samplePercent, min_def]),
   (((Evaluate_discount sampleVoucherStore "flat20k" 7 3 1 15000 (10 * Hour) sampleFixed
      rfl (by decide)).2.2.1 rfl).trans
      (roundMinorUnit_eq_self _ 1500000 (by norm_num [sampleFixed, samplePercent, min_def]))).trans
      (by norm_num [sampleFixed, samplePercent, min_def]),
   (Evaluate_discount sampleVoucherStore "flat20k" 7 3 1 15000 (10 * Hour) sampleFixed
      rfl (by decide)).2.2.2.2 rfl 1500000 (by norm_num)⟩

/-! ## Base64 round trip -/

theorem byteOf_val (b : Byte) : byteOf b.val = b := by
  apply Fin.ext
  simp [byteOf, Fin.ofNat, Nat.mod_eq_of_lt b.isLt]

theorem urlDecodeMap_urlEncodeChar (n : Nat) (h : n < 64) :
    urlDecodeMap (urlEncodeChar n) = some n := by
  have key : ∀ m : Fin 64, urlDecodeMap (urlEncodeChar m.val) = some m.val := by decide
  exact key ⟨n, h⟩

theorem urlEncodeChar_ne (n : Nat) (h : n < 64) :
    urlEncodeChar n ≠ byteOf 46 ∧ urlEncodeChar n ≠ byteOf 61 := by
  have key : ∀ m : Fin 64,
      urlEncodeChar m.val ≠ byteOf 46 ∧ urlEncodeChar m.val ≠ byteOf 61 := by decide
  exact key ⟨n, h⟩

theorem urlDecodeMap_pad : urlDecodeMap (byteOf 61) = none := by decide

/-- A full quantum of four characters decodes to its three bytes. -/
theorem decodeQuanta_full (w x y z : Nat) (hw : w < 64) (hx : x < 64) (hy : y < 64)
    (hz : z < 64) (rest dst : Bytes) :
    decodeQuanta (urlEncodeChar w :: urlEncodeChar x :: urlEncodeChar y :: urlEncodeChar z :: rest)
        [] dst =
      decodeQuanta rest []
        (dst ++ [byteOf (quantumValue w x y z / 65536), byteOf (quantumValue w x y z / 256),
          byteOf (quantumValue w x y z)]) := by
  simp [decodeQuanta, urlDecodeMap_urlEncodeChar, hw, hx, hy, hz]

/-- A last quantum of two characters and `==` decodes to one byte. -/
theorem decodeQuanta_pad2 (w x : Nat) (hw : w < 64) (hx : x < 64) (dst : Bytes) :
    decodeQuanta [urlEncodeChar w, urlEncodeChar x, byteOf 61, byteOf 61] [] dst =
      some (dst ++ [byteOf (quantumValue w x 0 0 / 65536)]) := by
  have h1 : ¬ (byteOf 61 = byteOf 10 ∨ byteOf 61 = byteOf 13) := by decide
  have h2 : skipNewlines [byteOf 61] = [byteOf 61] := by decide
  have h3 : skipNewlines [] = [] := rfl
  simp only [decodeQuanta, urlDecodeMap_urlEncodeChar _ hw, urlDecodeMap_urlEncodeChar _ hx,
    urlDecodeMap_pad, h1, h2, h3, List.nil_append, List.cons_append, if_false, ne_eq,
    not_true_eq_false, if_true]

/-- A last quantum of three characters and `=` decodes to two bytes. -/
theorem decodeQuanta_pad1 (w x y : Nat) (hw : w < 64) (hx : x < 64) (hy : y < 64)
    (dst : Bytes) :
    decodeQuanta [urlEncodeChar w, urlEncodeChar x, urlEncodeChar y, byteOf 61] [] dst =
      some (dst ++ [byteOf (quantumValue w x y 0 / 65536),
        byteOf (quantumValue w x y 0 / 256)]) := by
  have h1 : ¬ (byteOf 61 = byteOf 10 ∨ byteOf 61 = byteOf 13) := by decide
  have h3 : skipNewlines [] = [] := rfl
  simp only [decodeQuanta, urlDecodeMap_urlEncodeChar _ hw, urlDecodeMap_urlEncodeChar _ hx,
    urlDecodeMap_urlEncodeChar _ hy, urlDecodeMap_pad, h1, h3, List.nil_append,
    List.cons_append, if_false, ne_eq, not_true_eq_false, if_true]

theorem decode_three (a b c : Byte) :
    [byteOf (quantumValue ((a.val * 65536 + b.val * 256 + c.val) / 262144 % 64)
        ((a.val * 65536 + b.val * 256 + c.val) / 4096 % 64)
        ((a.val * 65536 + b.val * 256 + c.val) / 64 % 64)
        ((a.val * 65536 + b.val * 256 + c.val) % 64) / 65536),
      byteOf (quantumValue ((a.val * 65536 + b.val * 256 + c.val) / 262144 % 64)
        ((a.val * 65536 + b.val * 256 + c.val) / 4096 % 64)
        ((a.val * 65536 + b.val * 256 + c.val) / 64 % 64)
        ((a.val * 65536 + b.val * 256 + c.val) % 64) / 256),
      byteOf (quantumValue ((a.val * 65536 + b.val * 256 + c.val) / 262144 % 64)
        ((a.val * 65536 + b.val * 256 + c.val) / 4096 % 64)
        ((a.val * 65536 + b.val * 256 + c.val) / 64 % 64)
        ((a.val * 65536 + b.val * 256 + c.val) % 64))] = [a, b, c] := by
  have ha := a.isLt
  have hb := b.isLt
  have hc := c.isLt
  have hv : quantumValue ((a.val * 65536 + b.val * 256 + c.val) / 262144 % 64)
        ((a.val * 65536 + b.val * 256 + c.val) / 4096 % 64)
        ((a.val * 65536 + b.val * 256 + c.val) / 64 % 64)
        ((a.val * 65536 + b.val * 256 + c.val) % 64) =
      a.val * 65536 + b.val * 256 + c.val := by
    simp only [quantumValue]
    omega
  rw [hv]
  have h1 : byteOf ((a.val * 65536 + b.val * 256 + c.val) / 65536) = a := by
    apply Fin.ext
    simp only [byteOf, Fin.ofNat]
    omega
  have h2 : byteOf ((a.val * 65536 + b.val * 256 + c.val) / 256) = b := by
    apply Fin.ext
    simp only [byteOf, Fin.ofNat]
    omega
  have h3 : byteOf (a.val * 65536 + b.val * 256 + c.val) = c := by
    apply Fin.ext
    simp only [byteOf, Fin.ofNat]
    omega
  rw [h1, h2, h3]

theorem decode_two (a b : Byte) :
    [byteOf (quantumValue ((a.val * 65536 + b.val * 256) / 262144 % 64)
        ((a.val * 65536 + b.val * 256) / 4096 % 64)
        ((a.val * 65536 + b.val * 256) / 64 % 64) 0 / 65536),
      byteOf (quantumValue ((a.val * 65536 + b.val * 256) / 262144 % 64)
        ((a.val * 65536 + b.val * 256) / 4096 % 64)
        ((a.val * 65536 + b.val * 256) / 64 % 64) 0 / 256)] = [a, b] := by
  have ha := a.isLt
  have hb := b.isLt
  have h1 : byteOf (quantumValue ((a.val * 65536 + b.val * 256) / 262144 % 64)
        ((a.val * 65536 + b.val * 256) / 4096 % 64)
        ((a.val * 65536 + b.val * 256) / 64 % 64) 0 / 65536) = a := by
    apply Fin.ext
    simp only [byteOf, Fin.ofNat, quantumValue]
    omega
  have h2 : byteOf (quantumValue ((a.val * 65536 + b.val * 256) / 262144 % 64)
        ((a.val * 65536 + b.val * 256) / 4096 % 64)
        ((a.val * 65536 + b.val * 256) / 64 % 64) 0 / 256) = b := by
    apply Fin.ext
    simp only [byteOf, Fin.ofNat, quantumValue]
    omega
  rw [h1, h2]

theorem decode_one (a : Byte) :
    [byteOf (quantumValue (a.val * 65536 / 262144 % 64) (a.val * 65536 / 4096 % 64) 0 0 /
      65536)] = [a] := by
  have ha := a.isLt
  have h1 : byteOf (quantumValue (a.val * 65536 / 262144 % 64) (a.val * 65536 / 4096 % 64) 0 0 /
      65536) = a := by
    apply Fin.ext
    simp only [byteOf, Fin.ofNat, quantumValue]
    omega
  rw [h1]

/-- Decoding what `EncodeToString` produced gives the bytes back, after the
bytes already decoded. -/
theorem decodeQuanta_EncodeToString (bs : Bytes) :
    ∀ dst : Bytes, decodeQuanta (EncodeToString bs) [] dst = some (dst ++ bs) := by
  induction bs using EncodeToString.induct with
  | case1 =>
    intro dst
    simp [EncodeToString, decodeQuanta]
  | case2 a =>
    intro dst
    have h0 : a.val * 65536 / 262144 % 64 < 64 := Nat.mod_lt _ (by norm_num)
    have h1 : a.val * 65536 / 4096 % 64 < 64 := Nat.mod_lt _ (by norm_num)
    rw [EncodeToString, decodeQuanta_pad2 _ _ h0 h1, decode_one a]
  | case3 a b =>
    intro dst
    have h0 : (a.val * 65536 + b.val * 256) / 262144 % 64 < 64 := Nat.mod_lt _ (by norm_num)
    have h1 : (a.val * 65536 + b.val * 256) / 4096 % 64 < 64 := Nat.mod_lt _ (by norm_num)
    have h2 : (a.val * 65536 + b.val * 256) / 64 % 64 < 64 := Nat.mod_lt _ (by norm_num)
    rw [EncodeToString, decodeQuanta_pad1 _ _ _ h0 h1 h2, decode_two a b]
  | case4 a b c rest ih =>
    intro dst
    have h0 : (a.val * 65536 + b.val * 256 + c.val) / 262144 % 64 < 64 :=
      Nat.mod_lt _ (by norm_num)
    have h1 : (a.val * 65536 + b.val * 256 + c.val) / 4096 % 64 < 64 :=
      Nat.mod_lt _ (by norm_num)
    have h2 : (a.val * 65536 + b.val * 256 + c.val) / 64 % 64 < 64 :=
      Nat.mod_lt _ (by norm_num)
    have h3 : (a.val * 65536 + b.val * 256 + c.val) % 64 < 64 := Nat.mod_lt _ (by norm_num)
    rw [EncodeToString, decodeQuanta_full _ _ _ _ h0 h1 h2 h3, decode_three a b c, ih]
    simp

/-- Round trip of `base64.URLEncoding`. -/
theorem DecodeString_EncodeToString (bs : Bytes) :
    DecodeString (EncodeToString bs) = some bs := by
  simpa [DecodeString] using decodeQuanta_EncodeToString bs []

/-- No dot in the output of `EncodeToString`. -/
theorem dot_not_mem_EncodeToString (bs : Bytes) : byteOf 46 ∉ EncodeToString bs := by
  have hpad : byteOf 46 ≠ byteOf 61 := by decide
  induction bs using EncodeToString.induct with
  | case1 => simp [EncodeToString]
  | case2 a =>
    have h0 : a.val * 65536 / 262144 % 64 < 64 := Nat.mod_lt _ (by norm_num)
    have h1 : a.val * 65536 / 4096 % 64 < 64 := Nat.mod_lt _ (by norm_num)
    simp only [EncodeToString, List.mem_cons, List.mem_nil_iff, or_false, not_or]
    exact ⟨fun h => (urlEncodeChar_ne _ h0).1 h.symm, fun h => (urlEncodeChar_ne _ h1).1 h.symm,
      hpad, hpad⟩
  | case3 a b =>
    have h0 : (a.val * 65536 + b.val * 256) / 262144 % 64 < 64 := Nat.mod_lt _ (by norm_num)
    have h1 : (a.val * 65536 + b.val * 256) / 4096 % 64 < 64 := Nat.mod_lt _ (by norm_num)
    have h2 : (a.val * 65536 + b.val * 256) / 64 % 64 < 64 := Nat.mod_lt _ (by norm_num)
    simp only [EncodeToString, List.mem_cons, List.mem_nil_iff, or_false, not_or]
    exact ⟨fun h => (urlEncodeChar_ne _ h0).1 h.symm, fun h => (urlEncodeChar_ne _ h1).1 h.symm,
      fun h => (urlEncodeChar_ne _ h2).1 h.symm, hpad⟩
  | case4 a b c rest ih =>
    have h0 : (a.val * 65536 + b.val * 256 + c.val) / 262144 % 64 < 64 :=
      Nat.mod_lt _ (by norm_num)
    have h1 : (a.val * 65536 + b.val * 256 + c.val) / 4096 % 64 < 64 :=
      Nat.mod_lt _ (by norm_num)
    have h2 : (a.val * 65536 + b.val * 256 + c.val) / 64 % 64 < 64 :=
      Nat.mod_lt _ (by norm_num)
    have h3 : (a.val * 65536 + b.val * 256 + c.val) % 64 < 64 := Nat.mod_lt _ (by norm_num)
    simp only [EncodeToString, List.mem_cons, not_or]
    exact ⟨fun h => (urlEncodeChar_ne _ h0).1 h.symm, fun h => (urlEncodeChar_ne _ h1).1 h.symm,
      fun h => (urlEncodeChar_ne _ h2).1 h.symm, fun h => (urlEncodeChar_ne _ h3).1 h.symm, ih⟩

/-! ## Splitting, hexadecimal and decimal text -/

theorem Split_of_not_mem (sep : Byte) (a : Bytes) (h : sep ∉ a) : Split sep a = [a] := by
  induction a with
  | nil => rfl
  | cons c a ih =>
    have hc : c ≠ sep := fun e => h (by simp [e])
    have ha : sep ∉ a := fun e => h (List.mem_cons_of_mem _ e)
    simp [Split, hc, ih ha]

theorem Split_append_sep (sep : Byte) (a b : Bytes) (h : sep ∉ a) :
    Split sep (a ++ sep :: b) = a :: Split sep b := by
  induction a with
  | nil => simp [Split]
  | cons c a ih =>
    have hc : c ≠ sep := fun e => h (by simp [e])
    have ha : sep ∉ a := fun e => h (List.mem_cons_of_mem _ e)
    simp [Split, hc, ih ha]

/-- Two pieces come out when the separator stands once between them. -/
theorem Split_two (sep : Byte) (a b : Bytes) (ha : sep ∉ a) (hb : sep ∉ b) :
    Split sep (a ++ sep :: b) = [a, b] := by
  rw [Split_append_sep sep a b ha, Split_of_not_mem sep b hb]

theorem hexDigit_ne_colon (n : Nat) (h : n < 16) : hexDigit n ≠ byteOf 58 := by
  have key : ∀ m : Fin 16, hexDigit m.val ≠ byteOf 58 := by decide
  exact key ⟨n, h⟩

theorem colon_not_mem_hexEncodeToString (bs : Bytes) : byteOf 58 ∉ hexEncodeToString bs := by
  induction bs with
  | nil => simp [hexEncodeToString]
  | cons b rest ih =>
    have h1 : b.val / 16 < 16 := by have := b.isLt; omega
    have h2 : b.val % 16 < 16 := Nat.mod_lt _ (by norm_num)
    simp only [hexEncodeToString, List.mem_cons, not_or]
    exact ⟨fun e => hexDigit_ne_colon _ h1 e.symm, fun e => hexDigit_ne_colon _ h2 e.symm, ih⟩

theorem digit_val (d : Nat) (h : d < 10) : (byteOf (48 + d)).val = 48 + d := by
  simp only [byteOf, Fin.ofNat]
  omega

theorem decimalDigits_digits (fuel n : Nat) :
    ∀ c ∈ decimalDigits fuel n, 48 ≤ c.val ∧ c.val ≤ 57 := by
  induction fuel generalizing n with
  | zero => simp [decimalDigits]
  | succ fuel ih =>
    intro c hc
    simp only [decimalDigits] at hc
    split_ifs at hc with hn
    · rw [List.mem_singleton] at hc
      rw [hc, digit_val n hn]
      omega
    · rcases List.mem_append.mp hc with h | h
      · exact ih _ c h
      · rw [List.mem_singleton] at h
        rw [h, digit_val _ (Nat.mod_lt _ (by norm_num))]
        have := Nat.mod_lt n (show 0 < 10 by norm_num)
        omega

theorem decimalDigits_ne_nil (fuel n : Nat) : decimalDigits (fuel + 1) n ≠ [] := by
  simp only [decimalDigits]
  split_ifs <;> simp

theorem parseDigitsFrom_append_digit (l : Bytes) (d : Nat) (hd : d < 10) :
    ∀ acc, parseDigitsFrom (l ++ [byteOf (48 + d)]) acc =
      (parseDigitsFrom l acc).bind (fun m => some (m * 10 + d)) := by
  induction l with
  | nil =>
    intro acc
    have hv := digit_val d hd
    simp only [List.nil_append, parseDigitsFrom, hv, Option.some_bind]
    rw [if_pos (by omega)]
    congr 2
    omega
  | cons c rest ih =>
    intro acc
    simp only [List.cons_append, parseDigitsFrom]
    split_ifs
    · exact ih _
    · rfl

/-- Reading back the decimal digits of a number gives the number. -/
theorem parseDigitsFrom_decimalDigits (fuel n : Nat) (h : n < 10 ^ fuel) :
    parseDigitsFrom (decimalDigits fuel n) 0 = some n := by
  induction fuel generalizing n with
  | zero =>
    have : n = 0 := by simpa using h
    simp [decimalDigits, parseDigitsFrom, this]
  | succ fuel ih =>
    simp only [decimalDigits]
    split_ifs with hn
    · have hv := digit_val n hn
      simp only [parseDigitsFrom, hv]
      rw [if_pos (by omega)]
      congr 1
      omega
    · have hlt : n / 10 < 10 ^ fuel := by
        rw [Nat.div_lt_iff_lt_mul (by norm_num)]
        rw [pow_succ] at h
        exact h
      rw [parseDigitsFrom_append_digit _ _ (Nat.mod_lt _ (by norm_num)), ih _ hlt]
      simp only [Option.some_bind]
      congr 1
      omega

theorem parseDigits_decimalDigits (n : Nat) :
    parseDigits (decimalDigits (n + 1) n) = some n := by
  have h1 : n < 10 ^ n := Nat.lt_pow_self (by norm_num) n
  have h2 : 10 ^ n ≤ 10 ^ (n + 1) := Nat.pow_le_pow_right (by norm_num) (Nat.le_succ n)
  have hlt : n < 10 ^ (n + 1) := lt_of_lt_of_le h1 h2
  simp only [parseDigits, decimalDigits_ne_nil, if_false]
  exact parseDigitsFrom_decimalDigits _ _ hlt

/-- Round trip of the `%d` verb and `strconv.ParseInt` on the range of
`int64`. -/
theorem ParseInt_formatInt (t : Int) (hlo : -(2 ^ 63) ≤ t) (hhi : t < 2 ^ 63) :
    ParseInt (formatInt t) = some t := by
  by_cases hneg : t < 0
  · have hm : byteOf 45 ≠ byteOf 43 := by decide
    have hn : t.natAbs ≤ 2 ^ 63 := by omega
    simp only [formatInt, hneg, if_true, ParseInt, hm, if_false, parseDigits_decimalDigits, hn]
    congr 1
    omega
  · have hne := decimalDigits_ne_nil t.natAbs t.natAbs
    have hd := decimalDigits_digits (t.natAbs + 1) t.natAbs
    have hp := parseDigits_decimalDigits t.natAbs
    simp only [formatInt, hneg, if_false]
    cases hl : decimalDigits (t.natAbs + 1) t.natAbs with
    | nil => exact absurd hl hne
    | cons c rest =>
      have hc := hd c (by rw [hl]; exact List.mem_cons_self _ _)
      have h43 : c ≠ byteOf 43 := by
        intro e
        rw [e] at hc
        exact absurd hc (by decide)
      have h45 : c ≠ byteOf 45 := by
        intro e
        rw [e] at hc
        exact absurd hc (by decide)
      rw [hl] at hp
      have hn : t.natAbs < 2 ^ 63 := by omega
      simp only [ParseInt, h43, h45, if_false, hp, hn, if_true]
      congr 1
      omega

theorem colon_not_mem_formatInt (t : Int) : byteOf 58 ∉ formatInt t := by
  have hd := decimalDigits_digits (t.natAbs + 1) t.natAbs
  have h58 : ¬ (48 ≤ (byteOf 58).val ∧ (byteOf 58).val ≤ 57) := by decide
  have hm : byteOf 58 ≠ byteOf 45 := by decide
  simp only [formatInt]
  split_ifs
  · simp only [List.mem_cons, not_or]
    exact ⟨hm, fun h => h58 (hd _ h)⟩
  · exact fun h => h58 (hd _ h)

/-! ## CSRF token validation -/

theorem wrapInt64_of_range (x : Int) (hlo : -(2 ^ 63) ≤ x) (hhi : x < 2 ^ 63) :
    wrapInt64 x = x := by
  simp only [wrapInt64]
  omega

/-- A token that carries the data `pre:ts` and its signature under the secret
is accepted exactly when the 64-bit age `now - ts` is at most 24 hours. -/
theorem validateCSRFToken_signed (hmacSHA256 : Bytes → Bytes → Bytes) (envSecret : Bytes)
    (nowUnix : Int) (pre tsb : Bytes) (ts : Int) (hpre : byteOf 58 ∉ pre)
    (htsb : byteOf 58 ∉ tsb) (hts : ParseInt tsb = some ts) :
    validateCSRFToken hmacSHA256 envSecret nowUnix
        (EncodeToString (pre ++ byteOf 58 :: tsb) ++ byteOf 46 ::
          EncodeToString (hmacSHA256 (getCSRFSecret envSecret) (pre ++ byteOf 58 :: tsb))) =
      decide (wrapInt64 (nowUnix - ts) ≤ 24 * 60 * 60) := by
  have hsplit := Split_two (byteOf 46) (EncodeToString (pre ++ byteOf 58 :: tsb))
    (EncodeToString (hmacSHA256 (getCSRFSecret envSecret) (pre ++ byteOf 58 :: tsb)))
    (dot_not_mem_EncodeToString _) (dot_not_mem_EncodeToString _)
  have hdata := Split_two (byteOf 58) pre tsb hpre htsb
  have hne : EncodeToString (pre ++ byteOf 58 :: tsb) ++ byteOf 46 ::
      EncodeToString (hmacSHA256 (getCSRFSecret envSecret) (pre ++ byteOf 58 :: tsb)) ≠ [] := by
    simp
  simp only [validateCSRFToken, hne, if_false, hsplit, DecodeString_EncodeToString, ne_eq,
    not_true_eq_false, hdata, hts]

/-- C16: for any random bytes (32 in the source), any value of `CSRF_SECRET`
and any generation time `t` that an `int64` holds, the token
`generateCSRFToken` builds on its random path is accepted by
`validateCSRFToken` under the same secret at every time `t1` with
`t1 - t <= 24 hours`, as long as the difference does not leave the range of
`int64` downwards; the token contains exactly one dot and is not empty. -/
theorem generateCSRFToken_validates (hmacSHA256 : Bytes → Bytes → Bytes)
    (envSecret randomBytes : Bytes) (nowUnixNano t t1 : Int)
    (hlo : -(2 ^ 63) ≤ t) (hhi : t < 2 ^ 63)
    (hage : t1 - t ≤ 24 * 60 * 60) (hback : -(2 ^ 63) ≤ t1 - t) :
    validateCSRFToken hmacSHA256 envSecret t1
        (generateCSRFToken hmacSHA256 envSecret (some randomBytes) nowUnixNano t) = true ∧
    (generateCSRFToken hmacSHA256 envSecret (some randomBytes) nowUnixNano t).count
        (byteOf 46) = 1 ∧
    generateCSRFToken hmacSHA256 envSecret (some randomBytes) nowUnixNano t ≠ [] := by
  have hcolon : ascii ":" = [byteOf 58] := by decide
  have hdot : ascii "." = [byteOf 46] := by decide
  have hgen : generateCSRFToken hmacSHA256 envSecret (some randomBytes) nowUnixNano t =
      EncodeToString (hexEncodeToString randomBytes ++ byteOf 58 :: formatInt t) ++ byteOf 46 ::
        EncodeToString (hmacSHA256 (getCSRFSecret envSecret)
          (hexEncodeToString randomBytes ++ byteOf 58 :: formatInt t)) := by
    simp [generateCSRFToken, hcolon, hdot]
  rw [hgen]
  refine ⟨?_, ?_, by simp⟩
  · rw [validateCSRFToken_signed hmacSHA256 envSecret t1 (hexEncodeToString randomBytes)
      (formatInt t) t (colon_not_mem_hexEncodeToString _) (colon_not_mem_formatInt _)
      (ParseInt_formatInt t hlo hhi)]
    rw [wrapInt64_of_range (t1 - t) hback (by omega)]
    exact decide_eq_true hage
  · rw [List.count_append, List.count_cons_self,
      List.count_eq_zero_of_not_mem (dot_not_mem_EncodeToString _),
      List.count_eq_zero_of_not_mem (dot_not_mem_EncodeToString _)]

theorem generateCSRFToken_validates_witness :
    (-(2 ^ 63) : Int) ≤ 1700000000 ∧ (1700000000 : Int) < 2 ^ 63 ∧
    (1700086400 - 1700000000 : Int) ≤ 24 * 60 * 60 ∧
    (-(2 ^ 63) : Int) ≤ 1700086400 - 1700000000 ∧
    validateCSRFToken sampleMac [] 1700086400
        (generateCSRFToken sampleMac [] (some [byteOf 1, byteOf 255, byteOf 16]) 0 1700000000) =
      true ∧
    (generateCSRFToken sampleMac [] (some [byteOf 1, byteOf 255, byteOf 16]) 0
        1700000000).count (byteOf 46) = 1 ∧
    generateCSRFToken sampleMac [] (some [byteOf 1, byteOf 255, byteOf 16]) 0 1700000000 ≠ [] :=
  ⟨by decide, by decide, by decide, by decide,
    generateCSRFToken_validates sampleMac [] [byteOf 1, byteOf 255, byteOf 16] 0 1700000000
      1700086400 (by decide) (by decide) (by decide) (by decide)⟩

/-- C17, failing input: the token that carries the data
`x:-9223372036854775808` (the least `int64` as its timestamp) and its
signature is accepted by `validateCSRFToken` at the time 1700000000, under
every secret: the timestamp parses, the token is
9223372038554775808 seconds old, far more than 24 hours, and the 64-bit
subtraction wraps to a negative age. -/
theorem validateCSRFToken_accepts_wrapped_age (hmacSHA256 : Bytes → Bytes → Bytes)
    (envSecret : Bytes) :
    ParseInt (ascii "-9223372036854775808") = some (-9223372036854775808) ∧
    (24 * 60 * 60 : Int) < 1700000000 - (-9223372036854775808) ∧
    wrapInt64 (1700000000 - (-9223372036854775808)) = -9223372035154775808 ∧
    validateCSRFToken hmacSHA256 envSecret 1700000000
        (EncodeToString (ascii "x:-9223372036854775808") ++ ascii "." ++
          EncodeToString (hmacSHA256 (getCSRFSecret envSecret)
            (ascii "x:-9223372036854775808"))) = true := by
  have hp : ParseInt (ascii "-9223372036854775808") = some (-9223372036854775808) := by decide
  have hdata : ascii "x:-9223372036854775808" =
      ascii "x" ++ byteOf 58 :: ascii "-9223372036854775808" := by decide
  have hdot : ascii "." = [byteOf 46] := by decide
  have h1 : byteOf 58 ∉ ascii "x" := by decide
  have h2 : byteOf 58 ∉ ascii "-9223372036854775808" := by decide
  refine ⟨hp, by decide, by decide, ?_⟩
  rw [hdata, hdot, List.append_assoc, List.singleton_append,
    validateCSRFToken_signed hmacSHA256 envSecret 1700000000 (ascii "x")
      (ascii "-9223372036854775808") (-9223372036854775808) h1 h2 hp]
  decide

/-- What an accepted token looks like: two dot-separated parts that decode,
the second to the signature of the first, whose data is `x:ts` with `ts` a
decimal `int64` and a 64-bit age `now - ts` of at most 24 hours. -/
theorem validateCSRFToken_true (hmacSHA256 : Bytes → Bytes → Bytes) (envSecret : Bytes)
    (nowUnix : Int) (token : Bytes)
    (h : validateCSRFToken hmacSHA256 envSecret nowUnix token = true) :
    token ≠ [] ∧
    ∃ part0 part1 tokenData x tsb ts,
      Split (byteOf 46) token = [part0, part1] ∧
      DecodeString part0 = some tokenData ∧
      DecodeString part1 = some (hmacSHA256 (getCSRFSecret envSecret) tokenData) ∧
      Split (byteOf 58) tokenData = [x, tsb] ∧
      ParseInt tsb = some ts ∧
      wrapInt64 (nowUnix - ts) ≤ 24 * 60 * 60 := by
  unfold validateCSRFToken at h
  split_ifs at h with h0
  refine ⟨h0, ?_⟩
  split at h
  · rename_i part0 part1 hs
    split at h
    · exact absurd h (by decide)
    · rename_i tokenData hd0
      split at h
      · exact absurd h (by decide)
      · rename_i expectedSignature hd1
        split_ifs at h with hsig
        split at h
        · rename_i x tsb hs2
          split at h
          · exact absurd h (by decide)
          · rename_i ts hp
            refine ⟨part0, part1, tokenData, x, tsb, ts, hs, hd0, ?_, hs2, hp, ?_⟩
            · rw [hd1, not_not.mp hsig]
            · exact of_decide_eq_true h
        · exact absurd h (by decide)
  · exact absurd h (by decide)

/-! ## The middleware `CSRFCheck` -/

theorem pickToken_eq_nil_iff (c : Request) :
    pickToken c = [] ↔ c.HeaderToken = [] ∧ c.FormToken = [] ∧ c.QueryToken = [] := by
  simp only [pickToken]
  split_ifs <;> simp_all

/-- The branch of `CSRFCheck` behind the two skips. -/
theorem CSRFCheck_unskipped (hmacSHA256 : Bytes → Bytes → Bytes) (envSecret : Bytes)
    (nowUnix : Int) (c : Request)
    (hm : ¬ (c.Method = ascii "GET" ∨ c.Method = ascii "HEAD" ∨ c.Method = ascii "OPTIONS"))
    (hp : skipPaths.any (fun skipPath => HasPrefix c.Path skipPath) = false) :
    CSRFCheck hmacSHA256 envSecret nowUnix c =
      if pickToken c = [] then
        Outcome.abort 403 "csrf_token_missing" "CSRF token is required for this operation"
      else if ¬ validateCSRFToken hmacSHA256 envSecret nowUnix (pickToken c) = true then
        Outcome.abort 403 "csrf_token_invalid" "CSRF token is invalid or expired"
      else Outcome.next := by
  simp only [CSRFCheck, hm, if_false, hp, Bool.false_eq_true]

/-- C18: for a request whose method is not GET, HEAD or OPTIONS and whose path
starts with none of the skip prefixes, `CSRFCheck` lets the request proceed
exactly when a token is supplied and `validateCSRFToken` accepts it; with no
token (header, form field and query parameter all empty) it aborts with 403
and the error `csrf_token_missing`, and with a token that fails validation it
aborts with 403 and the error `csrf_token_invalid`. -/
theorem CSRFCheck_protected (hmacSHA256 : Bytes → Bytes → Bytes) (envSecret : Bytes)
    (nowUnix : Int) (c : Request)
    (hm : c.Method ≠ ascii "GET" ∧ c.Method ≠ ascii "HEAD" ∧ c.Method ≠ ascii "OPTIONS")
    (hp : ∀ skipPath ∈ skipPaths, HasPrefix c.Path skipPath = false) :
    (CSRFCheck hmacSHA256 envSecret nowUnix c = Outcome.next ↔
      pickToken c ≠ [] ∧ validateCSRFToken hmacSHA256 envSecret nowUnix (pickToken c) = true) ∧
    (c.HeaderToken = [] → c.FormToken = [] → c.QueryToken = [] →
      CSRFCheck hmacSHA256 envSecret nowUnix c =
        Outcome.abort 403 "csrf_token_missing" "CSRF token is required for this operation") ∧
    (pickToken c ≠ [] →
      validateCSRFToken hmacSHA256 envSecret nowUnix (pickToken c) = false →
      CSRFCheck hmacSHA256 envSecret nowUnix c =
        Outcome.abort 403 "csrf_token_invalid" "CSRF token is invalid or expired") := by
  have hm1 : ¬ (c.Method = ascii "GET" ∨ c.Method = ascii "HEAD" ∨
      c.Method = ascii "OPTIONS") := by
    rintro (h | h | h)
    · exact hm.1 h
    · exact hm.2.1 h
    · exact hm.2.2 h
  have hp1 : skipPaths.any (fun skipPath => HasPrefix c.Path skipPath) = false := by
    rw [List.any_eq_false]
    intro p hmem
    rw [hp p hmem]
    decide
  rw [CSRFCheck_unskipped hmacSHA256 envSecret nowUnix c hm1 hp1]
  refine ⟨?_, ?_, ?_⟩
  · by_cases h1 : pickToken c = []
    · simp [h1]
    · by_cases h2 : validateCSRFToken hmacSHA256 envSecret nowUnix (pickToken c) = true
      · simp [h1, h2]
      · simp [h1, h2]
  · intro h1 h2 h3
    rw [if_pos ((pickToken_eq_nil_iff c).mpr ⟨h1, h2, h3⟩)]
  · intro h1 h2
    rw [if_neg h1, if_pos (by rw [h2]; decide)]

theorem CSRFCheck_protected_witness :
    (sampleProtectedRequest.Method ≠ ascii "GET" ∧ sampleProtectedRequest.Method ≠ ascii "HEAD" ∧
      sampleProtectedRequest.Method ≠ ascii "OPTIONS") ∧
    (∀ skipPath ∈ skipPaths, HasPrefix sampleProtectedRequest.Path skipPath = false) ∧
    CSRFCheck sampleMac [] 1700000000 sampleProtectedRequest =
      Outcome.abort 403 "csrf_token_missing" "CSRF token is required for this operation" ∧
    CSRFCheck sampleMac [] 1700000000
        { sampleProtectedRequest with HeaderToken := ascii "invalid-token" } =
      Outcome.abort 403 "csrf_token_invalid" "CSRF token is invalid or expired" :=
  ⟨by decide, by decide,
    (CSRFCheck_protected sampleMac [] 1700000000 sampleProtectedRequest (by decide)
      (by decide)).2.1 rfl rfl rfl,
    (CSRFCheck_protected sampleMac [] 1700000000
      { sampleProtectedRequest with HeaderToken := ascii "invalid-token" } (by decide)
      (by decide)).2.2 (by decide) (by decide)⟩

/-- C19, failing input: a POST to `/api/auth/login` or to `/api/auth/register`
that carries no token does not pass `CSRFCheck`: neither path starts with a
skip prefix (the list names `/api/v1/auth/login` and
`/api/v1/auth/register`), and the request is answered 403 with the error
`csrf_token_missing`, whatever the secret and the clock. -/
theorem CSRFCheck_rejects_login_without_token (hmacSHA256 : Bytes → Bytes → Bytes)
    (envSecret : Bytes) (nowUnix : Int) :
    skipPaths.any (fun skipPath => HasPrefix (ascii "/api/auth/login") skipPath) = false ∧
    skipPaths.any (fun skipPath => HasPrefix (ascii "/api/auth/register") skipPath) = false ∧
    CSRFCheck hmacSHA256 envSecret nowUnix sampleLoginRequest =
      Outcome.abort 403 "csrf_token_missing" "CSRF token is required for this operation" ∧
    CSRFCheck hmacSHA256 envSecret nowUnix sampleRegisterRequest =
      Outcome.abort 403 "csrf_token_missing" "CSRF token is required for this operation" := by
  have hm1 : ¬ (sampleLoginRequest.Method = ascii "GET" ∨
      sampleLoginRequest.Method = ascii "HEAD" ∨
      sampleLoginRequest.Method = ascii "OPTIONS") := by decide
  have hm2 : ¬ (sampleRegisterRequest.Method = ascii "GET" ∨
      sampleRegisterRequest.Method = ascii "HEAD" ∨
      sampleRegisterRequest.Method = ascii "OPTIONS") := by decide
  have hp1 : skipPaths.any (fun skipPath => HasPrefix sampleLoginRequest.Path skipPath) =
      false := by decide
  have hp2 : skipPaths.any (fun skipPath => HasPrefix sampleRegisterRequest.Path skipPath) =
      false := by decide
  have ht1 : pickToken sampleLoginRequest = [] := by decide
  have ht2 : pickToken sampleRegisterRequest = [] := by decide
  refine ⟨by decide, by decide, ?_, ?_⟩
  · rw [CSRFCheck_unskipped hmacSHA256 envSecret nowUnix sampleLoginRequest hm1 hp1, if_pos ht1]
  · rw [CSRFCheck_unskipped hmacSHA256 envSecret nowUnix sampleRegisterRequest hm2 hp2,
      if_pos ht2]

/-- C20: `CSRFCheck` takes the token from the header `X-CSRF-Token`, else from
the form field `csrf_token`, else from the query parameter `csrf_token`: the
first non-empty one wins, and it is the token `GetCSRFToken` returns; so a
token that `validateCSRFToken` accepts, supplied through any one of the three
sources alone, is let through. -/
theorem CSRFCheck_token_sources (hmacSHA256 : Bytes → Bytes → Bytes) (envSecret : Bytes)
    (nowUnix : Int) (c : Request) :
    pickToken c = GetCSRFToken c ∧
    (c.HeaderToken ≠ [] → pickToken c = c.HeaderToken) ∧
    (c.HeaderToken = [] → c.FormToken ≠ [] → pickToken c = c.FormToken) ∧
    (c.HeaderToken = [] → c.FormToken = [] → pickToken c = c.QueryToken) ∧
    (∀ token, validateCSRFToken hmacSHA256 envSecret nowUnix token = true →
      ((c.HeaderToken = token ∧ c.FormToken = [] ∧ c.QueryToken = []) ∨
       (c.HeaderToken = [] ∧ c.FormToken = token ∧ c.QueryToken = []) ∨
       (c.HeaderToken = [] ∧ c.FormToken = [] ∧ c.QueryToken = token)) →
      CSRFCheck hmacSHA256 envSecret nowUnix c = Outcome.next) := by
  refine ⟨?_, ?_, ?_, ?_, ?_⟩
  · simp only [pickToken, GetCSRFToken]
    split_ifs <;> simp_all
  · intro h
    simp [pickToken, h]
  · intro h1 h2
    simp [pickToken, h1, h2]
  · intro h1 h2
    simp [pickToken, h1, h2]
  · intro token hv hsrc
    have hne : token ≠ [] := by
      intro e
      rw [e] at hv
      simp [validateCSRFToken] at hv
    have hpick : pickToken c = token := by
      rcases hsrc with ⟨h1, h2, h3⟩ | ⟨h1, h2, h3⟩ | ⟨h1, h2, h3⟩
      · simp [pickToken, h1, hne]
      · simp [pickToken, h1, h2, hne]
      · simp [pickToken, h1, h2, h3]
    simp only [CSRFCheck, hpick, hne, hv, if_false, not_true_eq_false]
    split_ifs <;> rfl

theorem CSRFCheck_token_sources_witness :
    validateCSRFToken sampleMac [] 1700000060 sampleToken = true ∧
    CSRFCheck sampleMac [] 1700000060 { sampleProtectedRequest with HeaderToken := sampleToken } =
      Outcome.next ∧
    CSRFCheck sampleMac [] 1700000060 { sampleProtectedRequest with FormToken := sampleToken } =
      Outcome.next ∧
    CSRFCheck sampleMac [] 1700000060 { sampleProtectedRequest with QueryToken := sampleToken } =
      Outcome.next :=
  ⟨by decide,
    (CSRFCheck_token_sources sampleMac [] 1700000060
      { sampleProtectedRequest with HeaderToken := sampleToken }).2.2.2.2 sampleToken
      (by decide) (Or.inl ⟨rfl, rfl, rfl⟩),
    (CSRFCheck_token_sources sampleMac [] 1700000060
      { sampleProtectedRequest with FormToken := sampleToken }).2.2.2.2 sampleToken
      (by decide) (Or.inr (Or.inl ⟨rfl, rfl, rfl⟩)),
    (CSRFCheck_token_sources sampleMac [] 1700000060
      { sampleProtectedRequest with QueryToken := sampleToken }).2.2.2.2 sampleToken
      (by decide) (Or.inr (Or.inr ⟨rfl, rfl, rfl⟩))⟩

/-! ## Phone numbers -/

theorem cleanPhone_eq_filter (s : Bytes) :
    cleanPhone s = s.filter (fun c =>
      decide (c ≠ byteOf 32) && (decide (c ≠ byteOf 45) && (decide (c ≠ byteOf 40) &&
        (decide (c ≠ byteOf 41) && decide (c ≠ byteOf 43))))) := by
  simp only [cleanPhone, removeByte, List.filter_filter]
  congr 1
  funext c
  cases decide (c ≠ byteOf 32) <;> cases decide (c ≠ byteOf 45) <;>
    cases decide (c ≠ byteOf 40) <;> cases decide (c ≠ byteOf 41) <;>
    cases decide (c ≠ byteOf 43) <;> rfl

theorem cleanPhone_append (a b : Bytes) : cleanPhone (a ++ b) = cleanPhone a ++ cleanPhone b := by
  simp only [cleanPhone_eq_filter, List.filter_append]

/-- Cleaning changes nothing in a string without separators. -/
theorem cleanPhone_eq_self (s : Bytes)
    (h : ∀ c ∈ s, (decide (c ≠ byteOf 32) && (decide (c ≠ byteOf 45) &&
      (decide (c ≠ byteOf 40) && (decide (c ≠ byteOf 41) && decide (c ≠ byteOf 43))))) = true) :
    cleanPhone s = s := by
  rw [cleanPhone_eq_filter]
  exact List.filter_eq_self.mpr h

theorem mem_cleanPhone (s : Bytes) (c : Byte) (h : c ∈ cleanPhone s) :
    (decide (c ≠ byteOf 32) && (decide (c ≠ byteOf 45) &&
      (decide (c ≠ byteOf 40) && (decide (c ≠ byteOf 41) && decide (c ≠ byteOf 43))))) = true := by
  rw [cleanPhone_eq_filter] at h
  exact (List.mem_filter.mp h).2

theorem cleanPhone_idem (s : Bytes) : cleanPhone (cleanPhone s) = cleanPhone s :=
  cleanPhone_eq_self _ (fun c hc => mem_cleanPhone s c hc)

theorem isDigitByte_not_separator (c : Byte) (h : isDigitByte c = true) :
    (decide (c ≠ byteOf 32) && (decide (c ≠ byteOf 45) &&
      (decide (c ≠ byteOf 40) && (decide (c ≠ byteOf 41) && decide (c ≠ byteOf 43))))) = true := by
  have hv : 48 ≤ c.val ∧ c.val ≤ 57 := by simpa [isDigitByte] using h
  have n32 : c ≠ byteOf 32 := fun e => by rw [e] at hv; exact absurd hv (by decide)
  have n45 : c ≠ byteOf 45 := fun e => by rw [e] at hv; exact absurd hv (by decide)
  have n40 : c ≠ byteOf 40 := fun e => by rw [e] at hv; exact absurd hv (by decide)
  have n41 : c ≠ byteOf 41 := fun e => by rw [e] at hv; exact absurd hv (by decide)
  have n43 : c ≠ byteOf 43 := fun e => by rw [e] at hv; exact absurd hv (by decide)
  simp [n32, n45, n40, n41, n43]

theorem cleanPhone_digits (d : Bytes) (hd : d.all isDigitByte = true) : cleanPhone d = d :=
  cleanPhone_eq_self d (fun c hc => isDigitByte_not_separator c (List.all_eq_true.mp hd c hc))

/-- A string that starts with `62` and has no separators is its own normal
form. -/
theorem NormalizePhone_62 (x : Bytes) (hx : cleanPhone x = x) :
    NormalizePhone (ascii "62" ++ x) = ascii "62" ++ x := by
  have h62 : cleanPhone (ascii "62") = ascii "62" := by decide
  have hc : cleanPhone (ascii "62" ++ x) = ascii "62" ++ x := by
    rw [cleanPhone_append, h62, hx]
  have h1 : HasPrefix (ascii "62" ++ x) (ascii "08") = false := by
    have e1 : ascii "62" = [byteOf 54, byteOf 50] := by decide
    have e2 : ascii "08" = [byteOf 48, byteOf 56] := by decide
    have e3 : (byteOf 48 == byteOf 54) = false := by decide
    simp [HasPrefix, e1, e2, List.isPrefixOf, e3]
  have h2 : HasPrefix (ascii "62" ++ x) (ascii "8") = false := by
    have e1 : ascii "62" = [byteOf 54, byteOf 50] := by decide
    have e2 : ascii "8" = [byteOf 56] := by decide
    have e3 : (byteOf 56 == byteOf 54) = false := by decide
    simp [HasPrefix, e1, e2, List.isPrefixOf, e3]
  simp [NormalizePhone, hc, h1, h2]

theorem NormalizePhone_idem (p : Bytes) : NormalizePhone (NormalizePhone p) = NormalizePhone p := by
  by_cases h1 : HasPrefix (cleanPhone p) (ascii "08") = true
  · have hn : NormalizePhone p = ascii "62" ++ (cleanPhone p).drop 1 := by
      simp [NormalizePhone, h1]
    rw [hn]
    exact NormalizePhone_62 _ (cleanPhone_eq_self _
      (fun c hc => mem_cleanPhone p c (List.mem_of_mem_drop hc)))
  · by_cases h2 : HasPrefix (cleanPhone p) (ascii "8") = true
    · have hn : NormalizePhone p = ascii "62" ++ cleanPhone p := by
        simp [NormalizePhone, h1, h2]
      rw [hn]
      exact NormalizePhone_62 _ (cleanPhone_idem p)
    · have hn : NormalizePhone p = cleanPhone p := by
        simp [NormalizePhone, h1, h2]
      rw [hn]
      simp [NormalizePhone, cleanPhone_idem, h1, h2]

/-- C30: for every string `d` of decimal digits, `NormalizePhone` maps
`08d`, `8d`, `628d` and `+628d` to the same value `628d`; and
`NormalizePhone` is idempotent on every string. -/
theorem NormalizePhone_formats (d : Bytes) (hd : d.all isDigitByte = true) :
    NormalizePhone (ascii "08" ++ d) = ascii "628" ++ d ∧
    NormalizePhone (ascii "8" ++ d) = ascii "628" ++ d ∧
    NormalizePhone (ascii "628" ++ d) = ascii "628" ++ d ∧
    NormalizePhone (ascii "+628" ++ d) = ascii "628" ++ d ∧
    (∀ p : Bytes, NormalizePhone (NormalizePhone p) = NormalizePhone p) := by
  have hcd := cleanPhone_digits d hd
  have e08 : ascii "08" = [byteOf 48, byteOf 56] := by decide
  have e8 : ascii "8" = [byteOf 56] := by decide
  have e62 : ascii "62" = [byteOf 54, byteOf 50] := by decide
  have e628 : ascii "628" = [byteOf 54, byteOf 50, byteOf 56] := by decide
  have ep628 : ascii "+628" = [byteOf 43, byteOf 54, byteOf 50, byteOf 56] := by decide
  have c08 : cleanPhone (ascii "08") = ascii "08" := by decide
  have c8 : cleanPhone (ascii "8") = ascii "8" := by decide
  have cp628 : cleanPhone (ascii "+628") = ascii "628" := by decide
  have n1 : (byteOf 56 == byteOf 48) = false := by decide
  have h628 : NormalizePhone (ascii "628" ++ d) = ascii "628" ++ d := by
    have hx : cleanPhone (byteOf 56 :: d) = byteOf 56 :: d := by
      have : cleanPhone (ascii "8" ++ d) = ascii "8" ++ d := by rw [cleanPhone_append, c8, hcd]
      simpa [e8] using this
    have := NormalizePhone_62 (byteOf 56 :: d) hx
    simpa [e62, e628] using this
  refine ⟨?_, ?_, h628, ?_, NormalizePhone_idem⟩
  · have hc : cleanPhone (ascii "08" ++ d) = ascii "08" ++ d := by
      rw [cleanPhone_append, c08, hcd]
    have hp : HasPrefix (ascii "08" ++ d) (ascii "08") = true := by
      simp [HasPrefix, e08]
    simp only [NormalizePhone, hc, hp, if_true]
    simp [e08, e62, e628]
  · have hc : cleanPhone (ascii "8" ++ d) = ascii "8" ++ d := by
      rw [cleanPhone_append, c8, hcd]
    have n2 : byteOf 48 ≠ byteOf 56 := by decide
    have hp1 : HasPrefix (ascii "8" ++ d) (ascii "08") = false := by
      simp [HasPrefix, e08, e8, List.isPrefixOf, n1, n2]
    have hp2 : HasPrefix (ascii "8" ++ d) (ascii "8") = true := by
      simp [HasPrefix, e8]
    simp only [NormalizePhone, hc, hp1, hp2, if_true, Bool.false_eq_true, if_false]
    simp [e8, e62, e628]
  · have hc : cleanPhone (ascii "+628" ++ d) = ascii "628" ++ d := by
      rw [cleanPhone_append, cp628, hcd]
    have hn : NormalizePhone (ascii "+628" ++ d) = NormalizePhone (ascii "628" ++ d) := by
      have hc2 : cleanPhone (ascii "628" ++ d) = ascii "628" ++ d := by
        rw [← hc, cleanPhone_idem]
      simp only [NormalizePhone, hc, hc2]
    rw [hn, h628]

theorem NormalizePhone_formats_witness :
    (ascii "1234567890").all isDigitByte = true ∧
    NormalizePhone (ascii "08" ++ ascii "1234567890") = ascii "628" ++ ascii "1234567890" ∧
    NormalizePhone (ascii "8" ++ ascii "1234567890") = ascii "628" ++ ascii "1234567890" ∧
    NormalizePhone (ascii "628" ++ ascii "1234567890") = ascii "628" ++ ascii "1234567890" ∧
    NormalizePhone (ascii "+628" ++ ascii "1234567890") = ascii "628" ++ ascii "1234567890" ∧
    (∀ p : Bytes, NormalizePhone (NormalizePhone p) = NormalizePhone p) :=
  ⟨by decide, NormalizePhone_formats (ascii "1234567890") (by decide)⟩

/-- C29, failing input: `IsValidPhone` accepts the 15-digit phone
`081234567890123`, whose normal form `6281234567890123` has 16
characters, and the 15-digit phone `812345678901234`, whose normal form has
17: more than the 15 of the column `User.Phone`. -/
theorem NormalizePhone_exceeds_column :
    IsValidPhone (ascii "081234567890123") = true ∧
    NormalizePhone (ascii "081234567890123") = ascii "6281234567890123" ∧
    (NormalizePhone (ascii "081234567890123")).length = 16 ∧
    IsValidPhone (ascii "812345678901234") = true ∧
    (NormalizePhone (ascii "812345678901234")).length = 17 := by
  decide

/-! ## User service -/

theorem HasPrefix_append_self (pre x : Bytes) : HasPrefix (pre ++ x) pre = true := by
  simp [HasPrefix]

/-- The normal form of a phone that `IsValidPhone` accepts begins with `62`. -/
theorem NormalizePhone_begins_62 (p : Bytes) (hv : IsValidPhone p = true) :
    HasPrefix (NormalizePhone p) (ascii "62") = true := by
  by_cases h1 : HasPrefix (cleanPhone p) (ascii "08") = true
  · simp only [NormalizePhone, h1, if_true]
    exact HasPrefix_append_self _ _
  · by_cases h2 : HasPrefix (cleanPhone p) (ascii "8") = true
    · simp only [NormalizePhone, h1, h2, if_true, if_false]
      exact HasPrefix_append_self _ _
    · simp only [NormalizePhone, h1, h2, if_false]
      simp only [IsValidPhone] at hv
      split_ifs at hv
      simpa [h1, h2] using hv

theorem FirstByPhone_error_of_absent (db : UserDB) (phone : Bytes)
    (habs : ∀ u ∈ db.users, u.Phone ≠ phone) : ∃ e, db.FirstByPhone phone = .error e := by
  unfold UserDB.FirstByPhone
  cases db.readFault with
  | some e => exact ⟨e, rfl⟩
  | none =>
    have hnone : db.users.find? (fun u => u.Phone == phone) = none := by
      rw [List.find?_eq_none]
      intro u hu
      simpa using habs u hu
    exact ⟨Error.ErrRecordNotFound, by simp [hnone]⟩

theorem FirstByPhone_ok_of_present (db : UserDB) (phone : Bytes) (hread : db.readFault = none)
    (hex : ∃ u ∈ db.users, u.Phone = phone) :
    ∃ u, db.FirstByPhone phone = .ok u := by
  unfold UserDB.FirstByPhone
  rw [hread]
  cases hf : db.users.find? (fun u => u.Phone == phone) with
  | some u => exact ⟨u, rfl⟩
  | none =>
    rw [List.find?_eq_none] at hf
    obtain ⟨u, hu, hp⟩ := hex
    exact absurd (by simpa using hp) (hf u hu)

theorem Create_error_of_present (db : UserDB) (user : User)
    (hex : ∃ u ∈ db.users, u.Phone = user.Phone) : ∃ e, db.Create user = .error e := by
  unfold UserDB.Create
  cases db.writeFault with
  | some e => exact ⟨e, rfl⟩
  | none =>
    have hany : db.users.any (fun u => u.Phone == user.Phone) = true := by
      rw [List.any_eq_true]
      obtain ⟨u, hu, hp⟩ := hex
      exact ⟨u, hu, by simpa using hp⟩
    refine ⟨Error.store "duplicate key value violates unique constraint", ?_⟩
    simp [hany]

theorem Create_ok_of_absent (db : UserDB) (user : User) (hw : db.writeFault = none)
    (habs : ∀ u ∈ db.users, u.Phone ≠ user.Phone) :
    db.Create user =
      .ok ({ db with
              users := db.users ++ [{ user with ID := db.nextUserID }]
              nextUserID := db.nextUserID + 1 },
           { user with ID := db.nextUserID }) := by
  have hany : db.users.any (fun u => u.Phone == user.Phone) = false := by
    rw [List.any_eq_false]
    intro u hu
    simpa using habs u hu
  simp [UserDB.Create, hw, hany]

theorem Create_ok_inv (db db1 : UserDB) (user user1 : User)
    (h : db.Create user = .ok (db1, user1)) :
    user1 = { user with ID := db.nextUserID } ∧ db1.users = db.users ++ [user1] ∧
      db1.readFault = db.readFault := by
  unfold UserDB.Create at h
  split at h
  · cases h
  · split_ifs at h
    cases h
    exact ⟨rfl, rfl, rfl⟩

/-- What a successful `Register` returned and stored. -/
theorem Register_resp (h : AuthHelpers) (db : UserDB) (req : RegisterRequest)
    (resp : LoginResponse) (hr : (Register h db req).resp = some resp) :
    resp.User.Phone = NormalizePhone req.Phone ∧ resp.User.Name = req.Name ∧
    resp.User.Status = "active" ∧
    (Register h db req).db.users = db.users ++ [resp.User] ∧
    (Register h db req).db.readFault = db.readFault ∧
    (Register h db req).err = none := by
  by_cases hv : IsValidPhone req.Phone = true
  · cases hf : db.FirstByPhone (NormalizePhone req.Phone) with
    | ok u => simp [Register, hv, hf] at hr
    | error e =>
      cases hh : h.HashPassword req.Password with
      | error e1 => simp [Register, hv, hf, hh] at hr
      | ok hashed =>
        cases hc : db.Create (newUser req (NormalizePhone req.Phone) hashed) with
        | error e2 => simp [Register, hv, hf, hh, hc] at hr
        | ok pair =>
          obtain ⟨db1, user⟩ := pair
          obtain ⟨hu, hdb, hrf⟩ := Create_ok_inv _ _ _ _ hc
          cases hj : h.GenerateJWT user.ID "user" "customer" with
          | error e3 => simp [Register, hv, hf, hh, hc, hj] at hr
          | ok tokens =>
            obtain ⟨accessToken, refreshToken⟩ := tokens
            simp only [Register, hv, hf, hh, hc, hj, not_true_eq_false, if_false,
              Option.some.injEq] at hr ⊢
            subst hr
            rw [hu] at hdb ⊢
            exact ⟨rfl, rfl, rfl, hdb, hrf, trivial⟩
  · simp [Register, hv] at hr

/-- A `Register` for a phone that is already stored fails and writes
nothing. -/
theorem Register_present (h : AuthHelpers) (db : UserDB) (req : RegisterRequest)
    (hex : ∃ u ∈ db.users, u.Phone = NormalizePhone req.Phone) :
    (Register h db req).resp = none ∧ (Register h db req).db = db ∧
    (Register h db req).err ≠ none ∧
    (IsValidPhone req.Phone = true → db.readFault = none →
      (Register h db req).err = some "user with this phone number already exists") := by
  by_cases hv : IsValidPhone req.Phone = true
  · cases hf : db.FirstByPhone (NormalizePhone req.Phone) with
    | ok u =>
      simp [Register, hv, hf]
    | error e =>
      have hnot : db.readFault ≠ none := by
        intro hread
        obtain ⟨u, hu⟩ := FirstByPhone_ok_of_present db _ hread hex
        rw [hf] at hu
        cases hu
      cases hh : h.HashPassword req.Password with
      | error e1 => simp [Register, hv, hf, hh, hnot]
      | ok hashed =>
        obtain ⟨e2, hc⟩ := Create_error_of_present db
          (newUser req (NormalizePhone req.Phone) hashed) hex
        simp [Register, hv, hf, hh, hc, hnot]
  · simp [Register, hv]

/-- C21: for a registration whose phone `IsValidPhone` accepts and whose
normalised phone is not yet stored, the normalised phone begins with `62`
(and is `62` followed by the cleaned phone without its leading `0` when that
one starts with `08`); when hashing, the insert and the token generation
succeed, `Register` returns and stores the new user without error; and the
user any successful `Register` returns is the one appended to the table, with
`Phone` the normalised phone of the request, `Name` the name of the request
and the status `active`. -/
theorem Register_stores_normalized (h : AuthHelpers) (db : UserDB) (req : RegisterRequest)
    (hvalid : IsValidPhone req.Phone = true)
    (hnew : ∀ u ∈ db.users, u.Phone ≠ NormalizePhone req.Phone) :
    HasPrefix (NormalizePhone req.Phone) (ascii "62") = true ∧
    (HasPrefix (cleanPhone req.Phone) (ascii "08") = true →
      NormalizePhone req.Phone = ascii "62" ++ (cleanPhone req.Phone).drop 1) ∧
    (∀ hashed accessToken refreshToken, h.HashPassword req.Password = .ok hashed →
      db.writeFault = none →
      h.GenerateJWT db.nextUserID "user" "customer" = .ok (accessToken, refreshToken) →
      (Register h db req).err = none ∧
      (Register h db req).resp = some
        { User := { newUser req (NormalizePhone req.Phone) hashed with ID := db.nextUserID }
          AccessToken := accessToken
          RefreshToken := refreshToken }) ∧
    (∀ resp, (Register h db req).resp = some resp →
      resp.User.Phone = NormalizePhone req.Phone ∧ resp.User.Name = req.Name ∧
      resp.User.Status = "active" ∧
      (Register h db req).db.users = db.users ++ [resp.User]) := by
  refine ⟨NormalizePhone_begins_62 _ hvalid, ?_, ?_, ?_⟩
  · intro h08
    simp [NormalizePhone, h08]
  · intro hashed accessToken refreshToken hh hw hj
    obtain ⟨e, hf⟩ := FirstByPhone_error_of_absent db _ hnew
    have hc := Create_ok_of_absent db (newUser req (NormalizePhone req.Phone) hashed) hw hnew
    simp [Register, hvalid, hf, hh, hc, hj]
  · intro resp hr
    obtain ⟨h1, h2, h3, h4, -, -⟩ := Register_resp h db req resp hr
    exact ⟨h1, h2, h3, h4⟩

theorem Register_stores_normalized_witness :
    IsValidPhone sampleRegistration.Phone = true ∧
    (∀ u ∈ sampleUserDB.users, u.Phone ≠ NormalizePhone sampleRegistration.Phone) ∧
    NormalizePhone sampleRegistration.Phone = ascii "6281234567890" ∧
    (Register sampleHelpers sampleUserDB sampleRegistration).err = none ∧
    (Register sampleHelpers sampleUserDB sampleRegistration).resp = some
      { User :=
          { newUser sampleRegistration (NormalizePhone sampleRegistration.Phone)
              (ascii "$2a$password123") with ID := sampleUserDB.nextUserID }
        AccessToken := ascii "access"
        RefreshToken := ascii "refresh" } :=
  ⟨by decide, by decide, by decide,
    (Register_stores_normalized sampleHelpers sampleUserDB sampleRegistration (by decide)
      (by decide)).2.2.1 (ascii "$2a$password123") (ascii "access") (ascii "refresh")
      rfl rfl rfl⟩

/-- C22: for a phone that `IsValidPhone` accepts and whose normalised form is
already stored, `Register` returns a nil response, reports an error and
leaves the user table as it was; when the lookup query works the error is
`user with this phone number already exists`.  So after a successful
registration a second one with a phone of the same normal form fails in this
way. -/
theorem Register_duplicate (h h2 : AuthHelpers) (db : UserDB) (req req2 : RegisterRequest)
    (hvalid : IsValidPhone req2.Phone = true) :
    ((∃ u ∈ db.users, u.Phone = NormalizePhone req2.Phone) →
      (Register h2 db req2).resp = none ∧ (Register h2 db req2).db = db ∧
      (Register h2 db req2).err ≠ none ∧
      (db.readFault = none →
        (Register h2 db req2).err = some "user with this phone number already exists")) ∧
    "already exists".data <:+: "user with this phone number already exists".data ∧
    ((Register h db req).resp ≠ none →
      NormalizePhone req2.Phone = NormalizePhone req.Phone → db.readFault = none →
      (Register h2 (Register h db req).db req2).resp = none ∧
      (Register h2 (Register h db req).db req2).db = (Register h db req).db ∧
      (Register h2 (Register h db req).db req2).err =
        some "user with this phone number already exists") := by
  refine ⟨?_, by decide, ?_⟩
  · intro hex
    obtain ⟨h1, h2', h3, h4⟩ := Register_present h2 db req2 hex
    exact ⟨h1, h2', h3, fun hread => h4 hvalid hread⟩
  · intro hr hsame hread
    cases hresp : (Register h db req).resp with
    | none => exact absurd hresp hr
    | some resp =>
      obtain ⟨hp, -, -, hdb, hrf, -⟩ := Register_resp h db req resp hresp
      have hex : ∃ u ∈ (Register h db req).db.users, u.Phone = NormalizePhone req2.Phone := by
        refine ⟨resp.User, ?_, ?_⟩
        · rw [hdb]
          simp
        · rw [hp, hsame]
      obtain ⟨h1, h2', -, h4⟩ := Register_present h2 (Register h db req).db req2 hex
      exact ⟨h1, h2', h4 hvalid (by rw [hrf, hread])⟩

theorem Register_duplicate_witness :
    IsValidPhone sampleRegistrationAgain.Phone = true ∧
    (Register sampleHelpers sampleUserDB sampleRegistration).resp ≠ none ∧
    (Register sampleHelpers (Register sampleHelpers sampleUserDB sampleRegistration).db
      sampleRegistrationAgain).resp = none ∧
    (Register sampleHelpers (Register sampleHelpers sampleUserDB sampleRegistration).db
      sampleRegistrationAgain).db = (Register sampleHelpers sampleUserDB sampleRegistration).db ∧
    (Register sampleHelpers (Register sampleHelpers sampleUserDB sampleRegistration).db
      sampleRegistrationAgain).err = some "user with this phone number already exists" :=
  ⟨by decide, by decide,
    (Register_duplicate sampleHelpers sampleHelpers sampleUserDB sampleRegistration
      sampleRegistrationAgain (by decide)).2.2 (by decide) (by decide) rfl⟩

/-- C23: for a stored, active user and a password that `CheckPassword`
rejects against the stored hash, `Login` with a phone that finds this user
returns a nil response (so no tokens) and the error
`invalid phone number or password`, and leaves the table as it was; a valid
phone that is not registered gets the same error. -/
theorem Login_wrong_password (h : AuthHelpers) (db : UserDB) (req : LoginRequest) (user : User)
    (hvalid : IsValidPhone req.Phone = true)
    (hfind : db.FirstByPhone (NormalizePhone req.Phone) = .ok user)
    (hactive : user.Status = "active")
    (hpw : h.CheckPassword req.Password user.PasswordHash = false) :
    (Login h db req).resp = none ∧
    (Login h db req).err = some "invalid phone number or password" ∧
    (Login h db req).db = db ∧
    (∀ (h2 : AuthHelpers) (db2 : UserDB) (req2 : LoginRequest),
      IsValidPhone req2.Phone = true →
      db2.FirstByPhone (NormalizePhone req2.Phone) = .error Error.ErrRecordNotFound →
      (Login h2 db2 req2).resp = none ∧ (Login h2 db2 req2).err = (Login h db req).err) := by
  have hl : Login h db req =
      { resp := none, err := some "invalid phone number or password", db := db } := by
    simp [Login, hvalid, hfind, hactive, hpw]
  rw [hl]
  refine ⟨rfl, rfl, rfl, ?_⟩
  intro h2 db2 req2 hv2 hf2
  simp [Login, hv2, hf2]

theorem Login_wrong_password_witness :
    IsValidPhone sampleWrongLogin.Phone = true ∧
    (Login sampleHelpers (Register sampleHelpers sampleUserDB sampleRegistration).db
      sampleWrongLogin).resp = none ∧
    (Login sampleHelpers (Register sampleHelpers sampleUserDB sampleRegistration).db
      sampleWrongLogin).err = some "invalid phone number or password" :=
  have hw := Login_wrong_password sampleHelpers
    (Register sampleHelpers sampleUserDB sampleRegistration).db sampleWrongLogin
    { ID := 1, Name := ascii "John Doe", Phone := ascii "6281234567890",
      PasswordHash := ascii "$2a$password123", Email := some (ascii "john@example.com"),
      Status := "active" }
    (by decide) rfl rfl (by decide)
  ⟨by decide, hw.1, hw.2.1⟩

/-! ## Role check -/

/-- C25: `RoleMiddleware(requiredRoles)` lets a request proceed if and only
if a `user_role` is present and it is `super_admin` or one of
`requiredRoles`; it aborts with 403 and `User role not found` when the role
is absent, and with 403 and `Insufficient permissions` in every other
case. -/
theorem RoleMiddleware_next_iff (requiredRoles : List String) (userRole : Option String) :
    (RoleMiddleware requiredRoles userRole = Answer.next ↔
      ∃ role, userRole = some role ∧ (role = "super_admin" ∨ role ∈ requiredRoles)) ∧
    (userRole = none →
      RoleMiddleware requiredRoles userRole = Answer.abort 403 "User role not found") ∧
    (∀ role, userRole = some role → role ≠ "super_admin" → role ∉ requiredRoles →
      RoleMiddleware requiredRoles userRole = Answer.abort 403 "Insufficient permissions") := by
  cases userRole with
  | none => simp [RoleMiddleware]
  | some role =>
    by_cases hs : role = "super_admin"
    · simp [RoleMiddleware, hs]
    · by_cases hm : role ∈ requiredRoles
      · have hany : requiredRoles.any (fun requiredRole => role == requiredRole) = true := by
          rw [List.any_eq_true]
          exact ⟨role, hm, by simp⟩
        simp [RoleMiddleware, hs, hany, hm]
      · have hany : requiredRoles.any (fun requiredRole => role == requiredRole) = false := by
          rw [List.any_eq_false]
          intro x hx
          have : role ≠ x := fun e => hm (e ▸ hx)
          simpa using this
        simp [RoleMiddleware, hs, hany, hm]

theorem RoleMiddleware_next_iff_witness :
    RoleMiddleware ["admin", "operator"] (some "operator") = Answer.next ∧
    RoleMiddleware ["admin"] (some "super_admin") = Answer.next ∧
    RoleMiddleware ["admin"] none = Answer.abort 403 "User role not found" ∧
    RoleMiddleware ["admin"] (some "operator") = Answer.abort 403 "Insufficient permissions" :=
  ⟨(RoleMiddleware_next_iff ["admin", "operator"] (some "operator")).1.mpr
      ⟨"operator", rfl, Or.inr (by decide)⟩,
   (RoleMiddleware_next_iff ["admin"] (some "super_admin")).1.mpr
      ⟨"super_admin", rfl, Or.inl rfl⟩,
   (RoleMiddleware_next_iff ["admin"] none).2.1 rfl,
   (RoleMiddleware_next_iff ["admin"] (some "operator")).2.2 "operator" rfl (by decide)
      (by decide)⟩

/-! ## Pagination -/

theorem wrapInt64_sub_one (x : Int) : wrapInt64 (wrapInt64 x - 1) = wrapInt64 (x - 1) := by
  simp only [wrapInt64]
  omega

theorem ParseInt_clamped (s : Bytes) (d : Int) (hd : 1 ≤ d) :
    1 ≤ (match ParseInt s with
      | none => d
      | some p => if p < 1 then d else p) := by
  cases ParseInt s with
  | none => exact hd
  | some p =>
    by_cases hp : p < 1
    · simp [hp, hd]
    · simp only [hp, if_false]
      omega

theorem GetPaginationParams_bounds (pageQuery limitQuery : Option Bytes) :
    1 ≤ (GetPaginationParams pageQuery limitQuery).1 ∧
    1 ≤ (GetPaginationParams pageQuery limitQuery).2 ∧
    (GetPaginationParams pageQuery limitQuery).2 ≤ 100 := by
  have h1 := ParseInt_clamped (pageQuery.getD (ascii "1")) 1 (by norm_num)
  have h2 := ParseInt_clamped (limitQuery.getD (ascii "10")) 10 (by norm_num)
  simp only [GetPaginationParams]
  refine ⟨h1, ?_, ?_⟩
  · split_ifs
    · norm_num
    · exact h2
  · split_ifs with hgt
    · norm_num
    · omega

/-- The page count `CalculatePagination` computes when nothing overflows. -/
theorem CalculatePagination_eq (page limit total : Int) (hl : 1 ≤ limit) (ht : 0 ≤ total)
    (hno : total + limit - 1 < 2 ^ 63) :
    CalculatePagination page limit total =
      some { Page := page, Limit := limit, Total := total,
             TotalPages := (total + limit - 1) / limit } := by
  have hl0 : limit ≠ 0 := by omega
  have hn : 0 ≤ total + limit - 1 := by omega
  have h1 : wrapInt64 (wrapInt64 (total + limit) - 1) = total + limit - 1 := by
    rw [wrapInt64_sub_one, wrapInt64_of_range _ (by omega) hno]
  have hq0 : 0 ≤ (total + limit - 1) / limit := Int.ediv_nonneg hn (by omega)
  have hq1 : (total + limit - 1) / limit ≤ total + limit - 1 :=
    Int.ediv_le_self _ hn
  have h2 : Int.tdiv (total + limit - 1) limit = (total + limit - 1) / limit :=
    Int.tdiv_eq_ediv hn (by omega)
  simp only [CalculatePagination, hl0, if_false, h1, h2]
  rw [wrapInt64_of_range _ (by omega) (by omega)]

/-- C28: for `limit >= 1` and `total >= 0` with `total + limit - 1` within
`int64`, `CalculatePagination` does not panic, hands `Page`, `Limit` and
`Total` back unchanged, and its `TotalPages` is the ceiling of
`total / limit`: the least `k` with `k * limit >= total`, which is 0 when
`total` is 0.  `GetPaginationParams` always returns a page of at least 1 and a
limit within 1..100, so that the division is never by zero. -/
theorem CalculatePagination_ceiling (page limit total : Int) (hl : 1 ≤ limit) (ht : 0 ≤ total)
    (hno : total + limit - 1 < 2 ^ 63) :
    (∃ p, CalculatePagination page limit total = some p ∧
      p.Page = page ∧ p.Limit = limit ∧ p.Total = total ∧
      p.TotalPages = Int.ceil ((total : ℚ) / (limit : ℚ)) ∧
      total ≤ p.TotalPages * limit ∧
      (∀ k : Int, total ≤ k * limit → p.TotalPages ≤ k) ∧
      (total = 0 → p.TotalPages = 0)) ∧
    (∀ pageQuery limitQuery : Option Bytes,
      1 ≤ (GetPaginationParams pageQuery limitQuery).1 ∧
      1 ≤ (GetPaginationParams pageQuery limitQuery).2 ∧
      (GetPaginationParams pageQuery limitQuery).2 ≤ 100 ∧
      ∀ pg tot : Int,
        CalculatePagination pg (GetPaginationParams pageQuery limitQuery).2 tot ≠ none) := by
  have hpos : 0 < limit := by omega
  have hlow : (total + limit - 1) / limit * limit ≤ total + limit - 1 :=
    Int.ediv_mul_le _ (by omega)
  have hupp : total + limit - 1 < ((total + limit - 1) / limit + 1) * limit :=
    Int.lt_ediv_add_one_mul_self _ hpos
  have hge : total ≤ (total + limit - 1) / limit * limit := by
    have : ((total + limit - 1) / limit + 1) * limit =
        (total + limit - 1) / limit * limit + limit := by ring
    omega
  have hlt : ((total + limit - 1) / limit - 1) * limit < total := by
    have : ((total + limit - 1) / limit - 1) * limit =
        (total + limit - 1) / limit * limit - limit := by ring
    omega
  refine ⟨⟨_, CalculatePagination_eq page limit total hl ht hno, rfl, rfl, rfl, ?_, hge, ?_, ?_⟩,
    ?_⟩
  · symm
    rw [Int.ceil_eq_iff]
    have hposq : (0 : ℚ) < (limit : ℚ) := by exact_mod_cast hpos
    constructor
    · rw [lt_div_iff₀ hposq]
      have : (((total + limit - 1) / limit - 1) * limit : Int) < total := hlt
      exact_mod_cast this
    · rw [div_le_iff₀ hposq]
      exact_mod_cast hge
  · intro k hk
    show (total + limit - 1) / limit ≤ k
    by_contra hcon
    have hk1 : k ≤ (total + limit - 1) / limit - 1 := by omega
    have : k * limit ≤ ((total + limit - 1) / limit - 1) * limit :=
      mul_le_mul_of_nonneg_right hk1 (by omega)
    omega
  · intro h0
    have hz : (total + limit - 1) / limit = 0 := by
      apply Int.ediv_eq_zero_of_lt <;> omega
    exact hz
  · intro pageQuery limitQuery
    obtain ⟨h1, h2, h3⟩ := GetPaginationParams_bounds pageQuery limitQuery
    refine ⟨h1, h2, h3, ?_⟩
    intro pg tot
    have hne : (GetPaginationParams pageQuery limitQuery).2 ≠ 0 := by omega
    simp [CalculatePagination, hne]

theorem CalculatePagination_ceiling_witness :
    (1 : Int) ≤ 10 ∧ (0 : Int) ≤ 95 ∧ (95 + 10 - 1 : Int) < 2 ^ 63 ∧
    (∃ p, CalculatePagination 2 10 95 = some p ∧ p.Page = 2 ∧ p.Limit = 10 ∧ p.Total = 95 ∧
      95 ≤ p.TotalPages * 10 ∧ ∀ k : Int, 95 ≤ k * 10 → p.TotalPages ≤ k) ∧
    1 ≤ (GetPaginationParams (some (ascii "0")) (some (ascii "500"))).2 :=
  have hw := CalculatePagination_ceiling 2 10 95 (by decide) (by decide) (by decide)
  ⟨by decide, by decide, by decide,
    hw.1.imp (fun _ hp => ⟨hp.1, hp.2.1, hp.2.2.1, hp.2.2.2.1, hp.2.2.2.2.2.1, hp.2.2.2.2.2.2.1⟩),
    (hw.2 (some (ascii "0")) (some (ascii "500"))).2.1⟩

/-! ## Slugs -/

theorem replaceDoubleHyphen_sublist (s : List Char) :
    List.Sublist (replaceDoubleHyphen s) s := by
  induction s using replaceDoubleHyphen.induct with
  | case1 a b rest h ih =>
    rw [replaceDoubleHyphen, if_pos h, h.1]
    exact (ih.cons b).cons₂ '-'
  | case2 a b rest h ih =>
    rw [replaceDoubleHyphen, if_neg h]
    exact ih.cons₂ a
  | case3 l h =>
    cases l with
    | nil => simp [replaceDoubleHyphen]
    | cons a t =>
      cases t with
      | nil => simp [replaceDoubleHyphen]
      | cons b rest => exact absurd rfl (h a b rest)

theorem replaceDoubleHyphen_length_lt (s : List Char) (h : containsDoubleHyphen s = true) :
    (replaceDoubleHyphen s).length < s.length := by
  induction s using replaceDoubleHyphen.induct with
  | case1 a b rest hab ih =>
    rw [replaceDoubleHyphen, if_pos hab]
    have := (replaceDoubleHyphen_sublist rest).length_le
    simp only [List.length_cons]
    omega
  | case2 a b rest hab ih =>
    rw [replaceDoubleHyphen, if_neg hab]
    have hc : containsDoubleHyphen (b :: rest) = true := by
      simp only [containsDoubleHyphen, Bool.or_eq_true, Bool.and_eq_true, beq_iff_eq] at h
      rcases h with h | h
      · exact absurd h hab
      · exact h
    have := ih hc
    simp only [List.length_cons] at this ⊢
    omega
  | case3 l hl =>
    cases l with
    | nil => simp [containsDoubleHyphen] at h
    | cons a t =>
      cases t with
      | nil => simp [containsDoubleHyphen] at h
      | cons b rest => exact absurd rfl (hl a b rest)

theorem collapseHyphens_sublist (fuel : Nat) (s : List Char) :
    List.Sublist (collapseHyphens fuel s) s := by
  induction fuel generalizing s with
  | zero => exact List.Sublist.refl s
  | succ fuel ih =>
    simp only [collapseHyphens]
    split_ifs
    · exact (ih _).trans (replaceDoubleHyphen_sublist s)
    · exact List.Sublist.refl s

/-- The loop leaves no pair of hyphens when the fuel is the length. -/
theorem collapseHyphens_no_double (fuel : Nat) (s : List Char) (h : s.length ≤ fuel) :
    containsDoubleHyphen (collapseHyphens fuel s) = false := by
  induction fuel generalizing s with
  | zero =>
    have : s = [] := List.length_eq_zero.mp (Nat.le_zero.mp h)
    simp [collapseHyphens, this, containsDoubleHyphen]
  | succ fuel ih =>
    simp only [collapseHyphens]
    split_ifs with hc
    · apply ih
      have := replaceDoubleHyphen_length_lt s hc
      omega
    · simpa using hc

theorem chain_of_no_double (s : List Char) (h : containsDoubleHyphen s = false) :
    s.Chain' (fun a b => ¬ (a = '-' ∧ b = '-')) := by
  induction s with
  | nil => exact List.chain'_nil
  | cons a t ih =>
    cases t with
    | nil => exact List.chain'_singleton a
    | cons b rest =>
      simp only [containsDoubleHyphen, Bool.or_eq_false_iff, Bool.and_eq_false_imp,
        beq_iff_eq] at h
      rw [List.chain'_cons]
      refine ⟨?_, ih h.2⟩
      intro hab
      have := h.1 hab.1
      simp [hab.2] at this

theorem trimHyphens_within (s : List Char) : trimHyphens s <:+: s :=
  List.IsInfix.trans
    (List.IsPrefix.isInfix ( List.rdropWhile_prefix (fun r => r == '-') _))
    (List.IsSuffix.isInfix (List.dropWhile_suffix (fun r => r == '-')))

theorem trimHyphens_head (s : List Char) : (trimHyphens s).head? ≠ some '-' := by
  intro hh
  have hpre : trimHyphens s <+: s.dropWhile (fun r => r == '-') :=
    List.rdropWhile_prefix (fun r => r == '-') _
  obtain ⟨t, ht⟩ := hpre
  cases hr : trimHyphens s with
  | nil => simp [hr] at hh
  | cons a rest =>
    rw [hr] at hh ht
    simp only [List.head?_cons, Option.some.injEq] at hh
    have h2 := List.head?_dropWhile_not (fun r => r == '-') s
    rw [← ht] at h2
    simp [hh] at h2

theorem trimHyphens_getLast (s : List Char) : (trimHyphens s).getLast? ≠ some '-' := by
  intro hh
  by_cases hne : trimHyphens s = []
  · simp [hne] at hh
  · have h1 := List.rdropWhile_last_not (fun r => r == '-')
      (s.dropWhile (fun r => r == '-')) hne
    rw [List.getLast?_eq_getLast _ hne] at hh
    simp only [Option.some.injEq] at hh
    apply h1
    have : (trimHyphens s).getLast hne = '-' := hh
    simp only [trimHyphens] at this
    simp [this]

/-- C26: for every title, and whatever the case table says above ASCII, the
slug `GenerateSlug` returns is made only of the runes `a`-`z`, `0`-`9` and
`-`, has no two consecutive hyphens, and neither starts nor ends with a
hyphen; `Mobile Legends` gives `mobile-legends`. -/
theorem GenerateSlug_shape (table : Char → Char) (title : String) :
    (∀ r ∈ (GenerateSlug table title).data,
      (97 ≤ r.toNat ∧ r.toNat ≤ 122) ∨ (48 ≤ r.toNat ∧ r.toNat ≤ 57) ∨ r = '-') ∧
    (GenerateSlug table title).data.Chain' (fun a b => ¬ (a = '-' ∧ b = '-')) ∧
    (GenerateSlug table title).data.head? ≠ some '-' ∧
    (GenerateSlug table title).data.getLast? ≠ some '-' ∧
    GenerateSlug table "Mobile Legends" = "mobile-legends" := by
  refine ⟨?_, ?_, ?_, ?_, rfl⟩
  · intro r hr
    have h1 : r ∈ collapseHyphens _ _ := (trimHyphens_within _).subset hr
    have h2 := (collapseHyphens_sublist _ _).subset h1
    have h3 := (List.mem_filter.mp h2).2
    simpa [isSlugRune] using h3
  · exact List.Chain'.infix
      (chain_of_no_double _ (collapseHyphens_no_double _ _ (Nat.le_refl _)))
      (trimHyphens_within _)
  · exact trimHyphens_head _
  · exact trimHyphens_getLast _

theorem GenerateSlug_shape_witness :
    GenerateSlug id "  --Free -- Fire!! --- 2024--" = "free-fire-2024" ∧
    (GenerateSlug id "  --Free -- Fire!! --- 2024--").data.Chain'
      (fun a b => ¬ (a = '-' ∧ b = '-')) ∧
    (GenerateSlug id "  --Free -- Fire!! --- 2024--").data.head? ≠ some '-' :=
  ⟨by decide, (GenerateSlug_shape id "  --Free -- Fire!! --- 2024--").2.1,
    (GenerateSlug_shape id "  --Free -- Fire!! --- 2024--").2.2.1⟩

/-! ## Product form configuration: theorems -/

theorem validateFields_ok_eq : ∀ (fc : List FormField) (seen s : List String),
    validateFields fc seen = .ok s → s = (fc.map FormField.Field).reverse ++ seen
  | [], seen, s, h => by
    simp only [validateFields, Except.ok.injEq] at h
    simp [h]
  | f :: rest, seen, s, h => by
    unfold validateFields at h
    split_ifs at h with h1 h2 h3 h4
    have := validateFields_ok_eq rest _ _ h
    simp [this]

theorem validateFields_ok_iff : ∀ (fc : List FormField) (seen : List String),
    (∃ s, validateFields fc seen = .ok s) ↔
      (∀ f ∈ fc, f.Field ≠ "" ∧ f.Label ≠ "" ∧ f.FieldType ≠ "") ∧
      (∀ f ∈ fc, f.Field ∉ seen) ∧
      (fc.map FormField.Field).Nodup ∧
      (∀ f ∈ fc, f.FieldType = "text" ∨ f.FieldType = "select" ∨ f.FieldType = "number") ∧
      (∀ f ∈ fc, f.FieldType = "select" → f.Options ≠ [])
  | [], seen => by simp [validateFields]
  | f :: rest, seen => by
    unfold validateFields
    by_cases h1 : f.Field = "" ∨ f.Label = "" ∨ f.FieldType = ""
    · rw [if_pos h1]
      constructor
      · rintro ⟨s, hs⟩
        cases hs
      · rintro ⟨ha, -⟩
        have := ha f (List.mem_cons_self _ _)
        tauto
    rw [if_neg h1]
    by_cases h2 : f.Field ∈ seen
    · rw [if_pos h2]
      constructor
      · rintro ⟨s, hs⟩
        cases hs
      · rintro ⟨-, hb, -⟩
        exact absurd h2 (hb f (List.mem_cons_self _ _))
    rw [if_neg h2]
    by_cases h3 : ¬ (f.FieldType = "text" ∨ f.FieldType = "select" ∨ f.FieldType = "number")
    · rw [if_pos h3]
      constructor
      · rintro ⟨s, hs⟩
        cases hs
      · rintro ⟨-, -, -, hd, -⟩
        exact absurd (hd f (List.mem_cons_self _ _)) h3
    rw [if_neg h3]
    by_cases h4 : f.FieldType = "select" ∧ f.Options.length = 0
    · rw [if_pos h4]
      constructor
      · rintro ⟨s, hs⟩
        cases hs
      · rintro ⟨-, -, -, -, he⟩
        exact absurd (List.length_eq_zero.mp h4.2) (he f (List.mem_cons_self _ _) h4.1)
    rw [if_neg h4, validateFields_ok_iff rest (f.Field :: seen)]
    have h1a : f.Field ≠ "" ∧ f.Label ≠ "" ∧ f.FieldType ≠ "" := by tauto
    have h3a : f.FieldType = "text" ∨ f.FieldType = "select" ∨ f.FieldType = "number" := by
      tauto
    have h4a : f.FieldType = "select" → f.Options ≠ [] := fun e o =>
      h4 ⟨e, List.length_eq_zero.mpr o⟩
    constructor
    · rintro ⟨ha, hb, hc, hd, he⟩
      refine ⟨?_, ?_, ?_, ?_, ?_⟩
      · intro g hg
        rcases List.mem_cons.mp hg with rfl | hg
        · exact h1a
        · exact ha g hg
      · intro g hg
        rcases List.mem_cons.mp hg with rfl | hg
        · exact h2
        · exact fun hm => hb g hg (List.mem_cons_of_mem _ hm)
      · rw [List.map_cons, List.nodup_cons]
        refine ⟨?_, hc⟩
        intro hm
        obtain ⟨g, hg, hgf⟩ := List.mem_map.mp hm
        exact hb g hg (by rw [hgf]; exact List.mem_cons_self _ _)
      · intro g hg
        rcases List.mem_cons.mp hg with rfl | hg
        · exact h3a
        · exact hd g hg
      · intro g hg
        rcases List.mem_cons.mp hg with rfl | hg
        · exact h4a
        · exact he g hg
    · rintro ⟨ha, hb, hc, hd, he⟩
      rw [List.map_cons, List.nodup_cons] at hc
      refine ⟨fun g hg => ha g (List.mem_cons_of_mem _ hg), ?_, hc.2,
        fun g hg => hd g (List.mem_cons_of_mem _ hg),
        fun g hg => he g (List.mem_cons_of_mem _ hg)⟩
      intro g hg hm
      rcases List.mem_cons.mp hm with e | hm
      · exact hc.1 (List.mem_map.mpr ⟨g, hg, e⟩)
      · exact hb g (List.mem_cons_of_mem _ hg) hm

theorem validateFormConfig_none_iff (fc : List FormField) :
    validateFormConfig fc = none ↔
      fc ≠ [] ∧
      (∀ f ∈ fc, f.Field ≠ "" ∧ f.Label ≠ "" ∧ f.FieldType ≠ "") ∧
      (fc.map FormField.Field).Nodup ∧
      (∀ f ∈ fc, f.FieldType = "text" ∨ f.FieldType = "select" ∨ f.FieldType = "number") ∧
      (∀ f ∈ fc, f.FieldType = "select" → f.Options ≠ []) ∧
      (∃ f ∈ fc, f.Field = "gameAccount") := by
  have key := validateFields_ok_iff fc []
  unfold validateFormConfig
  by_cases h0 : fc.length = 0
  · rw [if_pos h0]
    have : fc = [] := List.length_eq_zero.mp h0
    simp [this]
  rw [if_neg h0]
  have hne : fc ≠ [] := fun e => h0 (by rw [e]; rfl)
  cases hv : validateFields fc [] with
  | error e =>
    rw [hv] at key
    constructor
    · intro h
      cases h
    · rintro ⟨-, ha, hc, hd, he, -⟩
      obtain ⟨s, hs⟩ := key.mpr ⟨ha, by simp, hc, hd, he⟩
      cases hs
  | ok seen =>
    have hs := validateFields_ok_eq fc [] seen hv
    obtain ⟨ha, -, hc, hd, he⟩ := key.mp ⟨seen, hv⟩
    have hmem : "gameAccount" ∈ seen ↔ ∃ f ∈ fc, f.Field = "gameAccount" := by
      rw [hs]
      simp
    by_cases hg : "gameAccount" ∈ seen
    · simp only [hg, not_true_eq_false, if_false, true_iff]
      exact ⟨hne, ha, hc, hd, he, hmem.mp hg⟩
    · simp only [hg, not_false_eq_true, if_true]
      constructor
      · intro h
        cases h
      · rintro ⟨-, -, -, -, -, hex⟩
        exact absurd (hmem.mpr hex) hg

theorem CreateProduct_rejected (table : Char → Char) (db : ProductDB)
    (req : CreateProductRequest) (h : validateFormConfig req.FormConfig ≠ none) :
    (CreateProduct table db req).err ≠ none ∧ (CreateProduct table db req).product = none ∧
      (CreateProduct table db req).db = db := by
  unfold CreateProduct
  cases hc : db.FirstCategory req.CategoryID with
  | error e =>
    by_cases he : e = Error.ErrRecordNotFound <;> simp [he]
  | ok c =>
    cases hs : db.FirstBySlug (GenerateSlug table req.Name) none with
    | ok p => simp
    | error e =>
      cases hv : validateFormConfig req.FormConfig with
      | none => exact absurd hv h
      | some e => simp

theorem UpdateProduct_rejected (table : Char → Char) (db : ProductDB) (productID : Nat)
    (req : UpdateProductRequest) (h : validateFormConfig req.FormConfig ≠ none) :
    (UpdateProduct table db productID req).err ≠ none ∧
      (UpdateProduct table db productID req).product = none ∧
      (UpdateProduct table db productID req).db = db := by
  unfold UpdateProduct
  cases hp : db.FirstProduct productID with
  | error e =>
    by_cases he : e = Error.ErrRecordNotFound <;> simp [he]
  | ok product =>
    cases hc : db.FirstCategory req.CategoryID with
    | error e =>
      by_cases he : e = Error.ErrRecordNotFound <;> simp [he]
    | ok c =>
      by_cases hn : product.Name ≠ req.Name ∧
          (db.FirstBySlug (GenerateSlug table req.Name) (some productID)).toBool = true
      · simp only [if_pos hn]
        simp
      · simp only [if_neg hn]
        cases hv : validateFormConfig req.FormConfig with
        | none => exact absurd hv h
        | some e => simp

/-- C24: `validateFormConfig` accepts a form configuration exactly when it is
non-empty, every field has a non-empty `Field`, `Label` and `Type`, the `Field`
names are pairwise distinct, every `Type` is text, select or number, every
select field has an option and some field is named gameAccount; with any
other configuration `CreateProduct` and `UpdateProduct` return an error and
no product, and leave the tables as they were. -/
theorem validateFormConfig_accepts_iff (table : Char → Char) (db : ProductDB)
    (req : CreateProductRequest) (productID : Nat) (ureq : UpdateProductRequest)
    (fc : List FormField) :
    (validateFormConfig fc = none ↔
      fc ≠ [] ∧
      (∀ f ∈ fc, f.Field ≠ "" ∧ f.Label ≠ "" ∧ f.FieldType ≠ "") ∧
      (fc.map FormField.Field).Nodup ∧
      (∀ f ∈ fc, f.FieldType = "text" ∨ f.FieldType = "select" ∨ f.FieldType = "number") ∧
      (∀ f ∈ fc, f.FieldType = "select" → f.Options ≠ []) ∧
      (∃ f ∈ fc, f.Field = "gameAccount")) ∧
    (validateFormConfig req.FormConfig ≠ none →
      (CreateProduct table db req).err ≠ none ∧ (CreateProduct table db req).product = none ∧
        (CreateProduct table db req).db = db) ∧
    (validateFormConfig ureq.FormConfig ≠ none →
      (UpdateProduct table db productID ureq).err ≠ none ∧
        (UpdateProduct table db productID ureq).product = none ∧
        (UpdateProduct table db productID ureq).db = db) :=
  ⟨validateFormConfig_none_iff fc, CreateProduct_rejected table db req,
    UpdateProduct_rejected table db productID ureq⟩

/-- Witness for C24: a form without a gameAccount field is refused, and the
product asked for with it is not written. -/
theorem validateFormConfig_accepts_iff_witness :
    validateFormConfig sampleBadProduct.FormConfig ≠ none ∧
    validateFormConfig [sampleGameAccountField, sampleServerField] = none ∧
    (CreateProduct id sampleProductDB sampleBadProduct).err ≠ none ∧
    (CreateProduct id sampleProductDB sampleBadProduct).product = none ∧
    (CreateProduct id sampleProductDB sampleBadProduct).db = sampleProductDB :=
  ⟨by decide, by decide,
    (validateFormConfig_accepts_iff id sampleProductDB sampleBadProduct 1
      { CategoryID := 1, Name := "", Description := "", Price := 0, OriginalPrice := none,
        DiscountPercentage := 0, FormConfig := [], Status := "", DisplayOrder := 0 }
      sampleBadProduct.FormConfig).2.1 (by decide)⟩

/-! ## Rate limit: theorems -/

theorem Time.Sub_lt_Minute (t u : Time) : Time.Sub t u < Minute ↔ t - u < Minute := by
  have key : ∀ d : Int,
      (if d > 2 ^ 63 - 1 then (2 ^ 63 - 1 : Int) else if d < -(2 ^ 63) then -(2 ^ 63) else d)
        < 60 * 1000000000 ↔ d < 60 * 1000000000 := by
    intro d
    split_ifs <;> omega
  exact key (t - u)

theorem lookup_set (st : Limiter) (ip : String) (v : List Time) :
    (st.set ip v).lookup ip = v := by
  simp [Limiter.set, Limiter.lookup]

theorem lookup_set_ne (st : Limiter) (ip k : String) (v : List Time) (h : k ≠ ip) :
    (st.set ip v).lookup k = st.lookup k := by
  simp [Limiter.set, Limiter.lookup, h]

theorem lookup_cleanOld (st : Limiter) (ip : String) (now : Time) :
    (cleanOld st ip now).lookup ip =
      (st.lookup ip).filter (fun t => decide (now - t < Minute)) := by
  unfold cleanOld
  cases h : st ip with
  | none => simp [Limiter.lookup, h]
  | some times =>
    simp only [lookup_set]
    simp [Limiter.lookup, h, Time.Sub_lt_Minute]

theorem lookup_cleanOld_ne (st : Limiter) (ip k : String) (now : Time) (hk : k ≠ ip) :
    (cleanOld st ip now).lookup k = st.lookup k := by
  unfold cleanOld
  cases h : st ip with
  | none => rfl
  | some times => exact lookup_set_ne _ _ _ _ hk

theorem handleAll_snoc (e : Bool) (n : Int) (reqs : List (String × Time)) (r : String × Time) :
    handleAll e n (reqs ++ [r]) = handleRequest e n (handleAll e n reqs) r := by
  simp [handleAll, List.foldl_append]

theorem handleRequest_cases (n : Int) (s : Limiter × List (String × Time))
    (r : String × Time) :
    (∀ k, k ≠ r.1 → (handleRequest true n s r).1.lookup k = s.1.lookup k) ∧
    ((n ≤ (((s.1.lookup r.1).filter (fun t => decide (r.2 - t < Minute))).length : Int) ∧
        (handleRequest true n s r).1.lookup r.1 =
          (s.1.lookup r.1).filter (fun t => decide (r.2 - t < Minute)) ∧
        (handleRequest true n s r).2 = s.2) ∨
     ((((s.1.lookup r.1).filter (fun t => decide (r.2 - t < Minute))).length : Int) < n ∧
        (handleRequest true n s r).1.lookup r.1 =
          (s.1.lookup r.1).filter (fun t => decide (r.2 - t < Minute)) ++ [r.2] ∧
        (handleRequest true n s r).2 = s.2 ++ [r])) := by
  by_cases h : n ≤ (((s.1.lookup r.1).filter (fun t => decide (r.2 - t < Minute))).length : Int)
  · have hc : ((cleanOld s.1 r.1 r.2).lookup r.1).length ≥ n := by
      rw [lookup_cleanOld]
      exact h
    refine ⟨?_, Or.inl ⟨h, ?_, ?_⟩⟩
    · intro k hk
      simp only [handleRequest, RateLimitMiddleware, if_pos hc]
      simpa using lookup_cleanOld_ne s.1 r.1 k r.2 hk
    · simp only [handleRequest, RateLimitMiddleware, if_pos hc]
      simpa using lookup_cleanOld s.1 r.1 r.2
    · simp [handleRequest, RateLimitMiddleware, if_pos hc]
  · have hc : ¬ ((cleanOld s.1 r.1 r.2).lookup r.1).length ≥ n := by
      rw [lookup_cleanOld]
      exact h
    refine ⟨?_, Or.inr ⟨lt_of_not_le h, ?_, ?_⟩⟩
    · intro k hk
      simp only [handleRequest, RateLimitMiddleware, if_neg hc]
      simp only [Bool.true_eq_false, if_false]
      rw [lookup_set_ne _ _ _ _ hk]
      exact lookup_cleanOld_ne s.1 r.1 k r.2 hk
    · simp only [handleRequest, RateLimitMiddleware, if_neg hc]
      simp only [Bool.true_eq_false, if_false]
      rw [lookup_set, lookup_cleanOld]
    · simp [handleRequest, RateLimitMiddleware, if_neg hc]

theorem RateLimitMiddleware_abort (n : Int) (st : Limiter) (ip : String) (now : Time)
    (h : n ≤ (((st.lookup ip).filter (fun t => decide (now - t < Minute))).length : Int)) :
    RateLimitMiddleware true n st ip now =
      (Answer.abort 429 "Rate limit exceeded", cleanOld st ip now) := by
  have hc : ((cleanOld st ip now).lookup ip).length ≥ n := by
    rw [lookup_cleanOld]
    exact h
  simp [RateLimitMiddleware, if_pos hc]

theorem handleAll_stored_le (n : Int) (reqs : List (String × Time)) :
    ∀ ip, ((handleAll true n reqs).1.lookup ip).length ≤ n.toNat := by
  induction reqs using List.reverseRecOn with
  | nil =>
    intro ip
    simp [handleAll, Limiter.lookup, Limiter.empty]
  | append_singleton reqs r ih =>
    intro ip
    rw [handleAll_snoc]
    obtain ⟨hother, hself⟩ := handleRequest_cases n (handleAll true n reqs) r
    by_cases hip : ip = r.1
    · subst hip
      have hle := List.length_filter_le (fun t => decide (r.2 - t < Minute))
        ((handleAll true n reqs).1.lookup r.1)
      have := ih r.1
      rcases hself with ⟨-, hl, -⟩ | ⟨hlt, hl, -⟩
      · rw [hl]
        omega
      · rw [hl, List.length_append, List.length_singleton]
        omega
    · rw [hother ip hip]
      exact ih ip

theorem handleAll_admitted_sublist (n : Int) (reqs : List (String × Time)) :
    List.Sublist (handleAll true n reqs).2 reqs := by
  induction reqs using List.reverseRecOn with
  | nil => simp [handleAll]
  | append_singleton reqs r ih =>
    rw [handleAll_snoc]
    obtain ⟨-, hself⟩ := handleRequest_cases n (handleAll true n reqs) r
    rcases hself with ⟨-, -, ha⟩ | ⟨-, -, ha⟩
    · rw [ha]
      exact ih.trans (List.sublist_append_left _ _)
    · rw [ha]
      exact List.Sublist.append ih (List.Sublist.refl _)

theorem handleAll_recent_le (n : Int) (reqs : List (String × Time))
    (hs : reqs.Pairwise (fun a b => a.2 ≤ b.2)) :
    ∀ (ip : String) (T : Time), (∀ r ∈ reqs, r.2 ≤ T) →
      List.countP (fun r => decide (r.1 = ip) && decide (T - r.2 < Minute))
          (handleAll true n reqs).2 ≤
        List.countP (fun t => decide (T - t < Minute)) ((handleAll true n reqs).1.lookup ip) := by
  induction reqs using List.reverseRecOn with
  | nil =>
    intro ip T _
    simp [handleAll]
  | append_singleton reqs r ih =>
    intro ip T hT
    obtain ⟨hs1, -, -⟩ := List.pairwise_append.mp hs
    have hrT : r.2 ≤ T := hT r (by simp)
    have ih1 := ih hs1 ip T (fun a ha => hT a (List.mem_append_left _ ha))
    rw [handleAll_snoc]
    obtain ⟨hother, hself⟩ := handleRequest_cases n (handleAll true n reqs) r
    by_cases hip : ip = r.1
    · subst hip
      have hmono : List.countP (fun t => decide (T - t < Minute))
          ((handleAll true n reqs).1.lookup r.1) ≤
          List.countP (fun t => decide (T - t < Minute))
            (((handleAll true n reqs).1.lookup r.1).filter
              (fun t => decide (r.2 - t < Minute))) := by
        rw [List.countP_filter]
        apply List.countP_mono_left
        intro t _ ht
        simp only [decide_eq_true_eq] at ht
        simp only [Bool.and_eq_true, decide_eq_true_eq]
        exact ⟨ht, lt_of_le_of_lt (Int.sub_le_sub_right hrT t) ht⟩
      rcases hself with ⟨-, hl, ha⟩ | ⟨-, hl, ha⟩
      · rw [hl, ha]
        exact ih1.trans hmono
      · rw [hl, ha, List.countP_append, List.countP_append, List.countP_singleton,
          List.countP_singleton]
        simp only [decide_True, Bool.true_and]
        exact Nat.add_le_add_right (ih1.trans hmono) _
    · rw [hother ip hip]
      have hr0 : List.countP (fun a => decide (a.1 = ip) && decide (T - a.2 < Minute)) [r]
          = 0 := by
        rw [List.countP_singleton]
        have : ¬ r.1 = ip := fun e => hip e.symm
        simp [this]
      rcases hself with ⟨-, -, ha⟩ | ⟨-, -, ha⟩
      · rw [ha]
        exact ih1
      · rw [ha, List.countP_append, hr0]
        exact ih1

theorem handleAll_window_le (n : Int) (reqs : List (String × Time))
    (hs : reqs.Pairwise (fun a b => a.2 ≤ b.2)) :
    ∀ (ip : String) (W : Time),
      List.countP
          (fun r => decide (r.1 = ip) && decide (W ≤ r.2) && decide (r.2 - W < Minute))
          (handleAll true n reqs).2 ≤ n.toNat := by
  induction reqs using List.reverseRecOn with
  | nil =>
    intro ip W
    simp [handleAll]
  | append_singleton reqs r ih =>
    intro ip W
    obtain ⟨hs1, -, hlast⟩ := List.pairwise_append.mp hs
    have ih1 := ih hs1 ip W
    have hrec := handleAll_recent_le n reqs hs1 r.1 r.2
      (fun a ha => hlast a ha r (List.mem_singleton_self r))
    rw [handleAll_snoc]
    obtain ⟨-, hself⟩ := handleRequest_cases n (handleAll true n reqs) r
    rcases hself with ⟨-, -, ha⟩ | ⟨hlt, -, ha⟩
    · rw [ha]
      exact ih1
    · rw [ha, List.countP_append, List.countP_singleton]
      by_cases hP : (decide (r.1 = ip) && decide (W ≤ r.2) && decide (r.2 - W < Minute)) = true
      · rw [if_pos hP]
        simp only [Bool.and_eq_true, decide_eq_true_eq] at hP
        obtain ⟨⟨hip, hW⟩, hM⟩ := hP
        have hmono : List.countP
            (fun a => decide (a.1 = ip) && decide (W ≤ a.2) && decide (a.2 - W < Minute))
            (handleAll true n reqs).2 ≤
            List.countP (fun a => decide (a.1 = r.1) && decide (r.2 - a.2 < Minute))
              (handleAll true n reqs).2 := by
          apply List.countP_mono_left
          intro a _ hPa
          simp only [Bool.and_eq_true, decide_eq_true_eq] at hPa ⊢
          obtain ⟨⟨hipa, hWa⟩, -⟩ := hPa
          exact ⟨hipa.trans hip.symm, lt_of_le_of_lt (Int.sub_le_sub_left hWa r.2) hM⟩
        rw [List.countP_eq_length_filter (fun t => decide (r.2 - t < Minute))] at hrec
        omega
      · rw [if_neg hP]
        exact ih1

/-- C27: with rate limiting enabled, a limit `n` and request times that never
decrease, the handler started on the fresh map keeps at most `max n 0`
instants for every client IP after every request, hands on at most `max n 0`
requests of one client IP that lie pairwise less than a minute apart, and
answers a request that arrives when `n` requests of its client IP handed on
are less than a minute old with 429 "Rate limit exceeded", storing nothing
for it beyond the instants of the last minute it already held. -/
theorem RateLimitMiddleware_limit (n : Int) (reqs : List (String × Time))
    (hs : reqs.Pairwise (fun a b => a.2 ≤ b.2)) :
    (∀ ip, (((handleAll true n reqs).1.lookup ip).length : Int) ≤ max n 0) ∧
    (∀ l, List.Sublist l (handleAll true n reqs).2 →
      (∀ a ∈ l, ∀ b ∈ l, a.1 = b.1 ∧ b.2 - a.2 < Minute) → (l.length : Int) ≤ max n 0) ∧
    (∀ ip now, (∀ r ∈ reqs, r.2 ≤ now) →
      n ≤ ((List.countP (fun r => decide (r.1 = ip) && decide (now - r.2 < Minute))
        (handleAll true n reqs).2 : Nat) : Int) →
      (RateLimitMiddleware true n (handleAll true n reqs).1 ip now).1 =
          Answer.abort 429 "Rate limit exceeded" ∧
        (RateLimitMiddleware true n (handleAll true n reqs).1 ip now).2.lookup ip =
          ((handleAll true n reqs).1.lookup ip).filter (fun t => decide (now - t < Minute))) := by
  refine ⟨?_, ?_, ?_⟩
  · intro ip
    have := handleAll_stored_le n reqs ip
    omega
  · intro l hl hclose
    cases l with
    | nil =>
      simp only [List.length_nil, Nat.cast_zero]
      exact le_max_right n 0
    | cons a rest =>
      have hsorted : (a :: rest).Pairwise (fun a b => a.2 ≤ b.2) :=
        List.Pairwise.sublist (hl.trans (handleAll_admitted_sublist n reqs)) hs
      have hall : ∀ b ∈ a :: rest,
          (decide (b.1 = a.1) && decide (a.2 ≤ b.2) && decide (b.2 - a.2 < Minute)) = true := by
        intro b hb
        have h1 := hclose a (List.mem_cons_self _ _) b hb
        have h2 : a.2 ≤ b.2 := by
          rcases List.mem_cons.mp hb with e | hb
          · rw [e]
          · exact (List.pairwise_cons.mp hsorted).1 b hb
        simp only [Bool.and_eq_true, decide_eq_true_eq]
        exact ⟨⟨h1.1.symm, h2⟩, h1.2⟩
      have hcount := List.countP_eq_length.mpr hall
      have hle := List.Sublist.countP_le
        (fun b => decide (b.1 = a.1) && decide (a.2 ≤ b.2) && decide (b.2 - a.2 < Minute)) hl
      have hwin := handleAll_window_le n reqs hs a.1 a.2
      omega
  · intro ip now hnow hn
    have hrec := handleAll_recent_le n reqs hs ip now hnow
    rw [List.countP_eq_length_filter (fun t => decide (now - t < Minute))] at hrec
    have hge : n ≤ ((((handleAll true n reqs).1.lookup ip).filter
        (fun t => decide (now - t < Minute))).length : Int) := by
      omega
    rw [RateLimitMiddleware_abort n _ ip now hge]
    exact ⟨rfl, lookup_cleanOld _ ip now⟩

/-- Witness for C27: of four requests of one client within a second, with the
limit 2, two are handed on and two instants are stored. -/
theorem RateLimitMiddleware_limit_witness :
    sampleBurst.Pairwise (fun a b => a.2 ≤ b.2) ∧
    (((handleAll true 2 sampleBurst).1.lookup "10.0.0.1").length : Int) ≤ max 2 0 ∧
    (handleAll true 2 sampleBurst).2 =
      [("10.0.0.1", 0), ("10.0.0.1", 250000000), ("10.0.0.2", 300000000)] ∧
    (RateLimitMiddleware true 2 (handleAll true 2 sampleBurst).1 "10.0.0.1" 1000000000).1 =
      Answer.abort 429 "Rate limit exceeded" :=
  ⟨by decide, (RateLimitMiddleware_limit 2 sampleBurst (by decide)).1 "10.0.0.1",
    by set_option maxRecDepth 20000 in rfl,
    by set_option maxRecDepth 20000 in rfl⟩

end TopupGame
